import Mathlib

/-!
Embedding of the four demos: `liquid-metal-morph.js` (namespace `LiquidMetal`),
`crystal-reflections.js` (`Crystal`), `wave-visualizer.js` (`WaveVisualizer`) and
`morphing-neon-blob.js` (`NeonBlob`).  The definitions of all four come first, the
lemmas and claims after them.

The module state of each demo (`params`, `morphTargets`, `liquidMetal`) is passed
explicitly.  JavaScript numbers are exact rationals extended with one non-number
value; rounding is not modelled.  The rendering library (geometry constructors,
surface sampler) and `Math.sin`, `Math.cos`, `Math.sqrt`, `Math.random` are external
to the repository and enter as parameters.
-/

namespace LiquidMetal

/-! ## JavaScript numbers -/

/-- A JavaScript number: a finite value, kept as an exact rational, or `nan`.
`nan` stands for every value that is not a finite number: what arithmetic on
`undefined` produces and what a division by zero produces (`NaN` for `0 / 0`, an
infinity for another numerator).  It absorbs every arithmetic operation.  The
comparisons of the embedded code never receive the result of a division, so a `nan`
that reaches them is `NaN` and fails them. -/
inductive JSNum where
  | fin (q : ℚ)
  | nan
  deriving DecidableEq

namespace JSNum

/-- JavaScript `a + b`. -/
def add : JSNum → JSNum → JSNum
  | fin a, fin b => fin (a + b)
  | _, _ => nan

/-- JavaScript `a - b`. -/
def sub : JSNum → JSNum → JSNum
  | fin a, fin b => fin (a - b)
  | _, _ => nan

/-- JavaScript `a * b`. -/
def mul : JSNum → JSNum → JSNum
  | fin a, fin b => fin (a * b)
  | _, _ => nan

/-- JavaScript `a / b`; a zero divisor gives no finite number. -/
def div : JSNum → JSNum → JSNum
  | fin a, fin b => if b = 0 then nan else fin (a / b)
  | _, _ => nan

/-- JavaScript `a >= b`: false as soon as one side is not a number. -/
def ge : JSNum → JSNum → Bool
  | fin a, fin b => decide (b ≤ a)
  | _, _ => false

/-- JavaScript `a < b`: false as soon as one side is not a number. -/
def lt : JSNum → JSNum → Bool
  | fin a, fin b => decide (a < b)
  | _, _ => false

/-- JavaScript `Number.isFinite(a)`. -/
def isFinite : JSNum → Bool
  | fin _ => true
  | nan => false

instance : Add JSNum := ⟨add⟩
instance : Sub JSNum := ⟨sub⟩
instance : Mul JSNum := ⟨mul⟩
instance : Div JSNum := ⟨div⟩
instance : OfNat JSNum n := ⟨fin n⟩

end JSNum

open JSNum

/-- The functions of the JavaScript `Math` object that the demo calls, on finite
arguments, with the facts about them that the proofs rely on. -/
structure JSMath where
  sin : ℚ → ℚ
  cos : ℚ → ℚ
  sqrt : ℚ → ℚ
  sin_abs_le : ∀ q, |sin q| ≤ 1
  cos_abs_le : ∀ q, |cos q| ≤ 1
  sqrt_zero : sqrt 0 = 0
  sqrt_pos : ∀ q, 0 < q → 0 < sqrt q

namespace JSMath

/-- JavaScript `Math.sin(a)`. -/
def sinN (M : JSMath) : JSNum → JSNum
  | fin q => fin (M.sin q)
  | nan => nan

/-- JavaScript `Math.cos(a)`. -/
def cosN (M : JSMath) : JSNum → JSNum
  | fin q => fin (M.cos q)
  | nan => nan

/-- JavaScript `Math.sqrt(a)`: not a number below zero. -/
def sqrtN (M : JSMath) : JSNum → JSNum
  | fin q => if q < 0 then nan else fin (M.sqrt q)
  | nan => nan

end JSMath

/-- A rational stand-in for `Math`, used to evaluate the embedding on concrete inputs:
sine and cosine by the half-angle parametrisation of the circle, square root by one
averaging step.  It satisfies every fact recorded in `JSMath`. -/
def standInMath : JSMath where
  sin q := 2 * q / (1 + q ^ 2)
  cos q := (1 - q ^ 2) / (1 + q ^ 2)
  sqrt q := if q ≤ 0 then 0 else (q + 1) / 2
  sin_abs_le q := by
    have h : (0 : ℚ) < 1 + q ^ 2 := by positivity
    rw [abs_div, abs_of_pos h, div_le_one h, abs_le]
    constructor <;> nlinarith [sq_nonneg (q - 1), sq_nonneg (q + 1)]
  cos_abs_le q := by
    have h : (0 : ℚ) < 1 + q ^ 2 := by positivity
    rw [abs_div, abs_of_pos h, div_le_one h, abs_le]
    constructor <;> nlinarith [sq_nonneg q]
  sqrt_zero := by simp
  sqrt_pos q hq := by
    simp only [not_le.mpr hq, if_false]
    linarith

/-! ## Geometry -/

/-- A point of a position buffer (three consecutive numbers). -/
structure Vec3 where
  x : JSNum
  y : JSNum
  z : JSNum
  deriving DecidableEq

/-- A buffer geometry: its `attributes.position`, one entry per vertex, so that
`attributes.position.count` is the length of the list. -/
structure Geometry where
  position : List Vec3
  deriving DecidableEq

namespace Geometry

/-- The value of `attributes.position.count`. -/
def count (g : Geometry) : Nat := g.position.length

/-- The value of `attributes.position.getX(i)`, as a number: an index past the end of
the buffer reads `undefined`, which arithmetic turns into a non-number. -/
def getX (g : Geometry) (i : Nat) : JSNum :=
  match g.position[i]? with
  | some v => v.x
  | none => nan

/-- The value of `attributes.position.getY(i)`, as a number. -/
def getY (g : Geometry) (i : Nat) : JSNum :=
  match g.position[i]? with
  | some v => v.y
  | none => nan

/-- The value of `attributes.position.getZ(i)`, as a number. -/
def getZ (g : Geometry) (i : Nat) : JSNum :=
  match g.position[i]? with
  | some v => v.z
  | none => nan

end Geometry

/-- The surface sampler of the rendering library: `sample g n` is the point that the
sampler built on a mesh of `g` yields at the `n`-th call of `sample` overall (the
sampler draws from an unseeded random source, so the point depends on how many
samples were drawn before). -/
structure SurfaceSampler where
  sample : Geometry → Nat → Vec3

/-- The loop `for (let i = 0; i < targetVertexCount; i++)` of
`normalizeGeometryVertices`: each round draws one sample and stores its three
coordinates.  Returns the stored points and the number of samples drawn so far. -/
def fillVertices (S : SurfaceSampler) (geometry : Geometry) : Nat → Nat → List Vec3 × Nat
  | 0, drawn => ([], drawn)
  | n + 1, drawn =>
    let tempPosition := S.sample geometry drawn
    let rest := fillVertices S geometry n (drawn + 1)
    (tempPosition :: rest.1, rest.2)

/-- Embedding of `normalizeGeometryVertices(geometry, targetVertexCount)`.  `drawn`
counts the samples drawn from the surface sampler before the call; the result is the
returned geometry and the count after the call. -/
def normalizeGeometryVertices (S : SurfaceSampler) (geometry : Geometry)
    (targetVertexCount : Nat) (drawn : Nat) : Geometry × Nat :=
  if geometry.count = targetVertexCount then
    (geometry, drawn)
  else
    let vertices := fillVertices S geometry targetVertexCount drawn
    (⟨vertices.1⟩, vertices.2)

/-! ## The rendering library -/

/-- The geometry constructors of the rendering library that `createMorphTargets`
calls, with their arguments in the order of the calls. -/
structure GeometryLibrary where
  SphereGeometry : JSNum → JSNum → JSNum → Geometry
  TorusGeometry : JSNum → JSNum → JSNum → JSNum → Geometry
  BoxGeometry : JSNum → JSNum → JSNum → JSNum → JSNum → JSNum → Geometry
  ConeGeometry : JSNum → JSNum → JSNum → JSNum → Geometry
  IcosahedronGeometry : JSNum → JSNum → Geometry

/-- Modelled from the spec: `Vector3.normalize` belongs to the rendering library, which
is not under src/.  The vector is scaled by the inverse of its length, and a length
that is zero or not a number is replaced by 1, so the zero vector maps to itself. -/
def normalize (M : JSMath) (v : Vec3) : Vec3 :=
  let length := M.sqrtN (v.x * v.x + v.y * v.y + v.z * v.z)
  let scalar := if length = fin 0 ∨ length = nan then fin 1 else length
  ⟨v.x * (fin 1 / scalar), v.y * (fin 1 / scalar), v.z * (fin 1 / scalar)⟩

/-- The local function `noise` of `createAbstractShape`. -/
def abstractNoise (M : JSMath) (x y z : JSNum) : JSNum :=
  M.sinN (x * fin 2) * M.cosN (y * fin 2) * M.sinN (z * fin 2)

/-- The body of the vertex loop of `createAbstractShape`: the position written for a
vertex that was read as `(x, y, z)`. -/
def abstractVertex (M : JSMath) (v : Vec3) : Vec3 :=
  let x := v.x
  let y := v.y
  let z := v.z
  let noise1 := abstractNoise M (x * fin 2) (y * fin 2) (z * fin 2) * fin (2 / 10)
  let noise2 :=
    abstractNoise M (x * fin 4 + fin 100) (y * fin 4 + fin 100) (z * fin 4 + fin 100)
      * fin (1 / 10)
  let distortion := noise1 + noise2
  let direction := normalize M ⟨x, y, z⟩
  ⟨x + direction.x * distortion, y + direction.y * distortion,
    z + direction.z * distortion⟩

/-- Embedding of `createAbstractShape`: every vertex of the subdivided icosahedron is
rewritten in place, each from its own coordinates. -/
def createAbstractShape (M : JSMath) (L : GeometryLibrary) : Geometry :=
  let baseGeometry := L.IcosahedronGeometry (fin 1) (fin 4)
  ⟨baseGeometry.position.map (abstractVertex M)⟩

/-! ## Module state -/

/-- The fields of `params` that the morph engine reads or writes. -/
structure Params where
  autoMorph : Bool
  morphSpeed : JSNum
  morphDuration : JSNum
  currentMorphTime : JSNum
  currentMorphTarget : Option String
  nextMorphTarget : Option String
  surfaceTurbulence : JSNum
  noiseScale : JSNum
  noiseSpeed : JSNum
  currentShape : String
  resolution : JSNum
  deriving DecidableEq

/-- The value of `params` when the module is loaded. -/
def initialParams : Params where
  autoMorph := true
  morphSpeed := fin (1 / 2)
  morphDuration := fin 3
  currentMorphTime := fin 0
  currentMorphTarget := none
  nextMorphTarget := none
  surfaceTurbulence := fin (3 / 10)
  noiseScale := fin (8 / 10)
  noiseSpeed := fin (2 / 10)
  currentShape := "random"
  resolution := fin 64

/-- The object `morphTargets`: its keys in insertion order, each with its geometry. -/
abbrev MorphTargets := List (String × Geometry)

/-- The own property `key` of `morphTargets`: the geometry stored under the key, and
`none` when the object literal has no such key (a `null` key names none). -/
def MorphTargets.get (morphTargets : MorphTargets) : Option String → Option Geometry
  | none => none
  | some key => morphTargets.lookup key

/-- Modelled from the spec: the names of the properties that every object literal
inherits from `Object.prototype` in the language; none of this is under src/. -/
def objectPrototypeNames : List String :=
  ["constructor", "__defineGetter__", "__defineSetter__", "hasOwnProperty",
   "__lookupGetter__", "__lookupSetter__", "isPrototypeOf", "propertyIsEnumerable",
   "toString", "valueOf", "__proto__", "toLocaleString"]

/-- What the read `morphTargets[key]` gives: `undefined`, the geometry stored under an
own key, or a value inherited from `Object.prototype` (a function or the prototype
object), which is truthy and has no `attributes`. -/
inductive TargetValue where
  | undefined
  | geometry (g : Geometry)
  | inherited
  deriving DecidableEq

/-- The value of `morphTargets[key]`: the geometry stored under an own key; for any
other key the value inherited from `Object.prototype` when the key names one, and
`undefined` otherwise. -/
def MorphTargets.read (morphTargets : MorphTargets) (key : Option String) : TargetValue :=
  match morphTargets.get key with
  | some g => .geometry g
  | none =>
    match key with
    | some name => if name ∈ objectPrototypeNames then .inherited else .undefined
    | none => .undefined

/-- How a call of `updateLiquidMetal` ends: it returns, or it throws the `TypeError` of
reading `position` of an `undefined` `attributes`. -/
inductive Completion where
  | returned
  | threw
  deriving DecidableEq

/-- The module variables of the demo that the morph engine uses. -/
structure Demo where
  params : Params
  morphTargets : MorphTargets
  liquidMetal : Option Geometry
  deriving DecidableEq

/-- The module state when the module is loaded, before `init` runs. -/
def initialDemo : Demo := ⟨initialParams, [], none⟩

/-! ## Choosing the next shape -/

/-- One result of `Math.random()`: a number in `[0, 1)`. -/
abbrev Draw := { r : ℚ // 0 ≤ r ∧ r < 1 }

/-- The value of `shapes.indexOf(target)`: the first position of the key, or `-1`. -/
def indexOf : List String → Option String → Int
  | _, none => -1
  | [], some _ => -1
  | s :: rest, some t =>
    if s = t then 0
    else
      let i := indexOf rest (some t)
      if i = -1 then -1 else i + 1

/-- The `do ... while (nextIndex === currentIndex)` loop of `getNextShape`, run on the
successive results of `Math.random()`.  Returns the value of `shapes[nextIndex]` and the
draws not yet used, or `none` when the draws are used up before the loop ends. -/
def drawNextIndex (shapes : List String) (currentIndex : Int) :
    List Draw → Option (Option String × List Draw)
  | [] => none
  | r :: rest =>
    let nextIndex := Int.floor (r.val * shapes.length)
    if nextIndex = currentIndex then drawNextIndex shapes currentIndex rest
    else some (shapes[nextIndex.toNat]?, rest)

/-- Embedding of `getNextShape`. -/
def getNextShape (morphTargets : MorphTargets) (params : Params) (draws : List Draw) :
    Option (Option String × List Draw) :=
  if params.currentShape = "random" then
    let shapes := morphTargets.map Prod.fst
    let currentIndex := indexOf shapes params.currentMorphTarget
    drawNextIndex shapes currentIndex draws
  else
    some (some params.currentShape, draws)

/-! ## Building the morph targets -/

/-- The loop `for (const key in morphTargets)` of `createMorphTargets`.  Every geometry
of the library is a buffer geometry already, so the conversion branch is not taken.  For
each key other than `sphere` the loop calls `normalizeGeometryVertices`; the geometry
that the call returns is not stored anywhere, so only the count of samples drawn
changes. -/
def normalizeTargets (S : SurfaceSampler) (morphTargets : MorphTargets) :
    List String → Nat → Nat
  | [], drawn => drawn
  | key :: keys, drawn =>
    if key ≠ "sphere" then
      match morphTargets.lookup key, morphTargets.lookup "sphere" with
      | some geometry, some sphere =>
        let result := normalizeGeometryVertices S geometry sphere.count drawn
        normalizeTargets S morphTargets keys result.2
      | _, _ => normalizeTargets S morphTargets keys drawn
    else normalizeTargets S morphTargets keys drawn

/-- The object literal assigned to `morphTargets` at the start of
`createMorphTargets`. -/
def morphTargetLiteral (M : JSMath) (L : GeometryLibrary) (params : Params) : MorphTargets :=
  [("sphere", L.SphereGeometry (fin 1) params.resolution params.resolution),
   ("torus", L.TorusGeometry (fin (7 / 10)) (fin (3 / 10)) (params.resolution / fin 2)
      params.resolution),
   ("cube", L.BoxGeometry (fin (3 / 2)) (fin (3 / 2)) (fin (3 / 2))
      (params.resolution / fin 8) (params.resolution / fin 8) (params.resolution / fin 8)),
   ("cone", L.ConeGeometry (fin 1) (fin 2) (params.resolution / fin 2)
      (params.resolution / fin 4)),
   ("abstract", createAbstractShape M L)]

/-- Embedding of `createMorphTargets`.  Returns the new module state, the count of
samples drawn and the unused random draws; `none` when the draws are used up inside
`getNextShape`. -/
def createMorphTargets (M : JSMath) (L : GeometryLibrary) (S : SurfaceSampler) (demo : Demo)
    (drawn : Nat) (draws : List Draw) : Option (Demo × Nat × List Draw) :=
  let morphTargets := morphTargetLiteral M L demo.params
  let drawn := normalizeTargets S morphTargets (morphTargets.map Prod.fst) drawn
  let params := { demo.params with currentMorphTarget := some "sphere" }
  match getNextShape morphTargets params draws with
  | none => none
  | some (next, rest) =>
    some ({ demo with morphTargets := morphTargets,
                      params := { params with nextMorphTarget := next } }, drawn, rest)

/-- Embedding of `createLiquidMetal`, for the mesh geometry: a clone of the sphere
target. -/
def createLiquidMetal (demo : Demo) : Demo :=
  { demo with liquidMetal := demo.morphTargets.lookup "sphere" }

/-! ## The per-frame update -/

/-- The block `if (params.autoMorph) ...` of `updateLiquidMetal`: the morph clock
advances by `time * morphSpeed`, and at `morphDuration` it is reset and the target ids
rotate.  `none` when the random draws are used up inside `getNextShape`. -/
def advanceMorphClock (morphTargets : MorphTargets) (params : Params) (time : JSNum)
    (draws : List Draw) : Option (Params × List Draw) :=
  if params.autoMorph then
    let params :=
      { params with currentMorphTime := params.currentMorphTime + time * params.morphSpeed }
    if params.currentMorphTime.ge params.morphDuration then
      let params :=
        { params with currentMorphTime := fin 0,
                      currentMorphTarget := params.nextMorphTarget }
      match getNextShape morphTargets params draws with
      | none => none
      | some (next, rest) => some ({ params with nextMorphTarget := next }, rest)
    else some (params, draws)
  else some (params, draws)

/-- The interpolation step of the vertex loop: `a + (target - a) * morphFactor`. -/
def lerp (a target morphFactor : JSNum) : JSNum :=
  a + (target - a) * morphFactor

/-- The body of the vertex loop of `updateLiquidMetal`: the position passed to
`positions.setXYZ(i, x, y, z)`. -/
def morphVertex (M : JSMath) (params : Params) (time morphFactor : JSNum)
    (currentShape nextShape : Geometry) (i : Nat) : Vec3 :=
  let x := currentShape.getX i
  let y := currentShape.getY i
  let z := currentShape.getZ i
  let targetX := nextShape.getX i
  let targetY := nextShape.getY i
  let targetZ := nextShape.getZ i
  let x := lerp x targetX morphFactor
  let y := lerp y targetY morphFactor
  let z := lerp z targetZ morphFactor
  let noiseTime := time * params.noiseSpeed
  let noiseScale := params.noiseScale
  let noise1 :=
    M.sinN (x * noiseScale + noiseTime) * M.cosN (y * noiseScale + noiseTime)
      * M.sinN (z * noiseScale + noiseTime) * params.surfaceTurbulence
  let noise2 :=
    M.cosN (x * noiseScale * fin 2 + noiseTime * fin (3 / 2))
      * M.sinN (y * noiseScale * fin 2 + noiseTime * fin (3 / 2))
      * M.cosN (z * noiseScale * fin 2 + noiseTime * fin (3 / 2))
      * params.surfaceTurbulence * fin (1 / 2)
  let displacement := noise1 + noise2
  let length := M.sqrtN (x * x + y * y + z * z)
  let nx := x / length
  let ny := y / length
  let nz := z / length
  ⟨x + nx * displacement, y + ny * displacement, z + nz * displacement⟩

/-- The loop `for (let i = 0; i < count; i++)` of `updateLiquidMetal`, as a loop over
the mesh's position buffer: round `i` overwrites entry `i` with `vertex i`.  The first
argument is the number of rounds left. -/
def writeVertices (vertex : Nat → Vec3) : Nat → Nat → List Vec3 → List Vec3
  | 0, _, positions => positions
  | n + 1, i, positions => writeVertices vertex n (i + 1) (positions.set i (vertex i))

/-- Embedding of `updateLiquidMetal(time)`.  Gives how the call ends, the module state
it leaves and the unused random draws; `none` when the draws are used up inside
`getNextShape`.  The guard `!currentShape || !nextShape` returns when one of the two
reads is `undefined`; a value inherited from `Object.prototype` passes the guard, and the
read of its `attributes.position` throws before any vertex is written. -/
def updateLiquidMetal (M : JSMath) (demo : Demo) (time : JSNum) (draws : List Draw) :
    Option (Completion × Demo × List Draw) :=
  match demo.liquidMetal with
  | none => some (.returned, demo, draws)
  | some geometry =>
    let count := geometry.count
    match advanceMorphClock demo.morphTargets demo.params time draws with
    | none => none
    | some (params, rest) =>
      let morphFactor := params.currentMorphTime / params.morphDuration
      match demo.morphTargets.read params.currentMorphTarget,
          demo.morphTargets.read params.nextMorphTarget with
      | .undefined, _ => some (.returned, { demo with params := params }, rest)
      | _, .undefined => some (.returned, { demo with params := params }, rest)
      | .geometry currentShape, .geometry nextShape =>
        let positions :=
          writeVertices (morphVertex M params time morphFactor currentShape nextShape)
            count 0 geometry.position
        some (.returned, { demo with params := params, liquidMetal := some ⟨positions⟩ }, rest)
      | _, _ => some (.threw, { demo with params := params }, rest)

/-! ## Events -/

/-- What can happen to the module state after `init`: an animation frame, or a change
of one of the controls wired in `setupEventListeners`. -/
inductive Event where
  | frame (deltaTime : JSNum)
  | autoMorphChange (checked : Bool)
  | morphSpeedInput (value : JSNum)
  | turbulenceInput (value : JSNum)
  | shapeSelectChange (value : String)

/-- The handler of the `shapeSelect` control. -/
def shapeSelectHandler (params : Params) (value : String) : Params :=
  let params := { params with currentShape := value }
  if params.currentShape ≠ "random" then
    { params with currentMorphTime := fin 0,
                  currentMorphTarget := params.nextMorphTarget,
                  nextMorphTarget := some params.currentShape }
  else params

/-- One event applied to the module state: `animate` calls `updateLiquidMetal` with the
frame delta, the other events run their handler.  `animate` requests the next frame
before it calls `updateLiquidMetal`, so a call that throws ends the frame and the next
event finds the module in the state at the throw. -/
def handle (M : JSMath) (demo : Demo) (draws : List Draw) :
    Event → Option (Demo × List Draw)
  | .frame deltaTime => (updateLiquidMetal M demo deltaTime draws).map Prod.snd
  | .autoMorphChange checked =>
    some ({ demo with params := { demo.params with autoMorph := checked } }, draws)
  | .morphSpeedInput value =>
    some ({ demo with params :=
      { demo.params with morphSpeed := value / fin 100 * fin 2 } }, draws)
  | .turbulenceInput value =>
    some ({ demo with params :=
      { demo.params with surfaceTurbulence := value / fin 100 } }, draws)
  | .shapeSelectChange value =>
    some ({ demo with params := shapeSelectHandler demo.params value }, draws)

/-- A sequence of events applied in order. -/
def run (M : JSMath) (demo : Demo) (draws : List Draw) :
    List Event → Option (Demo × List Draw)
  | [] => some (demo, draws)
  | e :: events =>
    match handle M demo draws e with
    | none => none
    | some (demo, draws) => run M demo draws events

/-- The events of the morph-clock invariant: frame deltas and the value of the
morph-speed slider are numbers that are not negative. -/
def Event.nonNegative : Event → Prop
  | .frame (fin q) => 0 ≤ q
  | .frame nan => False
  | .morphSpeedInput (fin q) => 0 ≤ q
  | .morphSpeedInput nan => False
  | _ => True

/-! ## A stand-in rendering library -/

/-- A segment count as the library reads it: the floor of the argument, and no segment
for a negative argument or a non-number. -/
def segments : JSNum → Nat
  | fin q => (Int.floor q).toNat
  | nan => 0

/-- A stand-in for the geometry constructors, used to evaluate the embedding on
concrete inputs.  The vertex counts follow the library: a sphere has
`(w + 1) * (h + 1)` vertices with `w` at least 3 and `h` at least 2, a torus
`(radial + 1) * (tubular + 1)`, a box the sum of its six segmented faces, a cone
`(height + 1) * (radial + 1)` side vertices and `2 * radial + 1` for its base, an
icosahedron `60 * (detail + 1) ^ 2`.  Every vertex is put at `(1, 0, 0)`: only the
counts are meant. -/
def standInLibrary : GeometryLibrary where
  SphereGeometry _ w h :=
    ⟨List.replicate ((max 3 (segments w) + 1) * (max 2 (segments h) + 1)) ⟨1, 0, 0⟩⟩
  TorusGeometry _ _ radial tubular :=
    ⟨List.replicate ((segments radial + 1) * (segments tubular + 1)) ⟨1, 0, 0⟩⟩
  BoxGeometry _ _ _ w h d :=
    ⟨List.replicate
      (2 * ((segments d + 1) * (segments h + 1) + (segments w + 1) * (segments d + 1)
        + (segments w + 1) * (segments h + 1))) ⟨1, 0, 0⟩⟩
  ConeGeometry _ _ radial height :=
    ⟨List.replicate
      ((segments height + 1) * (segments radial + 1) + (2 * segments radial + 1)) ⟨1, 0, 0⟩⟩
  IcosahedronGeometry _ detail :=
    ⟨List.replicate (60 * (segments detail + 1) ^ 2) ⟨1, 0, 0⟩⟩

/-- A stand-in surface sampler: every sample is the `n`-th point of the geometry,
counted cyclically, and the origin on an empty geometry. -/
def standInSampler : SurfaceSampler where
  sample g n := (g.position[n % g.count]?).getD ⟨0, 0, 0⟩

/-- The draw `1 / 2` of `Math.random()`. -/
def drawHalf : Draw := ⟨1 / 2, by norm_num⟩

/-- The draw `0` of `Math.random()`. -/
def drawZero : Draw := ⟨0, by norm_num⟩

/-! ## Concrete states -/

/-- A small morph target set with the five keys of `createMorphTargets` and two
vertices per shape.  Vertex 0 of `sphere` and vertex 0 of `torus` are opposite points
of the unit circle. -/
def sampleTargets : MorphTargets :=
  [("sphere", ⟨[⟨fin 1, fin 0, fin 0⟩, ⟨fin 0, fin 1, fin 0⟩]⟩),
   ("torus", ⟨[⟨fin (-1), fin 0, fin 0⟩, ⟨fin 0, fin 1, fin 0⟩]⟩),
   ("cube", ⟨[⟨fin (3 / 4), fin (3 / 4), fin (3 / 4)⟩, ⟨fin (-3 / 4), fin (3 / 4), fin (3 / 4)⟩]⟩),
   ("cone", ⟨[⟨fin 0, fin 1, fin 0⟩, ⟨fin 0, fin (-1), fin 0⟩]⟩),
   ("abstract", ⟨[⟨fin 1, fin 0, fin 0⟩, ⟨fin 0, fin 0, fin 1⟩]⟩)]

/-- The mesh geometry over `sampleTargets`: a clone of its sphere. -/
def sampleMesh : Geometry := ⟨[⟨fin 1, fin 0, fin 0⟩, ⟨fin 0, fin 1, fin 0⟩]⟩

/-- A state right after `init` over `sampleTargets`: the parameters of the module, the
clock at zero, morphing from `sphere` to `torus`. -/
def startDemo : Demo where
  params := { initialParams with currentMorphTarget := some "sphere",
                                 nextMorphTarget := some "torus" }
  morphTargets := sampleTargets
  liquidMetal := some sampleMesh

/-- A state with auto-morph switched off and the turbulence slider at zero, halfway
(`1.5` of `3.0`) from `sphere` to `torus`. -/
def stillDemo : Demo where
  params := { initialParams with autoMorph := false,
                                 currentMorphTime := fin (3 / 2),
                                 currentMorphTarget := some "sphere",
                                 nextMorphTarget := some "torus",
                                 surfaceTurbulence := fin 0 }
  morphTargets := sampleTargets
  liquidMetal := some sampleMesh

/-- A state of the running demo with the parameters of the module, one second into the
morph from `sphere` to `torus`. -/
def runningDemo : Demo where
  params := { initialParams with currentMorphTime := fin 1,
                                 currentMorphTarget := some "sphere",
                                 nextMorphTarget := some "torus" }
  morphTargets := sampleTargets
  liquidMetal := some sampleMesh

/-- A state of the running demo with duration `3.0`, speed `0.5` and the clock at
`2.5`, so that a frame of one second brings the clock to `3.0` exactly. -/
def rolloverDemo : Demo where
  params := { initialParams with currentMorphTime := fin (5 / 2),
                                 currentMorphTarget := some "sphere",
                                 nextMorphTarget := some "torus" }
  morphTargets := sampleTargets
  liquidMetal := some sampleMesh

/-- The module state at load with `params.resolution` set to zero. -/
def zeroResolutionDemo : Demo :=
  { initialDemo with params := { initialParams with resolution := fin 0 } }

/-- The morph-clock invariant for duration `d`: the elapsed time is a number in
`[0, d)`, the duration is `d` and the speed is a number that is not negative. -/
def ClockInv (d : ℚ) (params : Params) : Prop :=
  ∃ t sp : ℚ, params.currentMorphTime = fin t ∧ params.morphDuration = fin d ∧
    params.morphSpeed = fin sp ∧ 0 ≤ t ∧ t < d ∧ 0 ≤ sp

/-! ## The displacement of the abstract shape as specified -/

/-- The displacement of the abstract shape as the specification states it, for one
vertex `p = (x, y, z)`: `p + dir(p) * (n1 + n2)` with `dir(p)` the normalised `p`,
`n1 = 0.2 * sin(4x) * cos(4y) * sin(4z)` and
`n2 = 0.1 * sin(8x + 200) * cos(8y + 200) * sin(8z + 200)`. -/
def abstractDisplacementFormula (M : JSMath) (p : Vec3) : Vec3 :=
  let n1 := fin (2 / 10) * M.sinN (fin 4 * p.x) * M.cosN (fin 4 * p.y) * M.sinN (fin 4 * p.z)
  let n2 :=
    fin (1 / 10) * M.sinN (fin 8 * p.x + fin 200) * M.cosN (fin 8 * p.y + fin 200)
      * M.sinN (fin 8 * p.z + fin 200)
  let dir := normalize M p
  ⟨p.x + dir.x * (n1 + n2), p.y + dir.y * (n1 + n2), p.z + dir.z * (n1 + n2)⟩

/-- A library whose icosahedron has the two vertices `(1, 0, 0)` and `(0, 0, 0)`, for
evaluating the displacement on given coordinates. -/
def tinyLibrary : GeometryLibrary :=
  { standInLibrary with
    IcosahedronGeometry := fun _ _ => ⟨[⟨fin 1, fin 0, fin 0⟩, ⟨fin 0, fin 0, fin 0⟩]⟩ }

/-! ## The point lights -/

/-- A child of the scene, as far as `updateLights` looks at it: whether it is a point
light, and its position. -/
structure SceneChild where
  isPointLight : Bool
  position : Vec3
  deriving DecidableEq

/-- The callback of `scene.children.forEach` in `updateLights`: a point light gets a
new x from its current z, then a new z from the new x; its y and any other child are
left alone. -/
def updateChild (M : JSMath) (time : JSNum) (child : SceneChild) : SceneChild :=
  if child.isPointLight then
    let speed := fin (1 / 2)
    let radius := fin 5
    let x := M.sinN (time * speed + child.position.z) * radius
    let z := M.cosN (time * speed + x) * radius
    { child with position := ⟨x, child.position.y, z⟩ }
  else child

/-- Embedding of `updateLights(time)` over the children of the scene. -/
def updateLights (M : JSMath) (time : JSNum) (children : List SceneChild) : List SceneChild :=
  children.map (updateChild M time)

/-- The lights that `setupLights` adds to the scene, in order: the ambient light, the
directional light, the blue and the purple point light. -/
def sceneLights : List SceneChild :=
  [⟨false, ⟨fin 0, fin 0, fin 0⟩⟩, ⟨false, ⟨fin 5, fin 5, fin 5⟩⟩,
   ⟨true, ⟨fin (-5), fin 2, fin (-3)⟩⟩, ⟨true, ⟨fin 5, fin (-2), fin (-3)⟩⟩]

/-! ## More concrete states -/

/-- A state with auto-morph switched off and the turbulence of the module (0.3),
between `sphere` and `abstract`, whose vertices 0 are both `(1, 0, 0)`. -/
def agitatedDemo : Demo where
  params := { initialParams with autoMorph := false,
                                 currentMorphTime := fin 1,
                                 currentMorphTarget := some "sphere",
                                 nextMorphTarget := some "abstract" }
  morphTargets := sampleTargets
  liquidMetal := some sampleMesh

/-- The state that the shape selector leaves when it supplies the id `constructor` to
`stillDemo`: the name of a property that `morphTargets` inherits from
`Object.prototype`, and not one of its keys. -/
def constructorDemo : Demo :=
  { stillDemo with params := shapeSelectHandler stillDemo.params "constructor" }

/-- A state in which the shape selector has supplied the id `pyramid`, which is not a
key of the morph targets. -/
def pyramidDemo : Demo where
  params := { initialParams with autoMorph := false,
                                 currentMorphTarget := some "sphere",
                                 nextMorphTarget := some "pyramid",
                                 currentShape := "pyramid" }
  morphTargets := sampleTargets
  liquidMetal := some sampleMesh

end LiquidMetal

/-! ## Crystal demo: embedding of `crystal-reflections.js` -/

namespace Crystal

open LiquidMetal LiquidMetal.JSNum

/-- The fields of `crystalParams` that `createCrystalGeometry` reads. -/
structure CrystalParams where
  facets : JSNum
  height : JSNum
  radius : JSNum
  segments : JSNum
  distortion : JSNum
  deriving DecidableEq

/-- The value of `crystalParams` in the module. -/
def crystalParams : CrystalParams where
  facets := fin 8
  height := fin 4
  radius := fin (12 / 10)
  segments := fin 32
  distortion := fin (15 / 100)

/-- A face of the legacy geometry interface: three vertex indices. -/
abbrev Face := Nat × Nat × Nat

/-- What the module uses of the rendering library: the two constructors, with their
arguments in the order of the calls, and the `vertices` and `faces` properties that their
prototypes carry when the module is loaded (`none` when the property is missing). -/
structure CrystalLibrary where
  CylinderGeometry : JSNum → JSNum → JSNum → JSNum → JSNum → Bool → Geometry
  ConeGeometry : JSNum → JSNum → JSNum → JSNum → Bool → Geometry
  cylinderVertices : Option (List Vec3)
  cylinderFaces : Option (List Face)
  coneVertices : Option (List Vec3)
  coneFaces : Option (List Face)

/-- The polyfill at the end of the module, which runs before `init()`:
`if (!prototype.property) prototype.property = []`.  An array is truthy, so a property
that exists is kept. -/
def polyfill {α : Type} : Option (List α) → List α
  | none => []
  | some property => property

/-- Modelled from the spec: `BufferGeometry.translate` belongs to the rendering library,
which is not under src/.  It moves every vertex of the position attribute by the given
offsets and leaves the other properties of the object alone. -/
def translate (g : Geometry) (x y z : JSNum) : Geometry :=
  ⟨g.position.map (fun v => ⟨v.x + x, v.y + y, v.z + z⟩)⟩

/-- The geometry object that `createCrystalGeometry` returns: its position attribute,
and the `vertices` and `faces` properties assigned by the merge. -/
structure CrystalGeometry where
  position : List Vec3
  vertices : List Vec3
  faces : List Face

/-- The effect of `positionAttribute.setX(i, value)`: a write past the end does
nothing. -/
def setX (positions : List Vec3) (i : Nat) (value : JSNum) : List Vec3 :=
  match positions[i]? with
  | some v => positions.set i { v with x := value }
  | none => positions

/-- The effect of `positionAttribute.setZ(i, value)`: a write past the end does
nothing. -/
def setZ (positions : List Vec3) (i : Nat) (value : JSNum) : List Vec3 :=
  match positions[i]? with
  | some v => positions.set i { v with z := value }
  | none => positions

/-- The distortion loop of `createCrystalGeometry` over the position attribute: round
`i` reads entry `i`, then writes its x and then its z.  The first argument is the number
of rounds left. -/
def distortVertices (M : JSMath) (params : CrystalParams) (height : JSNum) :
    Nat → Nat → List Vec3 → List Vec3
  | 0, _, positions => positions
  | n + 1, i, positions =>
    let x := Geometry.getX ⟨positions⟩ i
    let y := Geometry.getY ⟨positions⟩ i
    let z := Geometry.getZ ⟨positions⟩ i
    let distortionScale := params.distortion
    let heightFactor := y / height + fin (1 / 2)
    let positions := setX positions i (x + M.sinN (z * fin 2 + x) * distortionScale * heightFactor)
    let positions := setZ positions i (z + M.cosN (x * fin 3 + y) * distortionScale * heightFactor)
    distortVertices M params height n (i + 1) positions

/-- One round of the distortion loop, as a function of the vertex that the round
reads. -/
def distortedVertex (M : JSMath) (params : CrystalParams) (height : JSNum) (v : Vec3) : Vec3 :=
  let heightFactor := v.y / height + fin (1 / 2)
  ⟨v.x + M.sinN (v.z * fin 2 + v.x) * params.distortion * heightFactor, v.y,
    v.z + M.cosN (v.x * fin 3 + v.y) * params.distortion * heightFactor⟩

/-- Embedding of `createCrystalGeometry`. -/
def createCrystalGeometry (M : JSMath) (L : CrystalLibrary) (params : CrystalParams) :
    CrystalGeometry :=
  let height := params.height
  let radius := params.radius
  let segments := params.segments
  let facets := params.facets
  let geometry := L.CylinderGeometry (radius * fin (2 / 10)) radius height facets segments false
  let topPyramid := L.ConeGeometry (radius * fin (2 / 10)) (height * fin (1 / 2)) facets (fin 1) false
  let _topPyramid := translate topPyramid (fin 0) (height * fin (3 / 4)) (fin 0)
  let vertices := polyfill L.cylinderVertices ++ polyfill L.coneVertices
  let faces := polyfill L.cylinderFaces ++ polyfill L.coneFaces
  let position := distortVertices M params height geometry.count 0 geometry.position
  { position := position, vertices := vertices, faces := faces }

/-- The geometry of the cylinder base as `createCrystalGeometry` asks the library for
it. -/
def baseCylinder (L : CrystalLibrary) (params : CrystalParams) : Geometry :=
  L.CylinderGeometry (params.radius * fin (2 / 10)) params.radius params.height params.facets
    params.segments false

/-- The cone cap as `createCrystalGeometry` builds it: the cone of the library, moved up
by three quarters of the height. -/
def translatedCone (L : CrystalLibrary) (params : CrystalParams) : Geometry :=
  translate
    (L.ConeGeometry (params.radius * fin (2 / 10)) (params.height * fin (1 / 2)) params.facets
      (fin 1) false)
    (fin 0) (params.height * fin (3 / 4)) (fin 0)

/-- The distortion formula as the specification states it, for one vertex:
`x' = x + sin(2z + x) * s * h`, `z' = z + cos(3x + y) * s * h`, `y` unchanged, with
`h = y / height + 0.5` and the `x` of `z'` the undistorted one. -/
def distortionFormula (M : JSMath) (s height : JSNum) (v : Vec3) : Vec3 :=
  let h := v.y / height + fin (1 / 2)
  ⟨v.x + M.sinN (fin 2 * v.z + v.x) * s * h, v.y, v.z + M.cosN (fin 3 * v.x + v.y) * s * h⟩

/-- A stand-in for the library of the crystal demo, used to evaluate the embedding on
concrete inputs.  The vertex counts follow the library: a cylinder has
`(height + 1) * (radial + 1)` side vertices and `2 * radial + 1` vertices for each cap
that is not open and has a positive radius; a cone is a cylinder with top radius 0.
Every vertex is put at `(1, 0, 0)`: only the counts are meant.  The prototypes carry no
`vertices` and no `faces`, as in a library whose geometries are buffer geometries. -/
def standInCrystalLibrary : CrystalLibrary where
  CylinderGeometry radiusTop radiusBottom _ radial height openEnded :=
    ⟨List.replicate
      ((segments height + 1) * (segments radial + 1)
        + (if openEnded = false ∧ (fin 0).lt radiusTop = true then 2 * segments radial + 1 else 0)
        + (if openEnded = false ∧ (fin 0).lt radiusBottom = true then 2 * segments radial + 1
            else 0))
      ⟨1, 0, 0⟩⟩
  ConeGeometry radius _ radial height openEnded :=
    ⟨List.replicate
      ((segments height + 1) * (segments radial + 1)
        + (if openEnded = false ∧ (fin 0).lt radius = true then 2 * segments radial + 1 else 0))
      ⟨1, 0, 0⟩⟩
  cylinderVertices := none
  cylinderFaces := none
  coneVertices := none
  coneFaces := none

/-- A library with a two-vertex cylinder and a one-vertex cone, for evaluating the
distortion on given coordinates. -/
def tinyCrystalLibrary : CrystalLibrary where
  CylinderGeometry _ _ _ _ _ _ := ⟨[⟨fin 1, fin 2, fin 0⟩, ⟨fin 0, fin (-2), fin 1⟩]⟩
  ConeGeometry _ _ _ _ _ := ⟨[⟨fin 0, fin 1, fin 0⟩]⟩
  cylinderVertices := none
  cylinderFaces := none
  coneVertices := none
  coneFaces := none

/-! ### The height factor and the lights -/

/-- The value of `heightFactor` in the distortion loop: `y / height + 0.5`. -/
def heightFactor (y height : JSNum) : JSNum := y / height + fin (1 / 2)

/-- The positions of the four point lights that `setupLights` stores in
`lightSources`. -/
def lightSources : List Vec3 :=
  [⟨fin 5, fin 3, fin 2⟩, ⟨fin (-5), fin 2, fin 3⟩, ⟨fin 0, fin 5, fin (-3)⟩,
   ⟨fin 0, fin (-3), fin (-5)⟩]

/-- The callback of `lightSources.forEach` in `animate`, for the light of index `i` at
position `position`: `initialPos` is a clone of the position that the light has when the
frame starts.  `pi` is the value of `Math.PI`. -/
def animateLight (M : JSMath) (pi time : JSNum) (i : Nat) (position : Vec3) : Vec3 :=
  let initialPos := position
  let radius := fin (1 / 2)
  let speed := fin (1 / 2) + fin i * fin (2 / 10)
  let phase := fin i * pi / fin 2
  ⟨initialPos.x + M.sinN (time * speed + phase) * radius,
    initialPos.y + M.cosN (time * speed + phase) * radius, position.z⟩

/-- The loop `lightSources.forEach((light, i) => …)` of `animate`, from index `i`
on. -/
def animateLights (M : JSMath) (pi time : JSNum) : Nat → List Vec3 → List Vec3
  | _, [] => []
  | i, position :: rest => animateLight M pi time i position :: animateLights M pi time (i + 1) rest

end Crystal

/-! ## Wave demo: embedding of `wave-visualizer.js` -/

namespace WaveVisualizer

open LiquidMetal LiquidMetal.JSNum

/-! ### The vertex shader

Shader floats are exact rationals; rounding is not modelled. -/

/-- A `vec2` of the shader. -/
abbrev Vec2 := ℚ × ℚ

/-- The uniforms that the vertex shader reads.  `audioData` is the content of the
texture bound to the sampler: one byte per texel. -/
structure Uniforms where
  time : ℚ
  amplitude : ℚ
  frequency : ℚ
  noiseScale : ℚ
  mousePosition : Vec2
  mouseInfluence : ℚ
  audioInfluence : ℚ
  audioData : List Nat

/-- The two functions that the vertex shader calls and whose value the claims do not
look into: the simplex noise `snoise` of the shader source and the texture lookup
`texture2D(…).r` of the graphics library. -/
structure ShaderFunctions where
  snoise : ℚ × ℚ × ℚ → ℚ
  texture2D : List Nat → Vec2 → ℚ

/-- Modelled from the spec: the built-in `clamp` of the shading language, which is not
under src/. -/
def clamp (x lo hi : ℚ) : ℚ := min (max x lo) hi

/-- Modelled from the spec: the built-in `smoothstep` of the shading language, which is
not under src/: the Hermite interpolation `t * t * (3 - 2 * t)` of the clamped ratio. -/
def smoothstep (edge0 edge1 x : ℚ) : ℚ :=
  let t := clamp ((x - edge0) / (edge1 - edge0)) 0 1
  t * t * (3 - 2 * t)

/-- Modelled from the spec: the built-in `length` of the shading language on a `vec2`,
which is not under src/. -/
def length (M : JSMath) (v : Vec2) : ℚ := M.sqrt (v.1 * v.1 + v.2 * v.2)

/-- Embedding of `computeAudioInfluence(uv)` of the vertex shader. -/
def computeAudioInfluence (M : JSMath) (F : ShaderFunctions) (u : Uniforms) (uv : Vec2) : ℚ :=
  if u.audioInfluence < 1 / 100 then 0
  else
    let dist := length M (uv.1 - 1 / 2, uv.2 - 1 / 2) * 2
    let audioValue := F.texture2D u.audioData (dist, 1 / 2)
    audioValue * u.audioInfluence

/-- The value of `mouseEffect` in `main` of the vertex shader, from the uniform
`mouseInfluence` and the distance `mouseDistance` to the pointer position. -/
def mouseEffect (mouseInfluence mouseDistance : ℚ) : ℚ :=
  if mouseInfluence > 1 / 100 then
    (1 - smoothstep 0 1 mouseDistance) * mouseInfluence * 2
  else 0

/-- The value of `displacement` in `main` of the vertex shader, for the vertex at
`position` with texture coordinates `uv`. -/
def displacement (M : JSMath) (F : ShaderFunctions) (u : Uniforms) (position : ℚ × ℚ × ℚ)
    (uv : Vec2) : ℚ :=
  let pos := position
  let timeFactor := u.time * u.frequency
  let noisePos := (pos.1 * u.noiseScale, pos.2.1 * u.noiseScale, timeFactor)
  let noise := F.snoise noisePos * u.amplitude
  let mouseDistance := length M (u.mousePosition.1 - pos.1, u.mousePosition.2 - pos.2.1)
  let mouseEffect := mouseEffect u.mouseInfluence mouseDistance
  let audioEffect := computeAudioInfluence M F u uv
  noise + mouseEffect + audioEffect

/-- Embedding of `main` of the vertex shader: the value of `vPosition`. -/
def vertexMain (M : JSMath) (F : ShaderFunctions) (u : Uniforms) (position : ℚ × ℚ × ℚ)
    (uv : Vec2) : ℚ × ℚ × ℚ :=
  (position.1, position.2.1, position.2.2 + displacement M F u position uv)

/-- The noise term of `main`: `snoise(noisePos) * amplitude`. -/
def noiseTerm (F : ShaderFunctions) (u : Uniforms) (position : ℚ × ℚ × ℚ) : ℚ :=
  F.snoise (position.1 * u.noiseScale, position.2.1 * u.noiseScale, u.time * u.frequency)
    * u.amplitude

/-- A stand-in for the two functions, used to evaluate the shader on concrete inputs:
the noise is the third coordinate halved, the lookup is the first texel over 255. -/
def standInShader : ShaderFunctions where
  snoise v := v.2.2 / 2
  texture2D data _ := (data.headD 0 : ℚ) / 255

/-- Uniforms with both influence gates at zero, a pointer position and a texture that
is not empty. -/
def gatedUniforms : Uniforms where
  time := 2
  amplitude := 1 / 2
  frequency := 1 / 2
  noiseScale := 4
  mousePosition := (1, 1)
  mouseInfluence := 0
  audioInfluence := 0
  audioData := [255, 128, 7]

/-! ### The module state -/

/-- The fields of `params` that the handlers and `animate` read or write. -/
structure WaveParams where
  amplitude : JSNum
  waveSpeed : JSNum
  enableAudio : Bool
  enableMouseReactivity : Bool
  deriving DecidableEq

/-- The value of `params` when the module is loaded. -/
def initialWaveParams : WaveParams where
  amplitude := fin (1 / 2)
  waveSpeed := fin (1 / 2)
  enableAudio := false
  enableMouseReactivity := true

/-- A data texture: the position, among the byte buffers allocated so far, of the
buffer it was created over, its width, and its `needsUpdate` flag. -/
structure DataTexture where
  data : Nat
  width : Nat
  needsUpdate : Bool
  deriving DecidableEq

/-- The uniforms of `waveform.material` that the module writes after creation. -/
structure WaveformUniforms where
  time : JSNum
  amplitude : JSNum
  mousePosition : JSNum × JSNum
  mouseInfluence : JSNum
  audioData : DataTexture
  audioInfluence : JSNum
  deriving DecidableEq

/-- The module variables of the demo.  `buffers` holds the contents of the `Uint8Array`
objects in the order of their allocation, so that two variables name the same array
exactly when they hold the same position.  `waveform` is `none` until `createWaveform`
has run; `audioContext`, `analyser` and `audioSource` tell whether the variable is
set. -/
structure WaveDemo where
  params : WaveParams
  waveform : Option WaveformUniforms
  buffers : List (List Nat)
  audioContext : Bool
  analyser : Bool
  audioData : Option Nat
  audioSource : Bool
  mouse : JSNum × JSNum
  deriving DecidableEq

/-- The module state when the module is loaded, before `init` runs. -/
def loadedWaveDemo : WaveDemo where
  params := initialWaveParams
  waveform := none
  buffers := []
  audioContext := false
  analyser := false
  audioData := none
  audioSource := false
  mouse := (fin 0, fin 0)

/-- Embedding of `createWaveform`, for the uniforms: the audio texture is created over
a fresh array of 128 zero bytes. -/
def createWaveform (demo : WaveDemo) : WaveDemo :=
  let emptyAudioData := demo.buffers.length
  let buffers := demo.buffers ++ [List.replicate 128 0]
  let audioDataTexture : DataTexture := ⟨emptyAudioData, 128, true⟩
  { demo with
    buffers := buffers,
    waveform := some
      { time := fin 0,
        amplitude := demo.params.amplitude,
        mousePosition := (fin 0, fin 0),
        mouseInfluence := fin 0,
        audioData := audioDataTexture,
        audioInfluence := fin 0 } }

/-- Modelled from the spec: `frequencyBinCount` of the analyser of the audio interface,
which is not under src/: half the FFT size (256 gives 128 buckets). -/
def frequencyBinCount (fftSize : Nat) : Nat := fftSize / 2

/-- Embedding of `setupAudio`.  `available` tells whether the audio interface exists;
when it does not, the constructor throws, the `catch` logs the error and no variable
is set. -/
def setupAudio (available : Bool) (demo : WaveDemo) : WaveDemo :=
  if available then
    let fftSize := 256
    let bufferLength := frequencyBinCount fftSize
    let audioData := demo.buffers.length
    let demo :=
      { demo with
        audioContext := true,
        analyser := true,
        buffers := demo.buffers ++ [List.replicate bufferLength 0],
        audioData := some audioData }
    match demo.waveform with
    | some uniforms =>
      if uniforms.audioData.width ≠ bufferLength then
        let newTexture : DataTexture := ⟨audioData, bufferLength, true⟩
        { demo with waveform := some { uniforms with audioData := newTexture } }
      else demo
    | none => demo
  else demo

/-- Embedding of the part of `init` that sets the module state up: `createWaveform`,
then `setupAudio`. -/
def init (available : Bool) : WaveDemo :=
  setupAudio available (createWaveform loadedWaveDemo)

/-- Embedding of `updateAudio`.  `spectrum` is what the analyser reports for each
bucket; `getByteFrequencyData(audioData)` writes it into the array that the variable
`audioData` names. -/
def updateAudio (spectrum : Nat → Nat) (demo : WaveDemo) : WaveDemo :=
  if !demo.params.enableAudio || !demo.analyser then demo
  else
    let buffers :=
      match demo.audioData with
      | some audioData =>
        match demo.buffers[audioData]? with
        | some buffer => demo.buffers.set audioData ((List.range buffer.length).map spectrum)
        | none => demo.buffers
      | none => demo.buffers
    let demo := { demo with buffers := buffers }
    match demo.waveform with
    | some uniforms =>
      { demo with
        waveform := some
          { uniforms with audioData := { uniforms.audioData with needsUpdate := true } } }
    | none => demo

/-- What can happen to the module state after `init`. -/
inductive WaveEvent where
  | frame (elapsedTime : JSNum) (spectrum : Nat → Nat)
  | mouseMove (mouse : JSNum × JSNum) (hit : Option (JSNum × JSNum))
  | enableAudioChange (checked : Bool)
  | enableMouseReactivityChange (checked : Bool)
  | waveIntensityInput (value : JSNum)
  | waveSpeedInput (value : JSNum)
  | audioFileChosen (decoded : Bool)

/-- Embedding of `animate`, for the module state. -/
def animate (elapsedTime : JSNum) (spectrum : Nat → Nat) (demo : WaveDemo) : WaveDemo :=
  let time := elapsedTime * demo.params.waveSpeed
  let demo :=
    match demo.waveform with
    | some uniforms => { demo with waveform := some { uniforms with time := time } }
    | none => demo
  updateAudio spectrum demo

/-- Embedding of `onMouseMove`.  `mouse` is the pointer in normalised device
coordinates; `hit` is the first intersection of the pointer ray with the invisible
plane, in the local coordinates of the wave mesh, when there is one. -/
def onMouseMove (mouse : JSNum × JSNum) (hit : Option (JSNum × JSNum)) (demo : WaveDemo) :
    WaveDemo :=
  let demo := { demo with mouse := mouse }
  if !demo.params.enableMouseReactivity then demo
  else
    match hit with
    | some point =>
      match demo.waveform with
      | some uniforms =>
        { demo with
          waveform := some { uniforms with mousePosition := point, mouseInfluence := fin 1 } }
      | none => demo
    | none => demo

/-- The handler of the `enableAudio` checkbox.  Resuming a suspended audio context
changes none of the module variables. -/
def enableAudioHandler (checked : Bool) (demo : WaveDemo) : WaveDemo :=
  let demo := { demo with params := { demo.params with enableAudio := checked } }
  match demo.waveform with
  | some uniforms =>
    { demo with
      waveform := some
        { uniforms with
          audioInfluence := if demo.params.enableAudio then fin 1 else fin 0 } }
  | none => demo

/-- The handler of the `enableMouseReactivity` checkbox. -/
def enableMouseReactivityHandler (checked : Bool) (demo : WaveDemo) : WaveDemo :=
  { demo with params := { demo.params with enableMouseReactivity := checked } }

/-- The handler of the `waveIntensity` slider. -/
def waveIntensityHandler (targetValue : JSNum) (demo : WaveDemo) : WaveDemo :=
  let value := targetValue / fin 100
  let demo := { demo with params := { demo.params with amplitude := value * fin 2 } }
  match demo.waveform with
  | some uniforms =>
    { demo with waveform := some { uniforms with amplitude := demo.params.amplitude } }
  | none => demo

/-- The handler of the `waveSpeed` slider. -/
def waveSpeedHandler (targetValue : JSNum) (demo : WaveDemo) : WaveDemo :=
  let value := targetValue / fin 100
  { demo with params := { demo.params with waveSpeed := value * fin 2 } }

/-- Embedding of `setupAudioFile(file)` for a chosen file, together with the outcome
of the decoding: without an audio context the function returns at once; the success
callback stores the source, sets `params.enableAudio` and the uniform
`audioInfluence`; the error callback only logs. -/
def setupAudioFile (decoded : Bool) (demo : WaveDemo) : WaveDemo :=
  if !demo.audioContext then demo
  else if decoded then
    { demo with
      audioSource := true,
      params := { demo.params with enableAudio := true },
      waveform := demo.waveform.map (fun uniforms => { uniforms with audioInfluence := fin 1 }) }
  else demo

/-- One event applied to the module state. -/
def handle (demo : WaveDemo) : WaveEvent → WaveDemo
  | .frame elapsedTime spectrum => animate elapsedTime spectrum demo
  | .mouseMove mouse hit => onMouseMove mouse hit demo
  | .enableAudioChange checked => enableAudioHandler checked demo
  | .enableMouseReactivityChange checked => enableMouseReactivityHandler checked demo
  | .waveIntensityInput value => waveIntensityHandler value demo
  | .waveSpeedInput value => waveSpeedHandler value demo
  | .audioFileChosen decoded => setupAudioFile decoded demo

/-- A sequence of events applied in order. -/
def run (demo : WaveDemo) (events : List WaveEvent) : WaveDemo :=
  events.foldl handle demo

/-- The bytes of the array over which the texture bound to the uniform `audioData` was
created: what the shader samples once the texture is uploaded. -/
def textureBytes (demo : WaveDemo) : Option (List Nat) :=
  match demo.waveform with
  | some uniforms => demo.buffers[uniforms.audioData.data]?
  | none => none

/-- The bytes of the array that the variable `audioData` names: what
`getByteFrequencyData` fills. -/
def audioDataBytes (demo : WaveDemo) : Option (List Nat) :=
  match demo.audioData with
  | some audioData => demo.buffers[audioData]?
  | none => none

/-- The invariant of the demo without audio interface: no audio context, the waveform
exists, and the uniform `audioInfluence` is 1 or 0 as `params.enableAudio` is true or
false. -/
def FollowsCheckbox (demo : WaveDemo) : Prop :=
  demo.audioContext = false ∧ demo.analyser = false ∧
    demo.waveform.map (fun uniforms => uniforms.audioInfluence)
      = some (if demo.params.enableAudio then fin 1 else fin 0)

/-! ### The fragment shader -/

/-- Modelled from the spec: the built-in `mod` of the shading language, which is not
under src/: `x - y * floor(x / y)`. -/
def glslMod (x y : ℚ) : ℚ := x - y * Int.floor (x / y)

/-- Embedding of `hslToRgb(hsl)` of the fragment shader. -/
def hslToRgb (hsl : ℚ × ℚ × ℚ) : ℚ × ℚ × ℚ :=
  let h := hsl.1
  let s := hsl.2.1
  let l := hsl.2.2
  let c := (1 - |2 * l - 1|) * s
  let x := c * (1 - |glslMod (h * 6) 2 - 1|)
  let m := l - c / 2
  let rgb : ℚ × ℚ × ℚ :=
    if h < 1 / 6 then (c, x, 0)
    else if h < 2 / 6 then (x, c, 0)
    else if h < 3 / 6 then (0, c, x)
    else if h < 4 / 6 then (0, x, c)
    else if h < 5 / 6 then (x, 0, c)
    else (c, 0, x)
  (rgb.1 + m, rgb.2.1 + m, rgb.2.2 + m)

end WaveVisualizer

/-! ## Neon blob demo: embedding of the particle update of `morphing-neon-blob.js` -/

namespace NeonBlob

open LiquidMetal LiquidMetal.JSNum

/-- A 4 by 4 matrix, its entries named by row and column as in the arguments of
`Matrix4.set`. -/
structure Matrix4 where
  n11 : JSNum
  n12 : JSNum
  n13 : JSNum
  n14 : JSNum
  n21 : JSNum
  n22 : JSNum
  n23 : JSNum
  n24 : JSNum
  n31 : JSNum
  n32 : JSNum
  n33 : JSNum
  n34 : JSNum
  n41 : JSNum
  n42 : JSNum
  n43 : JSNum
  n44 : JSNum

/-- Modelled from the spec: `Matrix4.makeRotationAxis` belongs to the rendering library,
which is not under src/.  The rotation about a unit axis by an angle, as the axis-angle
matrix. -/
def makeRotationAxis (M : JSMath) (axis : Vec3) (angle : JSNum) : Matrix4 :=
  let c := M.cosN angle
  let s := M.sinN angle
  let t := fin 1 - c
  let x := axis.x
  let y := axis.y
  let z := axis.z
  let tx := t * x
  let ty := t * y
  { n11 := tx * x + c, n12 := tx * y - s * z, n13 := tx * z + s * y, n14 := fin 0,
    n21 := tx * y + s * z, n22 := ty * y + c, n23 := ty * z - s * x, n24 := fin 0,
    n31 := tx * z - s * y, n32 := ty * z + s * x, n33 := t * z * z + c, n34 := fin 0,
    n41 := fin 0, n42 := fin 0, n43 := fin 0, n44 := fin 1 }

/-- Modelled from the spec: `Vector3.applyMatrix4` belongs to the rendering library,
which is not under src/.  The matrix applied to the vector as a point, with the
perspective divide. -/
def applyMatrix4 (v : Vec3) (m : Matrix4) : Vec3 :=
  let x := v.x
  let y := v.y
  let z := v.z
  let w := fin 1 / (m.n41 * x + m.n42 * y + m.n43 * z + m.n44)
  ⟨(m.n11 * x + m.n12 * y + m.n13 * z + m.n14) * w,
    (m.n21 * x + m.n22 * y + m.n23 * z + m.n24) * w,
    (m.n31 * x + m.n32 * y + m.n33 * z + m.n34) * w⟩

/-- Modelled from the spec: `Vector3.addScaledVector` belongs to the rendering library,
which is not under src/: `this + v * s`. -/
def addScaledVector (this v : Vec3) (s : JSNum) : Vec3 :=
  ⟨this.x + v.x * s, this.y + v.y * s, this.z + v.z * s⟩

/-- The object `particle.userData` that `createParticles` stores. -/
structure UserData where
  radius : JSNum
  speed : JSNum
  offset : JSNum
  orbitAxis : Vec3
  deriving DecidableEq

/-- A particle mesh: its `userData`, its `position` and its `scale`. -/
structure Particle where
  userData : UserData
  position : Vec3
  scale : Vec3
  deriving DecidableEq

/-- The module variables that `animate` writes: the blob (its time uniform and its
rotation about y and z), `none` before it is created, and the particles. -/
structure BlobDemo where
  blob : Option (JSNum × JSNum × JSNum)
  particles : List Particle
  deriving DecidableEq

/-- The callback of `particles.forEach` in `animate`: the update of one particle at
elapsed time `time`. -/
def updateParticle (M : JSMath) (time : JSNum) (particle : Particle) : Particle :=
  let radius := particle.userData.radius
  let speed := particle.userData.speed
  let offset := particle.userData.offset
  let orbitAxis := particle.userData.orbitAxis
  let angle := time * speed + offset
  let rotationMatrix := makeRotationAxis M orbitAxis angle
  let basePosition : Vec3 := ⟨radius, fin 0, fin 0⟩
  let basePosition := applyMatrix4 basePosition rotationMatrix
  let wobble := M.sinN (time * fin 5 + offset) * fin (5 / 100)
  let basePosition := addScaledVector basePosition orbitAxis wobble
  let scale := fin (8 / 10) + M.sinN (time * fin 3 + offset * fin 10) * fin (2 / 10)
  { particle with position := basePosition, scale := ⟨scale, scale, scale⟩ }

/-- The loop of `particles.forEach`: the particles are visited in order, each call
writes the particle it is given.  The first argument is the number of particles left to
visit, the second the index of the next one. -/
def forEachParticle (M : JSMath) (time : JSNum) : Nat → Nat → List Particle → List Particle
  | 0, _, particles => particles
  | n + 1, i, particles =>
    match particles[i]? with
    | some particle =>
      forEachParticle M time n (i + 1) (particles.set i (updateParticle M time particle))
    | none => forEachParticle M time n (i + 1) particles

/-- Embedding of `animate` of the neon blob demo, for the module state, at elapsed time
`time`. -/
def animate (M : JSMath) (time : JSNum) (demo : BlobDemo) : BlobDemo :=
  let blob := demo.blob.map (fun _ => (time, time * fin (1 / 10), time * fin (5 / 100)))
  { blob := blob,
    particles := forEachParticle M time demo.particles.length 0 demo.particles }

/-- The orbit position as the specification states it: the rotation about `orbitAxis`
by `speed * t + offset` applied to the base vector `(radius, 0, 0)`, plus
`orbitAxis * 0.05 * sin(5t + offset)`. -/
def orbitFormula (M : JSMath) (t : JSNum) (u : UserData) : Vec3 :=
  let rotated :=
    applyMatrix4 ⟨u.radius, fin 0, fin 0⟩ (makeRotationAxis M u.orbitAxis (u.speed * t + u.offset))
  let wobble := fin (5 / 100) * M.sinN (fin 5 * t + u.offset)
  ⟨rotated.x + u.orbitAxis.x * wobble, rotated.y + u.orbitAxis.y * wobble,
    rotated.z + u.orbitAxis.z * wobble⟩

/-- Two particles on different orbits, at different places. -/
def sampleParticles : List Particle :=
  [⟨⟨fin 2, fin (1 / 2), fin 0, ⟨fin 0, fin 1, fin 0⟩⟩, ⟨fin 9, fin 9, fin 9⟩, ⟨fin 1, fin 1, fin 1⟩⟩,
   ⟨⟨fin 3, fin (1 / 5), fin 1, ⟨fin 1, fin 0, fin 0⟩⟩, ⟨fin 0, fin 0, fin 0⟩, ⟨fin 1, fin 1, fin 1⟩⟩]

/-- The first particle of `sampleParticles` alone, at another place and scale. -/
def movedParticles : List Particle :=
  [⟨⟨fin 2, fin (1 / 2), fin 0, ⟨fin 0, fin 1, fin 0⟩⟩, ⟨fin 5, fin 6, fin 7⟩, ⟨fin 2, fin 2, fin 2⟩⟩]

/-! ### Creating the particles -/

/-- The body of the loop of `createParticles` for the particle of index `i`.
`random n` is the `n`-th result of `Math.random()` since the function was entered (each
round draws six: radius, speed, offset, orbit angle, the z of the axis, the hue), and
`pi` is the value of `Math.PI`.  A new mesh is at the origin with scale 1. -/
def createParticle (M : JSMath) (pi : JSNum) (random : Nat → Draw) (i : Nat) : Particle :=
  let radius := fin 2 + fin (random (6 * i)).val * fin 2
  let speed := fin (2 / 10) + fin (random (6 * i + 1)).val * fin (5 / 10)
  let offset := fin (random (6 * i + 2)).val * pi * fin 2
  let orbitAngle := fin (random (6 * i + 3)).val * pi * fin 2
  let orbitAxis :=
    normalize M
      ⟨M.sinN orbitAngle, M.cosN orbitAngle, fin (random (6 * i + 4)).val - fin (1 / 2)⟩
  { userData := ⟨radius, speed, offset, orbitAxis⟩,
    position := ⟨fin 0, fin 0, fin 0⟩,
    scale := ⟨fin 1, fin 1, fin 1⟩ }

/-- The loop `for (let i = 0; i < particleCount; i++)` of `createParticles`: each round
pushes one particle.  The first argument is the number of rounds left. -/
def pushParticles (M : JSMath) (pi : JSNum) (random : Nat → Draw) :
    Nat → Nat → List Particle → List Particle
  | 0, _, particles => particles
  | n + 1, i, particles =>
    pushParticles M pi random n (i + 1) (particles ++ [createParticle M pi random i])

/-- Embedding of `createParticles`: the array `particles` after the call, empty
before. -/
def createParticles (M : JSMath) (pi : JSNum) (random : Nat → Draw) : List Particle :=
  let particleCount := 200
  pushParticles M pi random particleCount 0 []

/-- A particle on the orbit of radius 2 about the y axis. -/
def shellParticle : Particle :=
  ⟨⟨fin 2, fin (1 / 2), fin 0, ⟨fin 0, fin 1, fin 0⟩⟩, ⟨fin 9, fin 9, fin 9⟩, ⟨fin 1, fin 1, fin 1⟩⟩

end NeonBlob

namespace LiquidMetal

open JSNum

/-! ## Lemmas on numbers -/

@[simp] theorem fin_add_fin (a b : ℚ) : fin a + fin b = fin (a + b) := rfl
@[simp] theorem fin_sub_fin (a b : ℚ) : fin a - fin b = fin (a - b) := rfl
@[simp] theorem fin_mul_fin (a b : ℚ) : fin a * fin b = fin (a * b) := rfl
@[simp] theorem fin_div_fin (a b : ℚ) :
    fin a / fin b = if b = 0 then nan else fin (a / b) := rfl
@[simp] theorem nan_add (a : JSNum) : nan + a = nan := rfl
@[simp] theorem add_nan (a : JSNum) : a + nan = nan := by cases a <;> rfl
@[simp] theorem nan_mul (a : JSNum) : nan * a = nan := rfl
@[simp] theorem mul_nan (a : JSNum) : a * nan = nan := by cases a <;> rfl
@[simp] theorem nan_div (a : JSNum) : nan / a = nan := rfl
@[simp] theorem div_nan (a : JSNum) : a / nan = nan := by cases a <;> rfl
@[simp] theorem nan_sub (a : JSNum) : nan - a = nan := rfl
@[simp] theorem sub_nan (a : JSNum) : a - nan = nan := by cases a <;> rfl
@[simp] theorem ofNat_eq_fin (n : Nat) [n.AtLeastTwo] :
    (OfNat.ofNat n : JSNum) = fin (OfNat.ofNat n) := by
  show fin (n : ℚ) = _
  rfl
@[simp] theorem zero_eq_fin : (0 : JSNum) = fin 0 := by
  show fin ((0 : Nat) : ℚ) = _
  simp
@[simp] theorem one_eq_fin : (1 : JSNum) = fin 1 := by
  show fin ((1 : Nat) : ℚ) = _
  simp
@[simp] theorem ge_fin_fin (a b : ℚ) : (fin a).ge (fin b) = decide (b ≤ a) := rfl
@[simp] theorem lt_fin_fin (a b : ℚ) : (fin a).lt (fin b) = decide (a < b) := rfl

theorem lt_not_ge (a b : JSNum) (h : a.lt b = true) : a.ge b = false := by
  cases a <;> cases b <;> simp_all [JSNum.lt, JSNum.ge]

/-! ## Lemmas on the resampler -/

theorem fillVertices_length (S : SurfaceSampler) (g : Geometry) (n drawn : Nat) :
    (fillVertices S g n drawn).1.length = n := by
  induction n generalizing drawn with
  | zero => rfl
  | succ n ih => simp [fillVertices, ih]

theorem fillVertices_drawn (S : SurfaceSampler) (g : Geometry) (n drawn : Nat) :
    (fillVertices S g n drawn).2 = drawn + n := by
  induction n generalizing drawn with
  | zero => rfl
  | succ n ih => simp [fillVertices, ih]; omega

/-- Every stored point is a sample of the geometry that was passed in. -/
theorem fillVertices_getElem (S : SurfaceSampler) (g : Geometry) (n drawn i : Nat)
    (h : i < n) : (fillVertices S g n drawn).1[i]? = some (S.sample g (drawn + i)) := by
  induction n generalizing drawn i with
  | zero => omega
  | succ n ih =>
    cases i with
    | zero => simp [fillVertices]
    | succ i =>
      simp only [fillVertices, List.getElem?_cons_succ]
      rw [ih (drawn + 1) i (by omega)]
      congr 2
      omega

/-! ## Claims on the resampler -/

/-- C2: for every geometry and every target count `N` (so for every `N ≥ 1`), the
geometry returned by `normalizeGeometryVertices(geometry, N)` has exactly `N` position
vertices, in the identity branch and in the resampling branch, whatever points the
surface sampler yields and however many samples were drawn before. -/
theorem normalizeGeometryVertices_count (S : SurfaceSampler) (geometry : Geometry)
    (N drawn : Nat) : (normalizeGeometryVertices S geometry N drawn).1.count = N := by
  unfold normalizeGeometryVertices
  split
  · assumption
  · simp [Geometry.count, fillVertices_length]

/-- C3: for every geometry whose position-vertex count already equals
`targetVertexCount`, `normalizeGeometryVertices` returns that same geometry, positions
unchanged, and the count of samples drawn from the surface sampler is the one before
the call. -/
theorem normalizeGeometryVertices_identity (S : SurfaceSampler) (geometry : Geometry)
    (targetVertexCount drawn : Nat) (h : geometry.count = targetVertexCount) :
    normalizeGeometryVertices S geometry targetVertexCount drawn = (geometry, drawn) := by
  simp [normalizeGeometryVertices, h]

theorem normalizeGeometryVertices_identity_witness :
    (⟨[⟨1, 0, 0⟩, ⟨0, 1, 0⟩]⟩ : Geometry).count = 2 ∧
      normalizeGeometryVertices standInSampler ⟨[⟨1, 0, 0⟩, ⟨0, 1, 0⟩]⟩ 2 7
        = (⟨[⟨1, 0, 0⟩, ⟨0, 1, 0⟩]⟩, 7) :=
  ⟨rfl, normalizeGeometryVertices_identity standInSampler ⟨[⟨1, 0, 0⟩, ⟨0, 1, 0⟩]⟩ 2 7 rfl⟩

/-! ## Lemmas on the choice of the next shape -/

/-- In a list without repetition, `indexOf` finds a key at the place where it is. -/
theorem indexOf_of_getElem? (shapes : List String) (hnodup : shapes.Nodup) (k : Nat)
    (s : String) (h : shapes[k]? = some s) : indexOf shapes (some s) = k := by
  induction shapes generalizing k with
  | nil => simp at h
  | cons a rest ih =>
    rw [List.nodup_cons] at hnodup
    cases k with
    | zero =>
      simp only [List.getElem?_cons_zero, Option.some.injEq] at h
      simp [indexOf, h]
    | succ k =>
      simp only [List.getElem?_cons_succ] at h
      have hmem : s ∈ rest := List.getElem?_mem h
      have ha : a ≠ s := fun e => hnodup.1 (e ▸ hmem)
      have hi := ih hnodup.2 k h
      unfold indexOf
      simp only [ha, if_false, hi]
      split
      · omega
      · push_cast; ring

/-- The index drawn from a result of `Math.random()` is a position of the list. -/
theorem drawnIndex_lt (r : Draw) (n : Nat) (hn : 0 < n) :
    0 ≤ Int.floor (r.val * n) ∧ (Int.floor (r.val * n)).toNat < n := by
  have h0 : 0 ≤ Int.floor (r.val * n) :=
    Int.floor_nonneg.mpr (mul_nonneg r.property.1 (by positivity))
  have h1 : Int.floor (r.val * n) < n := by
    rw [Int.floor_lt]
    have hn' : (0 : ℚ) < n := by exact_mod_cast hn
    have := mul_lt_mul_of_pos_right r.property.2 hn'
    simpa using this
  exact ⟨h0, by omega⟩

theorem drawNextIndex_spec (shapes : List String) (hne : shapes ≠ []) (currentIndex : Int)
    (draws : List Draw) (next : Option String) (rest : List Draw)
    (h : drawNextIndex shapes currentIndex draws = some (next, rest)) :
    ∃ (k : Nat) (s : String), (k : Int) ≠ currentIndex ∧ shapes[k]? = some s ∧ next = some s := by
  induction draws with
  | nil => simp [drawNextIndex] at h
  | cons r tail ih =>
    simp only [drawNextIndex] at h
    split at h
    · exact ih h
    · rename_i hneq
      simp only [Option.some.injEq, Prod.mk.injEq] at h
      have hlen : 0 < shapes.length := List.length_pos.mpr hne
      obtain ⟨h0, h1⟩ := drawnIndex_lt r shapes.length hlen
      refine ⟨(Int.floor (r.val * shapes.length)).toNat, shapes[(Int.floor (r.val * shapes.length)).toNat], ?_, ?_, ?_⟩
      · rw [Int.toNat_of_nonneg h0]; exact hneq
      · exact List.getElem?_eq_getElem h1
      · rw [← h.1]; exact List.getElem?_eq_getElem h1

/-- C6: in random mode (`params.currentShape === 'random'`), every value returned by
`getNextShape` is a key of `morphTargets` different from `params.currentMorphTarget`,
for every sequence of random draws on which it returns.  The keys of the object are
distinct and there is at least one; with current target `'sphere'` the value is never
`'sphere'`. -/
theorem getNextShape_random_distinct (morphTargets : MorphTargets) (params : Params)
    (draws : List Draw) (next : Option String) (rest : List Draw)
    (hkeys : (morphTargets.map Prod.fst).Nodup) (hne : morphTargets ≠ [])
    (hrandom : params.currentShape = "random")
    (hret : getNextShape morphTargets params draws = some (next, rest)) :
    ∃ s, next = some s ∧ s ∈ morphTargets.map Prod.fst ∧ params.currentMorphTarget ≠ some s := by
  simp only [getNextShape, hrandom, if_true] at hret
  have hne' : morphTargets.map Prod.fst ≠ [] := by simpa using hne
  obtain ⟨k, s, hk, hs, hnext⟩ := drawNextIndex_spec _ hne' _ draws next rest hret
  refine ⟨s, hnext, List.getElem?_mem hs, ?_⟩
  intro hcur
  rw [hcur, indexOf_of_getElem? _ hkeys k s hs] at hk
  exact hk rfl

/-! ## Lemmas on the morph target set -/

theorem segments_fin_natCast (n : Nat) : segments (fin (n : ℚ)) = n := by
  simp [segments]

theorem drawNextIndex_five_half (shapes : List String) (h : shapes.length = 5)
    (currentIndex : Int) (hc : currentIndex ≠ 2) (rest : List Draw) :
    drawNextIndex shapes currentIndex (drawHalf :: rest) = some (shapes[2]?, rest) := by
  have hf : Int.floor (drawHalf.val * (shapes.length : ℚ)) = 2 := by
    rw [h, Int.floor_eq_iff]
    norm_num [drawHalf]
  simp only [drawNextIndex, hf]
  rw [if_neg (fun e => hc e.symm)]
  rfl

/-- The whole effect of `createMorphTargets`: it returns as soon as `getNextShape` does,
the morph targets are the geometries of the object literal, and the resampling loop only
moves the count of samples drawn. -/
theorem createMorphTargets_eq (M : JSMath) (L : GeometryLibrary) (S : SurfaceSampler)
    (demo : Demo) (drawn : Nat) (draws : List Draw) :
    createMorphTargets M L S demo drawn draws
      = (getNextShape (morphTargetLiteral M L demo.params)
          { demo.params with currentMorphTarget := some "sphere" } draws).map
          (fun r =>
            ({ demo with
                morphTargets := morphTargetLiteral M L demo.params,
                params := { demo.params with currentMorphTarget := some "sphere",
                                             nextMorphTarget := r.1 } },
              normalizeTargets S (morphTargetLiteral M L demo.params)
                ((morphTargetLiteral M L demo.params).map Prod.fst) drawn, r.2)) := by
  unfold createMorphTargets
  simp only
  split
  · rename_i h; rw [h]; rfl
  · rename_i next rest h; rw [h]; rfl

/-- In random mode with the five keys and `sphere` current, the draw `1 / 2` picks the
key at index 2. -/
theorem getNextShape_literal_half (M : JSMath) (L : GeometryLibrary) (params : Params)
    (hrandom : params.currentShape = "random") :
    getNextShape (morphTargetLiteral M L params)
        { params with currentMorphTarget := some "sphere" } [drawHalf]
      = some (some "cube", []) := by
  unfold getNextShape
  rw [if_pos hrandom]
  simp only
  rw [drawNextIndex_five_half _ (by rfl) _ (by change (0 : Int) ≠ 2; decide)]
  rfl

theorem segments_div (a b : Nat) (hb : b ≠ 0) (hdiv : b ∣ a) :
    segments (fin (a : ℚ) / fin (b : ℚ)) = a / b := by
  obtain ⟨c, rfl⟩ := hdiv
  have hb' : (b : ℚ) ≠ 0 := by exact_mod_cast hb
  have hq : ((b * c : Nat) : ℚ) / (b : ℚ) = (c : ℚ) := by
    push_cast
    field_simp
  rw [fin_div_fin, if_neg hb', hq, segments_fin_natCast, Nat.mul_div_cancel_left c (Nat.pos_of_ne_zero hb)]

/-! ## Lemmas on the morph clock -/

theorem advanceMorphClock_idle (morphTargets : MorphTargets) (params : Params) (time : JSNum)
    (draws : List Draw) (h : params.autoMorph = false) :
    advanceMorphClock morphTargets params time draws = some (params, draws) := by
  simp [advanceMorphClock, h]

theorem advanceMorphClock_rollover (morphTargets : MorphTargets) (params : Params)
    (time : JSNum) (draws rest : List Draw) (next : Option String)
    (hauto : params.autoMorph = true)
    (hge : (params.currentMorphTime + time * params.morphSpeed).ge params.morphDuration = true)
    (hnext : getNextShape morphTargets
      { params with currentMorphTime := fin 0,
                    currentMorphTarget := params.nextMorphTarget } draws = some (next, rest)) :
    advanceMorphClock morphTargets params time draws
      = some ({ params with currentMorphTime := fin 0,
                            currentMorphTarget := params.nextMorphTarget,
                            nextMorphTarget := next }, rest) := by
  simp only [advanceMorphClock, if_pos hauto, if_pos hge]
  rw [hnext]

theorem advanceMorphClock_continue (morphTargets : MorphTargets) (params : Params)
    (time : JSNum) (draws : List Draw) (hauto : params.autoMorph = true)
    (hlt : (params.currentMorphTime + time * params.morphSpeed).lt params.morphDuration = true) :
    advanceMorphClock morphTargets params time draws
      = some ({ params with
          currentMorphTime := params.currentMorphTime + time * params.morphSpeed }, draws) := by
  have hge := lt_not_ge _ _ hlt
  simp only [advanceMorphClock, if_pos hauto, hge, Bool.false_eq_true, if_false]

/-! ## Lemmas on the vertex loop -/

theorem writeVertices_length (vertex : Nat → Vec3) (n i : Nat) (positions : List Vec3) :
    (writeVertices vertex n i positions).length = positions.length := by
  induction n generalizing i positions with
  | zero => rfl
  | succ n ih => simp [writeVertices, ih]

theorem writeVertices_getElem? (vertex : Nat → Vec3) (n i j : Nat) (positions : List Vec3) :
    (writeVertices vertex n i positions)[j]?
      = if i ≤ j ∧ j < i + n ∧ j < positions.length then some (vertex j) else positions[j]? := by
  induction n generalizing i positions with
  | zero =>
    simp only [writeVertices]
    rw [if_neg (by omega)]
  | succ n ih =>
    simp only [writeVertices]
    rw [ih, List.length_set, List.getElem?_set]
    by_cases hij : i = j
    · subst hij
      by_cases hlen : i < positions.length
      · rw [if_neg (by omega), if_pos rfl, if_pos hlen, if_pos (by omega)]
      · rw [if_neg (by omega), if_pos rfl, if_neg hlen, if_neg (by omega)]
        exact (List.getElem?_eq_none (by omega)).symm
    · rw [if_neg hij]
      by_cases hc : i + 1 ≤ j ∧ j < i + 1 + n ∧ j < positions.length
      · rw [if_pos hc, if_pos (by omega)]
      · rw [if_neg hc, if_neg (by omega)]

/-- The vertex loop run over the whole buffer overwrites every entry: the result is the
list of the written positions and owes nothing to the previous content. -/
theorem writeVertices_all (vertex : Nat → Vec3) (positions : List Vec3) :
    writeVertices vertex positions.length 0 positions
      = (List.range positions.length).map vertex := by
  apply List.ext_getElem?
  intro j
  rw [writeVertices_getElem?]
  by_cases hj : j < positions.length
  · rw [if_pos (by omega), List.getElem?_map, List.getElem?_range hj]
    rfl
  · rw [if_neg (by omega), List.getElem?_eq_none (by omega), List.getElem?_eq_none]
    simp; omega

/-! ## Lemmas on the reads of the morph targets -/

theorem read_geometry_iff (morphTargets : MorphTargets) (key : Option String) (g : Geometry) :
    morphTargets.read key = .geometry g ↔ morphTargets.get key = some g := by
  unfold MorphTargets.read
  cases hget : morphTargets.get key with
  | some g' => simp
  | none =>
    cases key with
    | none => simp
    | some name => by_cases hn : name ∈ objectPrototypeNames <;> simp [hn]

theorem read_undefined_iff (morphTargets : MorphTargets) (key : Option String) :
    morphTargets.read key = .undefined ↔
      morphTargets.get key = none ∧ ∀ name, key = some name → name ∉ objectPrototypeNames := by
  unfold MorphTargets.read
  cases hget : morphTargets.get key with
  | some g' => simp
  | none =>
    cases key with
    | none => simp
    | some name => by_cases hn : name ∈ objectPrototypeNames <;> simp [hn]

theorem read_inherited_iff (morphTargets : MorphTargets) (key : Option String) :
    morphTargets.read key = .inherited ↔
      morphTargets.get key = none ∧ ∃ name, key = some name ∧ name ∈ objectPrototypeNames := by
  unfold MorphTargets.read
  cases hget : morphTargets.get key with
  | some g' => simp
  | none =>
    cases key with
    | none => simp
    | some name => by_cases hn : name ∈ objectPrototypeNames <;> simp [hn]

/-! ## Lemmas on the per-frame update -/

/-- What `updateLiquidMetal` writes when the mesh and both targets exist: the call
returns, and entry `i` of the mesh's position buffer becomes `morphVertex` at `i`, for
the parameters that the morph clock leaves. -/
theorem updateLiquidMetal_write (M : JSMath) (demo : Demo) (geometry : Geometry)
    (time : JSNum) (draws rest : List Draw) (params : Params) (currentShape nextShape : Geometry)
    (hmesh : demo.liquidMetal = some geometry)
    (hclock : advanceMorphClock demo.morphTargets demo.params time draws = some (params, rest))
    (hcur : demo.morphTargets.get params.currentMorphTarget = some currentShape)
    (hnext : demo.morphTargets.get params.nextMorphTarget = some nextShape) :
    updateLiquidMetal M demo time draws
      = some (.returned, { demo with
          params := params,
          liquidMetal := some ⟨(List.range geometry.count).map
            (morphVertex M params time (params.currentMorphTime / params.morphDuration)
              currentShape nextShape)⟩ }, rest) := by
  have h1 := (read_geometry_iff _ _ _).mpr hcur
  have h2 := (read_geometry_iff _ _ _).mpr hnext
  simp only [updateLiquidMetal, hmesh, hclock, h1, h2, Geometry.count, writeVertices_all]

/-- What `updateLiquidMetal` does when the mesh exists and one of the two reads is
`undefined`: the guard returns, the parameters are the ones the morph clock leaves and
nothing is written. -/
theorem updateLiquidMetal_missing (M : JSMath) (demo : Demo) (geometry : Geometry)
    (time : JSNum) (draws rest : List Draw) (params : Params)
    (hmesh : demo.liquidMetal = some geometry)
    (hclock : advanceMorphClock demo.morphTargets demo.params time draws = some (params, rest))
    (hmiss : demo.morphTargets.read params.currentMorphTarget = .undefined ∨
      demo.morphTargets.read params.nextMorphTarget = .undefined) :
    updateLiquidMetal M demo time draws
      = some (.returned, { demo with params := params }, rest) := by
  simp only [updateLiquidMetal, hmesh, hclock]
  cases h1 : demo.morphTargets.read params.currentMorphTarget <;>
    cases h2 : demo.morphTargets.read params.nextMorphTarget <;>
    simp_all

/-- What `updateLiquidMetal` does when the mesh exists, both reads pass the guard and
one of them is a value inherited from `Object.prototype`: the call throws, the
parameters are the ones the morph clock leaves and nothing is written. -/
theorem updateLiquidMetal_throws (M : JSMath) (demo : Demo) (geometry : Geometry)
    (time : JSNum) (draws rest : List Draw) (params : Params)
    (hmesh : demo.liquidMetal = some geometry)
    (hclock : advanceMorphClock demo.morphTargets demo.params time draws = some (params, rest))
    (hcur : demo.morphTargets.read params.currentMorphTarget ≠ .undefined)
    (hnext : demo.morphTargets.read params.nextMorphTarget ≠ .undefined)
    (hinh : demo.morphTargets.read params.currentMorphTarget = .inherited ∨
      demo.morphTargets.read params.nextMorphTarget = .inherited) :
    updateLiquidMetal M demo time draws
      = some (.threw, { demo with params := params }, rest) := by
  simp only [updateLiquidMetal, hmesh, hclock]
  cases h1 : demo.morphTargets.read params.currentMorphTarget <;>
    cases h2 : demo.morphTargets.read params.nextMorphTarget <;>
    simp_all

/-- When the mesh exists, `updateLiquidMetal` ends as soon as the morph clock does, with
the parameters that the clock leaves and the same morph targets; it throws only when a
target id reads a value inherited from `Object.prototype`, and then nothing is
written. -/
theorem updateLiquidMetal_of_clock (M : JSMath) (demo : Demo) (geometry : Geometry)
    (time : JSNum) (draws rest : List Draw) (params : Params)
    (hmesh : demo.liquidMetal = some geometry)
    (hclock : advanceMorphClock demo.morphTargets demo.params time draws = some (params, rest)) :
    ∃ c demo', updateLiquidMetal M demo time draws = some (c, demo', rest) ∧
      demo'.params = params ∧ demo'.morphTargets = demo.morphTargets ∧
      demo'.liquidMetal.isSome = true ∧
      (c = .threw →
        demo'.liquidMetal = demo.liquidMetal ∧
          (demo.morphTargets.read params.currentMorphTarget = .inherited ∨
            demo.morphTargets.read params.nextMorphTarget = .inherited)) := by
  by_cases hmiss : demo.morphTargets.read params.currentMorphTarget = .undefined ∨
      demo.morphTargets.read params.nextMorphTarget = .undefined
  · exact ⟨_, _, updateLiquidMetal_missing M demo geometry time draws rest params hmesh hclock
      hmiss, rfl, rfl, by simp [hmesh], fun h => by cases h⟩
  · rw [not_or] at hmiss
    by_cases hinh : demo.morphTargets.read params.currentMorphTarget = .inherited ∨
        demo.morphTargets.read params.nextMorphTarget = .inherited
    · exact ⟨_, _, updateLiquidMetal_throws M demo geometry time draws rest params hmesh hclock
        hmiss.1 hmiss.2 hinh, rfl, rfl, by simp [hmesh], fun _ => ⟨rfl, hinh⟩⟩
    · rw [not_or] at hinh
      cases h1 : demo.morphTargets.read params.currentMorphTarget with
      | undefined => exact absurd h1 hmiss.1
      | inherited => exact absurd h1 hinh.1
      | geometry currentShape =>
        cases h2 : demo.morphTargets.read params.nextMorphTarget with
        | undefined => exact absurd h2 hmiss.2
        | inherited => exact absurd h2 hinh.2
        | geometry nextShape =>
          exact ⟨_, _, updateLiquidMetal_write M demo geometry time draws rest params
            currentShape nextShape hmesh hclock ((read_geometry_iff _ _ _).mp h1)
            ((read_geometry_iff _ _ _).mp h2), rfl, rfl, rfl, fun h => by cases h⟩

/-- The parameters after `updateLiquidMetal` are the old ones (no mesh) or the ones that
the morph clock leaves. -/
theorem updateLiquidMetal_params (M : JSMath) (demo demo' : Demo) (time : JSNum)
    (draws rest : List Draw) (c : Completion)
    (h : updateLiquidMetal M demo time draws = some (c, demo', rest)) :
    demo'.params = demo.params ∨
      ∃ r, advanceMorphClock demo.morphTargets demo.params time draws = some (demo'.params, r) := by
  cases hmesh : demo.liquidMetal with
  | none =>
    simp only [updateLiquidMetal, hmesh, Option.some.injEq, Prod.mk.injEq] at h
    left; rw [← h.2.1]
  | some geometry =>
    cases hclock : advanceMorphClock demo.morphTargets demo.params time draws with
    | none =>
      simp only [updateLiquidMetal, hmesh, hclock] at h
      cases h
    | some pr =>
      obtain ⟨params, r⟩ := pr
      obtain ⟨c', d', hup, hp, _, _, _⟩ :=
        updateLiquidMetal_of_clock M demo geometry time draws r params hmesh hclock
      rw [hup] at h
      simp only [Option.some.injEq, Prod.mk.injEq] at h
      right
      exact ⟨r, by rw [← h.2.1, hp]⟩

/-- A frame event leaves the state in which the call of `updateLiquidMetal` ends. -/
theorem handle_frame (M : JSMath) (demo demo' : Demo) (draws rest : List Draw)
    (deltaTime : JSNum) (h : handle M demo draws (.frame deltaTime) = some (demo', rest)) :
    ∃ c, updateLiquidMetal M demo deltaTime draws = some (c, demo', rest) := by
  cases hu : updateLiquidMetal M demo deltaTime draws with
  | none => simp [handle, hu] at h
  | some r =>
    obtain ⟨c, d, rs⟩ := r
    simp only [handle, hu, Option.map_some', Option.some.injEq, Prod.mk.injEq] at h
    exact ⟨c, by rw [h.1, h.2]⟩

/-- What the morph clock can do to the parameters: duration and speed stay, and the
elapsed time stays, is reset to zero, or becomes the sum, which is then below the
duration. -/
theorem advanceMorphClock_cases (morphTargets : MorphTargets) (params params' : Params)
    (time : JSNum) (draws rest : List Draw)
    (h : advanceMorphClock morphTargets params time draws = some (params', rest)) :
    params'.morphDuration = params.morphDuration ∧ params'.morphSpeed = params.morphSpeed ∧
      (params'.currentMorphTime = params.currentMorphTime ∨
        params'.currentMorphTime = fin 0 ∨
        (params'.currentMorphTime = params.currentMorphTime + time * params.morphSpeed ∧
          (params.currentMorphTime + time * params.morphSpeed).ge params.morphDuration
            = false)) := by
  simp only [advanceMorphClock] at h
  split at h
  · split at h
    · split at h
      · cases h
      · simp only [Option.some.injEq, Prod.mk.injEq] at h
        rw [← h.1]
        exact ⟨rfl, rfl, Or.inr (Or.inl rfl)⟩
    · rename_i hge
      simp only [Option.some.injEq, Prod.mk.injEq] at h
      rw [← h.1]
      exact ⟨rfl, rfl, Or.inr (Or.inr ⟨rfl, by simpa using hge⟩)⟩
  · simp only [Option.some.injEq, Prod.mk.injEq] at h
    rw [← h.1]
    exact ⟨rfl, rfl, Or.inl rfl⟩

theorem advanceMorphClock_inv (morphTargets : MorphTargets) (params params' : Params)
    (q d : ℚ) (draws rest : List Draw) (hq : 0 ≤ q) (hinv : ClockInv d params)
    (h : advanceMorphClock morphTargets params (fin q) draws = some (params', rest)) :
    ClockInv d params' := by
  obtain ⟨t, sp, ht, hd, hsp, ht0, htd, hsp0⟩ := hinv
  have hd0 : 0 < d := lt_of_le_of_lt ht0 htd
  obtain ⟨hd', hsp', hcases⟩ := advanceMorphClock_cases _ _ _ _ _ _ h
  rw [hd] at hd'
  rw [hsp] at hsp'
  rcases hcases with h1 | h1 | ⟨h1, h2⟩
  · exact ⟨t, sp, h1.trans ht, hd', hsp', ht0, htd, hsp0⟩
  · exact ⟨0, sp, h1, hd', hsp', le_refl 0, hd0, hsp0⟩
  · rw [ht, hsp, hd] at h2
    rw [ht, hsp] at h1
    simp only [fin_mul_fin, fin_add_fin, ge_fin_fin, decide_eq_false_iff_not, not_le] at h1 h2
    have := mul_nonneg hq hsp0
    exact ⟨t + q * sp, sp, h1, hd', hsp', by linarith, h2, hsp0⟩

theorem shapeSelectHandler_clock (params : Params) (value : String) :
    (shapeSelectHandler params value).morphDuration = params.morphDuration ∧
      (shapeSelectHandler params value).morphSpeed = params.morphSpeed ∧
      ((shapeSelectHandler params value).currentMorphTime = params.currentMorphTime ∨
        (shapeSelectHandler params value).currentMorphTime = fin 0) := by
  by_cases hv : value = "random"
  · simp [shapeSelectHandler, hv]
  · simp [shapeSelectHandler, hv]

theorem handle_inv (M : JSMath) (demo demo' : Demo) (d : ℚ) (draws rest : List Draw)
    (e : Event) (he : e.nonNegative) (hinv : ClockInv d demo.params)
    (h : handle M demo draws e = some (demo', rest)) : ClockInv d demo'.params := by
  obtain ⟨t, sp, ht, hd, hsp, ht0, htd, hsp0⟩ := hinv
  have hd0 : 0 < d := lt_of_le_of_lt ht0 htd
  cases e with
  | frame deltaTime =>
    cases deltaTime with
    | nan => exact absurd he id
    | fin q =>
      obtain ⟨c, hc⟩ := handle_frame M demo demo' draws rest (fin q) h
      rcases updateLiquidMetal_params M demo demo' (fin q) draws rest c hc with hp | ⟨r, hp⟩
      · rw [hp]; exact ⟨t, sp, ht, hd, hsp, ht0, htd, hsp0⟩
      · exact advanceMorphClock_inv _ _ _ q d draws r he ⟨t, sp, ht, hd, hsp, ht0, htd, hsp0⟩ hp
  | autoMorphChange checked =>
    simp only [handle, Option.some.injEq, Prod.mk.injEq] at h
    rw [← h.1]
    exact ⟨t, sp, ht, hd, hsp, ht0, htd, hsp0⟩
  | morphSpeedInput value =>
    cases value with
    | nan => exact absurd he id
    | fin v =>
      simp only [handle, Option.some.injEq, Prod.mk.injEq] at h
      rw [← h.1]
      refine ⟨t, v / 100 * 2, ht, hd, ?_, ht0, htd, ?_⟩
      · simp
      · have hv : 0 ≤ v := he
        positivity
  | turbulenceInput value =>
    simp only [handle, Option.some.injEq, Prod.mk.injEq] at h
    rw [← h.1]
    exact ⟨t, sp, ht, hd, hsp, ht0, htd, hsp0⟩
  | shapeSelectChange value =>
    simp only [handle, Option.some.injEq, Prod.mk.injEq] at h
    rw [← h.1]
    obtain ⟨h1, h2, h3 | h3⟩ := shapeSelectHandler_clock demo.params value
    · exact ⟨t, sp, h3.trans ht, h1.trans hd, h2.trans hsp, ht0, htd, hsp0⟩
    · exact ⟨0, sp, h3, h1.trans hd, h2.trans hsp, le_refl 0, hd0, hsp0⟩

theorem run_inv (M : JSMath) (d : ℚ) (events : List Event) (demo demo' : Demo)
    (draws rest : List Draw) (hev : ∀ e ∈ events, e.nonNegative)
    (hinv : ClockInv d demo.params) (h : run M demo draws events = some (demo', rest)) :
    ClockInv d demo'.params := by
  induction events generalizing demo draws with
  | nil =>
    simp only [run, Option.some.injEq, Prod.mk.injEq] at h
    rw [← h.1]; exact hinv
  | cons e events ih =>
    simp only [run] at h
    split at h
    · cases h
    · rename_i demo1 draws1 hstep
      exact ih demo1 draws1 (fun e' he' => hev e' (List.mem_cons_of_mem _ he'))
        (handle_inv M demo demo1 d draws draws1 e (hev e (List.mem_cons_self _ _)) hinv hstep) h

/-- C4: morph-clock invariant.  Starting from `currentMorphTime = 0` with
`morphDuration = d > 0` and a morph speed that is not negative, after any sequence of
frames (`updateLiquidMetal` with a frame delta that is not negative), shape-select
events and changes of the auto-morph and speed controls (slider value not negative),
`0 <= params.currentMorphTime < params.morphDuration` holds. -/
theorem morph_clock_invariant (M : JSMath) (demo demo' : Demo) (draws rest : List Draw)
    (events : List Event) (d sp : ℚ)
    (htime : demo.params.currentMorphTime = fin 0)
    (hduration : demo.params.morphDuration = fin d) (hd : 0 < d)
    (hspeed : demo.params.morphSpeed = fin sp) (hsp : 0 ≤ sp)
    (hev : ∀ e ∈ events, e.nonNegative)
    (hrun : run M demo draws events = some (demo', rest)) :
    ∃ t : ℚ, demo'.params.currentMorphTime = fin t ∧ demo'.params.morphDuration = fin d ∧
      0 ≤ t ∧ t < d := by
  obtain ⟨t, _, ht, hd', _, ht0, htd, _⟩ :=
    run_inv M d events demo demo' draws rest hev
      ⟨0, sp, htime, hduration, hspeed, le_refl 0, hd, hsp⟩ hrun
  exact ⟨t, ht, hd', ht0, htd⟩

/-- C5: rollover step.  In `updateLiquidMetal` with the mesh present and `autoMorph`
enabled, whenever `currentMorphTime + delta * morphSpeed >= morphDuration` (equality
included), the call ends as soon as `getNextShape` does, and the state after it has
`currentMorphTime == 0`, `currentMorphTarget` equal to the previous `nextMorphTarget`
and `nextMorphTarget` equal to the value `getNextShape` returns for the new current
target; when the sum is `< morphDuration` the call ends with the target ids unchanged
and `currentMorphTime` equal to the sum.  The call returns, except that it throws after
the clock update when a target id of the new state reads a value inherited from
`Object.prototype`. -/
theorem updateLiquidMetal_rollover (M : JSMath) (demo : Demo) (geometry : Geometry)
    (time : JSNum) (draws : List Draw) (hmesh : demo.liquidMetal = some geometry)
    (hauto : demo.params.autoMorph = true) :
    ((demo.params.currentMorphTime + time * demo.params.morphSpeed).ge
          demo.params.morphDuration = true →
        ∀ next rest,
          getNextShape demo.morphTargets
            { demo.params with currentMorphTime := fin 0,
                               currentMorphTarget := demo.params.nextMorphTarget } draws
            = some (next, rest) →
          ∃ c demo', updateLiquidMetal M demo time draws = some (c, demo', rest) ∧
            demo'.params.currentMorphTime = fin 0 ∧
            demo'.params.currentMorphTarget = demo.params.nextMorphTarget ∧
            demo'.params.nextMorphTarget = next ∧
            (c = .threw →
              demo.morphTargets.read demo.params.nextMorphTarget = .inherited ∨
                demo.morphTargets.read next = .inherited)) ∧
    ((demo.params.currentMorphTime + time * demo.params.morphSpeed).lt
          demo.params.morphDuration = true →
        ∃ c demo', updateLiquidMetal M demo time draws = some (c, demo', draws) ∧
          demo'.params.currentMorphTime
            = demo.params.currentMorphTime + time * demo.params.morphSpeed ∧
          demo'.params.currentMorphTarget = demo.params.currentMorphTarget ∧
          demo'.params.nextMorphTarget = demo.params.nextMorphTarget ∧
          (c = .threw →
            demo.morphTargets.read demo.params.currentMorphTarget = .inherited ∨
              demo.morphTargets.read demo.params.nextMorphTarget = .inherited)) := by
  constructor
  · intro hge next rest hnext
    obtain ⟨c, demo', hup, hp, _, _, hthrew⟩ :=
      updateLiquidMetal_of_clock M demo geometry time draws rest _
        hmesh (advanceMorphClock_rollover _ _ time draws rest next hauto hge hnext)
    exact ⟨c, demo', hup, by rw [hp], by rw [hp], by rw [hp], fun h => (hthrew h).2⟩
  · intro hlt
    obtain ⟨c, demo', hup, hp, _, _, hthrew⟩ :=
      updateLiquidMetal_of_clock M demo geometry time draws draws _
        hmesh (advanceMorphClock_continue _ _ time draws hauto hlt)
    exact ⟨c, demo', hup, by rw [hp], by rw [hp], by rw [hp], fun h => (hthrew h).2⟩

/-! ## Lemmas on the written vertex -/

/-- The unguarded division of the vertex loop: when the interpolated position is the
origin, its length is zero and every coordinate that is written is a non-number. -/
theorem morphVertex_origin (M : JSMath) (params : Params) (time morphFactor : JSNum)
    (currentShape nextShape : Geometry) (i : Nat)
    (hx : lerp (currentShape.getX i) (nextShape.getX i) morphFactor = fin 0)
    (hy : lerp (currentShape.getY i) (nextShape.getY i) morphFactor = fin 0)
    (hz : lerp (currentShape.getZ i) (nextShape.getZ i) morphFactor = fin 0) :
    morphVertex M params time morphFactor currentShape nextShape i = ⟨nan, nan, nan⟩ := by
  simp [morphVertex, hx, hy, hz, JSMath.sqrtN, M.sqrt_zero]

/-- Away from the origin and without turbulence the vertex loop writes the interpolated
position. -/
theorem morphVertex_no_turbulence (M : JSMath) (params : Params) (τ ns nv a b c : ℚ)
    (morphFactor : JSNum) (currentShape nextShape : Geometry) (i : Nat)
    (hturb : params.surfaceTurbulence = fin 0) (hscale : params.noiseScale = fin ns)
    (hspeed : params.noiseSpeed = fin nv)
    (hx : lerp (currentShape.getX i) (nextShape.getX i) morphFactor = fin a)
    (hy : lerp (currentShape.getY i) (nextShape.getY i) morphFactor = fin b)
    (hz : lerp (currentShape.getZ i) (nextShape.getZ i) morphFactor = fin c)
    (hne : ¬ (a = 0 ∧ b = 0 ∧ c = 0)) :
    morphVertex M params (fin τ) morphFactor currentShape nextShape i = ⟨fin a, fin b, fin c⟩ := by
  have hpos : 0 < a * a + b * b + c * c := by
    rcases not_and_or.mp hne with h | h
    · have := mul_self_pos.mpr h
      nlinarith [mul_self_nonneg b, mul_self_nonneg c]
    · rcases not_and_or.mp h with h | h
      · have := mul_self_pos.mpr h
        nlinarith [mul_self_nonneg a, mul_self_nonneg c]
      · have := mul_self_pos.mpr h
        nlinarith [mul_self_nonneg a, mul_self_nonneg b]
  have hsq := M.sqrt_pos _ hpos
  simp [morphVertex, hx, hy, hz, hturb, hscale, hspeed, JSMath.sqrtN, JSMath.sinN, JSMath.cosN,
    not_lt.mpr hpos.le, hsq.ne']

/-! ## Claims on the morph target set -/

/-- C1: `createMorphTargets` at the resolution of the module (64), over a library with
the vertex counts of the rendering library.  The morph targets keep the vertex counts
of their constructors: the sphere has 4225 vertices (the resample target), the torus
2145, the cube 486, the cone 626 and the abstract shape 1500, so the counts are not
identical. -/
theorem createMorphTargets_counts (M : JSMath) (S : SurfaceSampler) (drawn : Nat) :
    (createMorphTargets M standInLibrary S initialDemo drawn [drawHalf]).map
        (fun r => r.1.morphTargets.map (fun kv => (kv.1, kv.2.count)))
      = some [("sphere", 4225), ("torus", 2145), ("cube", 486), ("cone", 626),
          ("abstract", 1500)] := by
  have h64 : segments (fin 64) = 64 := segments_fin_natCast 64
  have h32 : segments (fin 64 / fin 2) = 32 := segments_div 64 2 (by decide) (by decide)
  have h16 : segments (fin 64 / fin 4) = 16 := segments_div 64 4 (by decide) (by decide)
  have h8 : segments (fin 64 / fin 8) = 8 := segments_div 64 8 (by decide) (by decide)
  have h4 : segments (fin 4) = 4 := segments_fin_natCast 4
  have hsphere : (standInLibrary.SphereGeometry (fin 1) (fin 64) (fin 64)).count = 4225 := by
    simp only [standInLibrary, Geometry.count, List.length_replicate, h64]
    decide
  have htorus : (standInLibrary.TorusGeometry (fin (7 / 10)) (fin (3 / 10)) (fin 64 / fin 2)
      (fin 64)).count = 2145 := by
    simp only [standInLibrary, Geometry.count, List.length_replicate, h64, h32]
  have hcube : (standInLibrary.BoxGeometry (fin (3 / 2)) (fin (3 / 2)) (fin (3 / 2))
      (fin 64 / fin 8) (fin 64 / fin 8) (fin 64 / fin 8)).count = 486 := by
    simp only [standInLibrary, Geometry.count, List.length_replicate, h8]
  have hcone : (standInLibrary.ConeGeometry (fin 1) (fin 2) (fin 64 / fin 2)
      (fin 64 / fin 4)).count = 626 := by
    simp only [standInLibrary, Geometry.count, List.length_replicate, h32, h16]
  have habstract : (createAbstractShape M standInLibrary).count = 1500 := by
    simp only [createAbstractShape, standInLibrary, Geometry.count, List.length_map,
      List.length_replicate, h4]
    decide
  rw [createMorphTargets_eq]
  simp only [initialDemo]
  rw [getNextShape_literal_half M standInLibrary initialParams rfl]
  simp only [Option.map_some', morphTargetLiteral, List.map_cons, List.map_nil]
  simp only [initialParams, hsphere, htorus, hcube, hcone, habstract]

/-- C10, as the code has it: `createMorphTargets` does not validate
`params.resolution` and has no error outcome.  For every resolution, zero and negative
ones included, it returns exactly when the random loop of `getNextShape` does, and
`morphTargets` then holds the five geometries that the constructors of the library
return for that resolution. -/
theorem createMorphTargets_any_resolution (M : JSMath) (L : GeometryLibrary)
    (S : SurfaceSampler) (demo : Demo) (drawn : Nat) (draws : List Draw) :
    (createMorphTargets M L S demo drawn draws).map (fun r => r.1.morphTargets)
      = (getNextShape (morphTargetLiteral M L demo.params)
          { demo.params with currentMorphTarget := some "sphere" } draws).map
          (fun _ => morphTargetLiteral M L demo.params) := by
  rw [createMorphTargets_eq, Option.map_map]
  rfl

/-- C10 fails as stated: with `params.resolution = 0` the call does not fail, it
returns with five shapes stored (12, 1, 6, 2 and 1500 vertices over the stand-in
library). -/
theorem createMorphTargets_zero_resolution :
    (createMorphTargets standInMath standInLibrary standInSampler zeroResolutionDemo 0
        [drawHalf]).map (fun r => r.1.morphTargets.map (fun kv => (kv.1, kv.2.count)))
      = some [("sphere", 12), ("torus", 1), ("cube", 6), ("cone", 2), ("abstract", 1500)] := by
  have h0 : segments (fin 0) = 0 := by simpa using segments_fin_natCast 0
  have h02 : segments (fin 0 / fin 2) = 0 := by
    simpa using segments_div 0 2 (by decide) (by decide)
  have h04 : segments (fin 0 / fin 4) = 0 := by
    simpa using segments_div 0 4 (by decide) (by decide)
  have h08 : segments (fin 0 / fin 8) = 0 := by
    simpa using segments_div 0 8 (by decide) (by decide)
  have h4 : segments (fin 4) = 4 := segments_fin_natCast 4
  have hsphere : (standInLibrary.SphereGeometry (fin 1) (fin 0) (fin 0)).count = 12 := by
    simp only [standInLibrary, Geometry.count, List.length_replicate, h0]
    decide
  have htorus : (standInLibrary.TorusGeometry (fin (7 / 10)) (fin (3 / 10)) (fin 0 / fin 2)
      (fin 0)).count = 1 := by
    simp only [standInLibrary, Geometry.count, List.length_replicate, h0, h02]
  have hcube : (standInLibrary.BoxGeometry (fin (3 / 2)) (fin (3 / 2)) (fin (3 / 2))
      (fin 0 / fin 8) (fin 0 / fin 8) (fin 0 / fin 8)).count = 6 := by
    simp only [standInLibrary, Geometry.count, List.length_replicate, h08]
  have hcone : (standInLibrary.ConeGeometry (fin 1) (fin 2) (fin 0 / fin 2)
      (fin 0 / fin 4)).count = 2 := by
    simp only [standInLibrary, Geometry.count, List.length_replicate, h02, h04]
  have habstract : (createAbstractShape standInMath standInLibrary).count = 1500 := by
    simp only [createAbstractShape, standInLibrary, Geometry.count, List.length_map,
      List.length_replicate, h4]
    decide
  rw [createMorphTargets_eq]
  simp only [zeroResolutionDemo, initialDemo]
  rw [getNextShape_literal_half standInMath standInLibrary _ rfl]
  simp only [Option.map_some', morphTargetLiteral, List.map_cons, List.map_nil]
  simp only [hsphere, htorus, hcube, hcone, habstract]

/-! ## Claims on the choice of the next shape and on the clock: instances -/

theorem getNextShape_random_distinct_witness :
    ∃ s, (some "cube" : Option String) = some s ∧ s ∈ sampleTargets.map Prod.fst ∧
      startDemo.params.currentMorphTarget ≠ some s :=
  getNextShape_random_distinct sampleTargets startDemo.params [drawZero, drawHalf]
    (some "cube") [] (by decide) (by decide) rfl
    (by
      have hzero : Int.floor (drawZero.val * ((sampleTargets.map Prod.fst).length : ℚ)) = 0 := by
        simp [drawZero]
      unfold getNextShape
      rw [if_pos (by rfl)]
      simp only
      unfold drawNextIndex
      simp only [hzero]
      rw [if_pos (by rfl), drawNextIndex_five_half _ (by rfl) _ (by change (0 : Int) ≠ 2; decide)]
      rfl)

theorem morph_clock_invariant_witness :
    ∃ demo' rest,
      run standInMath startDemo [drawHalf] [.frame (fin 1), .frame (fin 6)]
        = some (demo', rest) ∧
      ∃ t : ℚ, demo'.params.currentMorphTime = fin t ∧
        demo'.params.morphDuration = fin 3 ∧ 0 ≤ t ∧ t < 3 := by
  have h1 : (startDemo.params.currentMorphTime + fin 1 * startDemo.params.morphSpeed).lt
      startDemo.params.morphDuration = true := by
    simp [startDemo, initialParams]; norm_num
  obtain ⟨c1, demo1, hup1, hp1, hm1, hl1, _⟩ :=
    updateLiquidMetal_of_clock standInMath startDemo sampleMesh (fin 1) [drawHalf] [drawHalf] _
      rfl (advanceMorphClock_continue _ _ (fin 1) [drawHalf] rfl h1)
  have h2 : (demo1.params.currentMorphTime + fin 6 * demo1.params.morphSpeed).ge
      demo1.params.morphDuration = true := by
    rw [hp1]
    simp [startDemo, initialParams]; norm_num
  have hnext : getNextShape demo1.morphTargets
      { demo1.params with currentMorphTime := fin 0,
                          currentMorphTarget := demo1.params.nextMorphTarget } [drawHalf]
      = some (some "cube", []) := by
    rw [hm1, hp1]
    unfold getNextShape
    rw [if_pos (by rfl)]
    simp only
    rw [drawNextIndex_five_half _ (by rfl) _ (by change (1 : Int) ≠ 2; decide)]
    rfl
  obtain ⟨g1, hg1⟩ := Option.isSome_iff_exists.mp hl1
  obtain ⟨c2, demo2, hup2, _, _, _, _⟩ :=
    updateLiquidMetal_of_clock standInMath demo1 g1 (fin 6) [drawHalf] [] _ hg1
      (advanceMorphClock_rollover _ _ (fin 6) [drawHalf] [] (some "cube")
        (by rw [hp1]; rfl) h2 hnext)
  have hrun : run standInMath startDemo [drawHalf] [.frame (fin 1), .frame (fin 6)]
      = some (demo2, []) := by
    simp only [run, handle, hup1, hup2, Option.map_some']
  exact ⟨demo2, [], hrun,
    morph_clock_invariant standInMath startDemo demo2 [drawHalf] []
      [.frame (fin 1), .frame (fin 6)] 3 (1 / 2) rfl rfl (by norm_num) rfl (by norm_num)
      (by
        intro e he
        simp only [List.mem_cons, List.mem_singleton, List.not_mem_nil, or_false] at he
        rcases he with rfl | rfl <;> simp [Event.nonNegative])
      hrun⟩

theorem updateLiquidMetal_rollover_witness :
    ∃ demo', updateLiquidMetal standInMath rolloverDemo (fin 1) [drawHalf]
        = some (.returned, demo', []) ∧
      demo'.params.currentMorphTime = fin 0 ∧
      demo'.params.currentMorphTarget = some "torus" ∧
      demo'.params.nextMorphTarget = some "cube" :=
  let ⟨c, demo', h, h1, h2, h3, hthrew⟩ :=
    (updateLiquidMetal_rollover standInMath rolloverDemo sampleMesh (fin 1) [drawHalf] rfl rfl).1
      (by simp [rolloverDemo, initialParams]; norm_num) (some "cube") []
      (by
        unfold getNextShape
        rw [if_pos (by rfl)]
        simp only
        rw [drawNextIndex_five_half _ (by rfl) _ (by change (1 : Int) ≠ 2; decide)]
        rfl)
  match c, h, hthrew with
  | .returned, h, _ => ⟨demo', h, h1, h2, h3⟩
  | .threw, _, hthrew => by
    rcases hthrew rfl with h | h
    · exact absurd h (by decide)
    · exact absurd h (by decide)

/-! ## Claims on the written positions -/

/-- With auto-morph off, a call of `updateLiquidMetal` ends, keeps the parameters, and
leaves a state on which any further call does what it does on the state before.  The
call returns, except that it throws, writing nothing, when a target id reads a value
inherited from `Object.prototype`. -/
theorem updateLiquidMetal_idle_step (M : JSMath) (demo : Demo) (time : JSNum)
    (draws : List Draw) (hidle : demo.params.autoMorph = false) :
    ∃ c demo', updateLiquidMetal M demo time draws = some (c, demo', draws) ∧
      demo'.params = demo.params ∧
      (∀ time', updateLiquidMetal M demo' time' draws = updateLiquidMetal M demo time' draws) ∧
      (c = .threw →
        demo' = demo ∧
          (demo.morphTargets.read demo.params.currentMorphTarget = .inherited ∨
            demo.morphTargets.read demo.params.nextMorphTarget = .inherited)) := by
  have hclock := fun t => advanceMorphClock_idle demo.morphTargets demo.params t draws hidle
  cases hmesh : demo.liquidMetal with
  | none =>
    exact ⟨.returned, demo, by simp only [updateLiquidMetal, hmesh], rfl, fun _ => rfl,
      fun h => by cases h⟩
  | some geometry =>
    by_cases hmiss : demo.morphTargets.read demo.params.currentMorphTarget = .undefined ∨
        demo.morphTargets.read demo.params.nextMorphTarget = .undefined
    · exact ⟨.returned, demo, updateLiquidMetal_missing M demo geometry time draws draws
        demo.params hmesh (hclock time) hmiss, rfl, fun _ => rfl, fun h => by cases h⟩
    · rw [not_or] at hmiss
      by_cases hinh : demo.morphTargets.read demo.params.currentMorphTarget = .inherited ∨
          demo.morphTargets.read demo.params.nextMorphTarget = .inherited
      · exact ⟨.threw, demo, updateLiquidMetal_throws M demo geometry time draws draws
          demo.params hmesh (hclock time) hmiss.1 hmiss.2 hinh, rfl, fun _ => rfl,
          fun _ => ⟨rfl, hinh⟩⟩
      · rw [not_or] at hinh
        cases h1 : demo.morphTargets.read demo.params.currentMorphTarget with
        | undefined => exact absurd h1 hmiss.1
        | inherited => exact absurd h1 hinh.1
        | geometry currentShape =>
          cases h2 : demo.morphTargets.read demo.params.nextMorphTarget with
          | undefined => exact absurd h2 hmiss.2
          | inherited => exact absurd h2 hinh.2
          | geometry nextShape =>
            have hcur := (read_geometry_iff _ _ _).mp h1
            have hnext := (read_geometry_iff _ _ _).mp h2
            refine ⟨.returned, _, updateLiquidMetal_write M demo geometry time draws draws
              demo.params currentShape nextShape hmesh (hclock time) hcur hnext, rfl, ?_,
              fun h => by cases h⟩
            intro time'
            rw [updateLiquidMetal_write M demo geometry time' draws draws demo.params
              currentShape nextShape hmesh (hclock time') hcur hnext]
            have h2 := updateLiquidMetal_write M
              { demo with
                params := demo.params,
                liquidMetal := some ⟨(List.range geometry.count).map
                  (morphVertex M demo.params time
                    (demo.params.currentMorphTime / demo.params.morphDuration)
                    currentShape nextShape)⟩ }
              ⟨(List.range geometry.count).map
                (morphVertex M demo.params time
                  (demo.params.currentMorphTime / demo.params.morphDuration)
                  currentShape nextShape)⟩
              time' draws draws demo.params currentShape nextShape rfl (hclock time') hcur hnext
            rw [h2]
            simp [Geometry.count]

/-- C8: idempotence of the frame output.  With auto-morph off, `updateLiquidMetal`
ends, and a second call with the same time argument on the state it leaves ends the
same way and leaves that very state: the vertex positions written the second time are
the ones written the first time, and the morph state is the same.  The call returns,
except that it throws when a target id reads a value inherited from `Object.prototype`;
then neither call writes a vertex position and the state stays as it was. -/
theorem updateLiquidMetal_idempotent (M : JSMath) (demo : Demo) (time : JSNum)
    (draws : List Draw) (hidle : demo.params.autoMorph = false) :
    ∃ c demo', updateLiquidMetal M demo time draws = some (c, demo', draws) ∧
      updateLiquidMetal M demo' time draws = some (c, demo', draws) ∧
      (c = .threw →
        demo' = demo ∧
          (demo.morphTargets.read demo.params.currentMorphTarget = .inherited ∨
            demo.morphTargets.read demo.params.nextMorphTarget = .inherited)) := by
  obtain ⟨c, demo', h, _, hagain, hthrew⟩ := updateLiquidMetal_idle_step M demo time draws hidle
  exact ⟨c, demo', h, by rw [hagain time, h], hthrew⟩

theorem updateLiquidMetal_idempotent_witness :
    stillDemo.params.autoMorph = false ∧
      ∃ demo', updateLiquidMetal standInMath stillDemo (fin (1 / 60)) []
          = some (.returned, demo', []) ∧
        updateLiquidMetal standInMath demo' (fin (1 / 60)) [] = some (.returned, demo', []) :=
  let ⟨c, demo', h1, h2, hthrew⟩ :=
    updateLiquidMetal_idempotent standInMath stillDemo (fin (1 / 60)) [] rfl
  match c, h1, h2, hthrew with
  | .returned, h1, h2, _ => ⟨rfl, demo', h1, h2⟩
  | .threw, _, _, hthrew => by
    rcases (hthrew rfl).2 with h | h
    · exact absurd h (by decide)
    · exact absurd h (by decide)

/-- The written positions do not depend on the mesh's previous positions: two states
that differ only in the content of the mesh's position buffer, of the same vertex
count, get the same positions written. -/
theorem updateLiquidMetal_forgets_mesh (M : JSMath) (demo : Demo) (g g' : Geometry)
    (time : JSNum) (draws : List Draw) (hcount : g.count = g'.count)
    (hcur : (demo.morphTargets.get demo.params.currentMorphTarget).isSome = true)
    (hnext : (demo.morphTargets.get demo.params.nextMorphTarget).isSome = true)
    (hidle : demo.params.autoMorph = false) :
    updateLiquidMetal M { demo with liquidMetal := some g } time draws
      = updateLiquidMetal M { demo with liquidMetal := some g' } time draws := by
  obtain ⟨c, hc⟩ := Option.isSome_iff_exists.mp hcur
  obtain ⟨n, hn⟩ := Option.isSome_iff_exists.mp hnext
  have hclock := advanceMorphClock_idle demo.morphTargets demo.params time draws hidle
  rw [updateLiquidMetal_write M { demo with liquidMetal := some g } g time draws draws
      demo.params c n rfl hclock hc hn,
    updateLiquidMetal_write M { demo with liquidMetal := some g' } g' time draws draws
      demo.params c n rfl hclock hc hn, hcount]

/-- C7: with `params.surfaceTurbulence = 0`, halfway between the target positions
`(1, 0, 0)` and `(-1, 0, 0)` the pure linear interpolation is the origin `(0, 0, 0)`,
and the position that `updateLiquidMetal` writes for that vertex is not a number in any
coordinate: the division by the zero length is not guarded. -/
theorem updateLiquidMetal_origin_not_lerp (M : JSMath) (time : JSNum) (draws : List Draw) :
    (∃ demo', updateLiquidMetal M stillDemo time draws = some (.returned, demo', draws) ∧
      demo'.liquidMetal.map (fun g => g.position[0]?) = some (some ⟨nan, nan, nan⟩)) ∧
    stillDemo.params.surfaceTurbulence = fin 0 ∧
    lerp (fin 1) (fin (-1)) (stillDemo.params.currentMorphTime / stillDemo.params.morphDuration)
      = fin 0 ∧
    lerp (fin 0) (fin 0) (stillDemo.params.currentMorphTime / stillDemo.params.morphDuration)
      = fin 0 := by
  have hf : stillDemo.params.currentMorphTime / stillDemo.params.morphDuration = fin (1 / 2) := by
    simp [stillDemo, initialParams]; norm_num
  have hl1 : lerp (fin 1) (fin (-1)) (fin (1 / 2)) = fin 0 := by
    simp [lerp]; norm_num
  have hl0 : lerp (fin 0) (fin 0) (fin (1 / 2)) = fin 0 := by
    simp [lerp]
  refine ⟨?_, rfl, by rw [hf]; exact hl1, by rw [hf]; exact hl0⟩
  have hw := updateLiquidMetal_write M stillDemo sampleMesh time draws draws stillDemo.params
    ⟨[⟨fin 1, fin 0, fin 0⟩, ⟨fin 0, fin 1, fin 0⟩]⟩
    ⟨[⟨fin (-1), fin 0, fin 0⟩, ⟨fin 0, fin 1, fin 0⟩]⟩ rfl
    (advanceMorphClock_idle _ _ time draws rfl) rfl rfl
  refine ⟨_, hw, ?_⟩
  have hv := morphVertex_origin M stillDemo.params time (fin (1 / 2))
    ⟨[⟨fin 1, fin 0, fin 0⟩, ⟨fin 0, fin 1, fin 0⟩]⟩
    ⟨[⟨fin (-1), fin 0, fin 0⟩, ⟨fin 0, fin 1, fin 0⟩]⟩ 0 hl1 hl0 hl0
  simp only [Option.map_some', hf]
  have hcount : sampleMesh.count = 2 := rfl
  rw [hcount]
  simp only [List.range_succ_eq_map, List.range_zero, List.map_cons, List.getElem?_cons_zero, hv]

/-- C9: in the running demo (turbulence 0.3), one second into the morph a frame of one
second brings the vertex between `(1, 0, 0)` and `(-1, 0, 0)` to the origin, and the
position that `updateLiquidMetal` writes for it is not a finite number in any
coordinate: there is no fallback for the zero length. -/
theorem updateLiquidMetal_origin_not_finite (M : JSMath) (draws : List Draw) :
    ∃ demo' v, updateLiquidMetal M runningDemo (fin 1) draws = some (.returned, demo', draws) ∧
      demo'.liquidMetal.map (fun g => g.position[0]?) = some (some v) ∧
      v.x.isFinite = false ∧ v.y.isFinite = false ∧ v.z.isFinite = false := by
  have hlt : (runningDemo.params.currentMorphTime + fin 1 * runningDemo.params.morphSpeed).lt
      runningDemo.params.morphDuration = true := by
    simp [runningDemo, initialParams]; norm_num
  have hclock := advanceMorphClock_continue runningDemo.morphTargets runningDemo.params (fin 1)
    draws rfl hlt
  have hw := updateLiquidMetal_write M runningDemo sampleMesh (fin 1) draws draws _
    ⟨[⟨fin 1, fin 0, fin 0⟩, ⟨fin 0, fin 1, fin 0⟩]⟩
    ⟨[⟨fin (-1), fin 0, fin 0⟩, ⟨fin 0, fin 1, fin 0⟩]⟩ rfl hclock rfl rfl
  have hf : (runningDemo.params.currentMorphTime + fin 1 * runningDemo.params.morphSpeed)
      / runningDemo.params.morphDuration = fin (1 / 2) := by
    simp [runningDemo, initialParams]; norm_num
  have hl1 : lerp (fin 1) (fin (-1)) (fin (1 / 2)) = fin 0 := by
    simp [lerp]; norm_num
  have hl0 : lerp (fin 0) (fin 0) (fin (1 / 2)) = fin 0 := by
    simp [lerp]
  refine ⟨_, ⟨nan, nan, nan⟩, hw, ?_, rfl, rfl, rfl⟩
  simp only [Option.map_some', hf]
  have hcount : sampleMesh.count = 2 := rfl
  rw [hcount]
  rw [← morphVertex_origin M
    { runningDemo.params with
      currentMorphTime :=
        runningDemo.params.currentMorphTime + fin 1 * runningDemo.params.morphSpeed }
    (fin 1) (fin (1 / 2))
    ⟨[⟨fin 1, fin 0, fin 0⟩, ⟨fin 0, fin 1, fin 0⟩]⟩
    ⟨[⟨fin (-1), fin 0, fin 0⟩, ⟨fin 0, fin 1, fin 0⟩]⟩ 0 hl1 hl0 hl0]
  simp only [List.range_succ_eq_map, List.range_zero, List.map_cons, List.getElem?_cons_zero]

/-! ## Claims on the abstract shape -/

theorem jsnum_mul_comm (a b : JSNum) : a * b = b * a := by
  cases a <;> cases b <;> simp [mul_comm]

/-- The distortion of `createAbstractShape` is the sum of the two noise samples of the
specification. -/
theorem abstractDistortion_eq (M : JSMath) (x y z : JSNum) :
    abstractNoise M (x * fin 2) (y * fin 2) (z * fin 2) * fin (2 / 10)
        + abstractNoise M (x * fin 4 + fin 100) (y * fin 4 + fin 100) (z * fin 4 + fin 100)
          * fin (1 / 10)
      = fin (2 / 10) * M.sinN (fin 4 * x) * M.cosN (fin 4 * y) * M.sinN (fin 4 * z)
        + fin (1 / 10) * M.sinN (fin 8 * x + fin 200) * M.cosN (fin 8 * y + fin 200)
          * M.sinN (fin 8 * z + fin 200) := by
  have e4 : ∀ a : ℚ, a * 2 * 2 = 4 * a := fun a => by ring
  have e8 : ∀ a : ℚ, (a * 4 + 100) * 2 = 8 * a + 200 := fun a => by ring
  cases x <;> cases y <;> cases z <;>
    simp [abstractNoise, JSMath.sinN, JSMath.cosN, e4, e8]
  ring

theorem abstractVertex_eq_formula (M : JSMath) (p : Vec3) :
    abstractVertex M p = abstractDisplacementFormula M p := by
  simp only [abstractVertex, abstractDisplacementFormula, abstractDistortion_eq]

/-- C13: abstract-shape displacement.  For every vertex `p = (x, y, z)` of the
subdivided icosahedron, `createAbstractShape` writes `p + dir(p) * (n1 + n2)` with
`n1 = 0.2 * sin(4x) * cos(4y) * sin(4z)` and
`n2 = 0.1 * sin(8x + 200) * cos(8y + 200) * sin(8z + 200)`, where `dir(p)` is `p`
normalised: the zero vector maps to itself, and a vector that is not zero is divided
by its length. -/
theorem createAbstractShape_displacement (M : JSMath) (L : GeometryLibrary) :
    (createAbstractShape M L).position
        = (L.IcosahedronGeometry (fin 1) (fin 4)).position.map (abstractDisplacementFormula M) ∧
      normalize M ⟨fin 0, fin 0, fin 0⟩ = ⟨fin 0, fin 0, fin 0⟩ ∧
      (∀ a b c : ℚ, ¬ (a = 0 ∧ b = 0 ∧ c = 0) →
        normalize M ⟨fin a, fin b, fin c⟩
          = ⟨fin (a / M.sqrt (a * a + b * b + c * c)), fin (b / M.sqrt (a * a + b * b + c * c)),
              fin (c / M.sqrt (a * a + b * b + c * c))⟩) := by
  refine ⟨?_, ?_, ?_⟩
  · simp only [createAbstractShape]
    congr 1
    funext p
    exact abstractVertex_eq_formula M p
  · simp [normalize, JSMath.sqrtN, M.sqrt_zero]
  · intro a b c hne
    have hpos : 0 < a * a + b * b + c * c := by
      rcases not_and_or.mp hne with h | h
      · have := mul_self_pos.mpr h
        nlinarith [mul_self_nonneg b, mul_self_nonneg c]
      · rcases not_and_or.mp h with h | h
        · have := mul_self_pos.mpr h
          nlinarith [mul_self_nonneg a, mul_self_nonneg c]
        · have := mul_self_pos.mpr h
          nlinarith [mul_self_nonneg a, mul_self_nonneg b]
    have hsq := M.sqrt_pos _ hpos
    simp [normalize, JSMath.sqrtN, not_lt.mpr hpos.le, hsq.ne', div_eq_mul_inv]

theorem createAbstractShape_displacement_witness :
    (createAbstractShape standInMath tinyLibrary).position
        = [abstractDisplacementFormula standInMath ⟨fin 1, fin 0, fin 0⟩,
            abstractDisplacementFormula standInMath ⟨fin 0, fin 0, fin 0⟩] ∧
      normalize standInMath ⟨fin 1, fin 0, fin 0⟩ = ⟨fin 1, fin 0, fin 0⟩ := by
  have h := createAbstractShape_displacement standInMath tinyLibrary
  refine ⟨h.1, ?_⟩
  rw [h.2.2 1 0 0 (by norm_num)]
  simp [standInMath]

/-! ## Claims on the turbulence slider -/

/-- C19 fails as stated: at slider value 100 the turbulence handler sets
`params.surfaceTurbulence` to 1, not to `100 / 100 * 2.0 = 2`. -/
theorem turbulence_at_hundred :
    (handle standInMath startDemo [] (.turbulenceInput (fin 100))).map
        (fun r => r.1.params.surfaceTurbulence) = some (fin 1) ∧
      fin (1 : ℚ) ≠ fin (100 / 100 * 2) := by
  constructor
  · simp [handle, startDemo]
  · intro h
    injection h with h
    norm_num at h

/-- C19, as the code has it: for every slider value `v` in `0..100`, the turbulence
handler sets `params.surfaceTurbulence` to `v / 100`, a value in `0.0..1.0` (0 maps to
0.0 and 100 maps to 1.0), and changes nothing else. -/
theorem turbulence_slider (M : JSMath) (demo : Demo) (draws : List Draw) (v : ℚ)
    (h0 : 0 ≤ v) (h100 : v ≤ 100) :
    handle M demo draws (.turbulenceInput (fin v))
        = some ({ demo with params := { demo.params with surfaceTurbulence := fin (v / 100) } },
            draws) ∧
      0 ≤ v / 100 ∧ v / 100 ≤ 1 := by
  refine ⟨?_, by positivity, by linarith⟩
  simp [handle]

theorem turbulence_slider_witness :
    handle standInMath startDemo [] (.turbulenceInput (fin 30))
        = some ({ startDemo with
            params := { startDemo.params with surfaceTurbulence := fin (30 / 100) } }, []) ∧
      (0 : ℚ) ≤ 30 / 100 ∧ (30 : ℚ) / 100 ≤ 1 :=
  turbulence_slider standInMath startDemo [] 30 (by norm_num) (by norm_num)

end LiquidMetal

namespace Crystal

open LiquidMetal LiquidMetal.JSNum

/-! ## Lemmas on the crystal distortion -/

theorem setX_length (positions : List Vec3) (i : Nat) (value : JSNum) :
    (setX positions i value).length = positions.length := by
  unfold setX
  split <;> simp

theorem setZ_length (positions : List Vec3) (i : Nat) (value : JSNum) :
    (setZ positions i value).length = positions.length := by
  unfold setZ
  split <;> simp

theorem setX_getElem? (positions : List Vec3) (i j : Nat) (value : JSNum) :
    (setX positions i value)[j]?
      = if i = j then (positions[j]?).map (fun v => { v with x := value }) else positions[j]? := by
  unfold setX
  by_cases hij : i = j
  · subst hij
    rw [if_pos rfl]
    cases h : positions[i]? with
    | none => simp [h]
    | some v =>
      have hlt : i < positions.length := by
        by_contra hge
        rw [List.getElem?_eq_none (by omega)] at h
        cases h
      simp [List.getElem?_set, hlt]
  · rw [if_neg hij]
    split
    · rw [List.getElem?_set, if_neg hij]
    · rfl

theorem setZ_getElem? (positions : List Vec3) (i j : Nat) (value : JSNum) :
    (setZ positions i value)[j]?
      = if i = j then (positions[j]?).map (fun v => { v with z := value }) else positions[j]? := by
  unfold setZ
  by_cases hij : i = j
  · subst hij
    rw [if_pos rfl]
    cases h : positions[i]? with
    | none => simp [h]
    | some v =>
      have hlt : i < positions.length := by
        by_contra hge
        rw [List.getElem?_eq_none (by omega)] at h
        cases h
      simp [List.getElem?_set, hlt]
  · rw [if_neg hij]
    split
    · rw [List.getElem?_set, if_neg hij]
    · rfl

theorem distortVertices_length (M : JSMath) (params : CrystalParams) (height : JSNum)
    (n i : Nat) (positions : List Vec3) :
    (distortVertices M params height n i positions).length = positions.length := by
  induction n generalizing i positions with
  | zero => rfl
  | succ n ih => simp [distortVertices, ih, setX_length, setZ_length]

theorem distortVertices_getElem? (M : JSMath) (params : CrystalParams) (height : JSNum)
    (n i j : Nat) (positions : List Vec3) :
    (distortVertices M params height n i positions)[j]?
      = if i ≤ j ∧ j < i + n then (positions[j]?).map (distortedVertex M params height)
        else positions[j]? := by
  induction n generalizing i positions with
  | zero =>
    simp only [distortVertices]
    rw [if_neg (by omega)]
  | succ n ih =>
    simp only [distortVertices]
    rw [ih, setZ_getElem?, setX_getElem?]
    by_cases hij : i = j
    · subst hij
      rw [if_neg (by omega), if_pos rfl, if_pos rfl, if_pos (by omega)]
      cases h : positions[i]? with
      | none => rfl
      | some v =>
        simp [Geometry.getX, Geometry.getY, Geometry.getZ, h, distortedVertex]
    · rw [if_neg hij, if_neg hij]
      by_cases hc : i + 1 ≤ j ∧ j < i + 1 + n
      · rw [if_pos hc, if_pos (by omega)]
      · rw [if_neg hc, if_neg (by omega)]

/-- The position attribute that `createCrystalGeometry` returns: the cylinder's
vertices, each distorted from its own coordinates. -/
theorem createCrystalGeometry_position (M : JSMath) (L : CrystalLibrary)
    (params : CrystalParams) :
    (createCrystalGeometry M L params).position
      = (baseCylinder L params).position.map (distortedVertex M params params.height) := by
  apply List.ext_getElem?
  intro j
  simp only [createCrystalGeometry, baseCylinder, Geometry.count]
  rw [distortVertices_getElem?, List.getElem?_map]
  by_cases hj : j < (L.CylinderGeometry (params.radius * fin (2 / 10)) params.radius
      params.height params.facets params.segments false).position.length
  · rw [if_pos (by omega)]
  · rw [if_neg (by omega), List.getElem?_eq_none (by omega)]
    rfl

theorem distortedVertex_eq_formula (M : JSMath) (params : CrystalParams) (height : JSNum)
    (v : Vec3) :
    distortedVertex M params height v = distortionFormula M params.distortion height v := by
  obtain ⟨x, y, z⟩ := v
  cases x <;> cases y <;> cases z <;>
    simp [distortedVertex, distortionFormula, JSMath.sinN, JSMath.cosN, mul_comm]

/-! ## Claims on the crystal geometry -/

/-- C11: crystal distortion formula.  For every vertex `(x, y, z)` of the base geometry
(the cylinder whose position attribute the loop reads), `createCrystalGeometry` writes
`x' = x + sin(2z + x) * s * h` and `z' = z + cos(3x + y) * s * h` with
`s = crystalParams.distortion` and `h = y / height + 0.5`, the `x` of `z'` being the
undistorted one, and leaves `y` unchanged; with `s = 0`, a height that is a non-zero
number and finite coordinates, the vertex is unchanged. -/
theorem createCrystalGeometry_distortion (M : JSMath) (L : CrystalLibrary)
    (params : CrystalParams) (i : Nat) (v : Vec3)
    (hv : (baseCylinder L params).position[i]? = some v) :
    (createCrystalGeometry M L params).position[i]?
        = some (distortionFormula M params.distortion params.height v) ∧
      (distortionFormula M params.distortion params.height v).y = v.y ∧
      (params.distortion = fin 0 →
        ∀ a b c h : ℚ, v = ⟨fin a, fin b, fin c⟩ → params.height = fin h → h ≠ 0 →
          (createCrystalGeometry M L params).position[i]? = some v) := by
  have hpos : (createCrystalGeometry M L params).position[i]?
      = some (distortionFormula M params.distortion params.height v) := by
    rw [createCrystalGeometry_position, List.getElem?_map, hv, Option.map_some',
      distortedVertex_eq_formula]
  refine ⟨hpos, rfl, ?_⟩
  intro hs a b c h hvx hh hne
  rw [hpos, hs, hh, hvx]
  simp [distortionFormula, JSMath.sinN, JSMath.cosN, hne]

theorem createCrystalGeometry_distortion_witness :
    (createCrystalGeometry standInMath tinyCrystalLibrary crystalParams).position[0]?
        = some (distortionFormula standInMath (fin (15 / 100)) (fin 4) ⟨fin 1, fin 2, fin 0⟩) ∧
      (createCrystalGeometry standInMath tinyCrystalLibrary
          { crystalParams with distortion := fin 0 }).position[1]?
        = some ⟨fin 0, fin (-2), fin 1⟩ :=
  ⟨(createCrystalGeometry_distortion standInMath tinyCrystalLibrary crystalParams 0
      ⟨fin 1, fin 2, fin 0⟩ rfl).1,
    (createCrystalGeometry_distortion standInMath tinyCrystalLibrary
      { crystalParams with distortion := fin 0 } 1 ⟨fin 0, fin (-2), fin 1⟩ rfl).2.2
      rfl 0 (-2) 1 4 rfl rfl (by norm_num)⟩

/-- The merge of `createCrystalGeometry` leaves the position attribute alone: the
returned geometry has as many position vertices as the cylinder, whatever the cone
is. -/
theorem createCrystalGeometry_count (M : JSMath) (L : CrystalLibrary) (params : CrystalParams) :
    (createCrystalGeometry M L params).position.length = (baseCylinder L params).count := by
  rw [createCrystalGeometry_position, List.length_map]
  rfl

/-- C12: `createCrystalGeometry` with the parameters of the module, over a library with
the vertex counts of the rendering library.  The returned geometry has the 331 position
vertices of the cylinder and nothing of the cone cap, which has 35; the legacy
`vertices` array that the merge assigns is empty. -/
theorem createCrystalGeometry_no_cone (M : JSMath) :
    (createCrystalGeometry M standInCrystalLibrary crystalParams).position.length = 331 ∧
      (baseCylinder standInCrystalLibrary crystalParams).count = 331 ∧
      (translatedCone standInCrystalLibrary crystalParams).count = 35 ∧
      (createCrystalGeometry M standInCrystalLibrary crystalParams).vertices = [] := by
  have h8 : segments (fin 8) = 8 := segments_fin_natCast 8
  have h32 : segments (fin 32) = 32 := segments_fin_natCast 32
  have h1 : segments (fin 1) = 1 := by simpa using segments_fin_natCast 1
  have hcyl : (baseCylinder standInCrystalLibrary crystalParams).count = 331 := by
    simp only [baseCylinder, standInCrystalLibrary, crystalParams, Geometry.count,
      List.length_replicate, h8, h32]
    norm_num
  refine ⟨?_, hcyl, ?_, rfl⟩
  · rw [createCrystalGeometry_count, hcyl]
  · simp only [translatedCone, translate, standInCrystalLibrary, crystalParams, Geometry.count,
      List.length_map, List.length_replicate, h8, h1]
    norm_num

end Crystal

namespace WaveVisualizer

open LiquidMetal LiquidMetal.JSNum

/-! ## Lemmas on the vertex shader -/

theorem smoothstep_unit (d : ℚ) : smoothstep 0 1 d = min (max d 0) 1 * min (max d 0) 1
    * (3 - 2 * min (max d 0) 1) := by
  simp [smoothstep, clamp]

theorem smoothstep_nonneg (d : ℚ) : 0 ≤ smoothstep 0 1 d := by
  rw [smoothstep_unit]
  have h0 : 0 ≤ min (max d 0) 1 := le_min (le_max_right _ _) (by norm_num)
  have h1 : min (max d 0) 1 ≤ 1 := min_le_right _ _
  have h3 : 0 ≤ 3 - 2 * min (max d 0) 1 := by linarith
  positivity

theorem smoothstep_zero : smoothstep 0 1 0 = 0 := by
  rw [smoothstep_unit]
  simp

theorem smoothstep_one_le (d : ℚ) (h : 1 ≤ d) : smoothstep 0 1 d = 1 := by
  rw [smoothstep_unit]
  have h1 : max d 0 = d := max_eq_left (by linarith)
  rw [h1, min_eq_right h]
  norm_num

/-! ## Claims on the vertex shader -/

/-- C14: pointer falloff endpoints.  With `mouseInfluence = 1`, the pointer term
`mouseEffect = (1 - smoothstep(0, 1, d)) * mouseInfluence * 2` is 2 at distance
`d = 0`, is at most 2 at every distance, and is exactly 0 for every distance
`d >= 1`. -/
theorem mouseEffect_endpoints :
    mouseEffect 1 0 = 2 ∧ (∀ d : ℚ, mouseEffect 1 d ≤ 2) ∧
      (∀ d : ℚ, 1 ≤ d → mouseEffect 1 d = 0) := by
  have hgate : (1 : ℚ) > 1 / 100 := by norm_num
  refine ⟨?_, ?_, ?_⟩
  · simp only [mouseEffect, if_pos hgate, smoothstep_zero]
    norm_num
  · intro d
    simp only [mouseEffect, if_pos hgate]
    have := smoothstep_nonneg d
    linarith
  · intro d hd
    simp only [mouseEffect, if_pos hgate, smoothstep_one_le d hd]
    norm_num

theorem mouseEffect_endpoints_witness : mouseEffect 1 (3 / 2) = 0 :=
  mouseEffect_endpoints.2.2 (3 / 2) (by norm_num)

/-- C15: gating at zero.  When `mouseInfluence = 0` and `audioInfluence = 0`, the
pointer term and the audio term of the vertex shader are each exactly 0 and the
displacement added to `z` is `snoise(noisePos) * amplitude`, for every pointer
position, every content of the audio data texture, every noise function and every
texture lookup. -/
theorem displacement_gated (M : JSMath) (F : ShaderFunctions) (u : Uniforms)
    (position : ℚ × ℚ × ℚ) (uv : Vec2) (hmouse : u.mouseInfluence = 0)
    (haudio : u.audioInfluence = 0) :
    (∀ d : ℚ, mouseEffect u.mouseInfluence d = 0) ∧
      computeAudioInfluence M F u uv = 0 ∧
      displacement M F u position uv = noiseTerm F u position ∧
      (vertexMain M F u position uv).2.2 = position.2.2 + noiseTerm F u position := by
  have hm : ∀ d : ℚ, mouseEffect u.mouseInfluence d = 0 := by
    intro d
    rw [hmouse]
    simp only [mouseEffect]
    rw [if_neg (by norm_num)]
  have ha : computeAudioInfluence M F u uv = 0 := by
    simp only [computeAudioInfluence, haudio]
    rw [if_pos (by norm_num)]
  have hd : displacement M F u position uv = noiseTerm F u position := by
    simp only [displacement, hm, ha, noiseTerm, add_zero]
  exact ⟨hm, ha, hd, by simp only [vertexMain, hd]⟩

theorem displacement_gated_witness :
    displacement standInMath standInShader gatedUniforms (3, 4, 5) (1, 1)
        = noiseTerm standInShader gatedUniforms (3, 4, 5) ∧
      noiseTerm standInShader gatedUniforms (3, 4, 5) = 1 / 4 :=
  ⟨(displacement_gated standInMath standInShader gatedUniforms (3, 4, 5) (1, 1) rfl rfl).2.2.1,
    by norm_num [noiseTerm, standInShader, gatedUniforms]⟩

/-! ## Lemmas on the module state of the wave demo -/

theorem run_cons (demo : WaveDemo) (e : WaveEvent) (events : List WaveEvent) :
    run demo (e :: events) = run (handle demo e) events := rfl

theorem run_append (demo : WaveDemo) (events : List WaveEvent) (e : WaveEvent) :
    run demo (events ++ [e]) = handle (run demo events) e := by
  simp [run, List.foldl_append]

/-- The state that `init` leaves when the audio interface is missing: the waveform of
`createWaveform` over one array of 128 zero bytes, and no audio variable set. -/
theorem init_unavailable :
    init false =
      { loadedWaveDemo with
        buffers := [List.replicate 128 0],
        waveform := some
          { time := fin 0, amplitude := fin (1 / 2), mousePosition := (fin 0, fin 0),
            mouseInfluence := fin 0, audioData := ⟨0, 128, true⟩, audioInfluence := fin 0 } } := by
  rfl

/-- The state that `init` leaves when the audio interface is there: the texture was
created over the first array and keeps it, since its width is already the bucket
count; the variable `audioData` names the second array. -/
theorem init_available :
    init true =
      { loadedWaveDemo with
        buffers := [List.replicate 128 0, List.replicate 128 0],
        audioContext := true,
        analyser := true,
        audioData := some 1,
        waveform := some
          { time := fin 0, amplitude := fin (1 / 2), mousePosition := (fin 0, fin 0),
            mouseInfluence := fin 0, audioData := ⟨0, 128, true⟩, audioInfluence := fin 0 } } := by
  rfl

theorem updateAudio_no_analyser (spectrum : Nat → Nat) (demo : WaveDemo)
    (h : demo.analyser = false) : updateAudio spectrum demo = demo := by
  simp [updateAudio, h]

theorem handle_followsCheckbox (demo : WaveDemo) (e : WaveEvent) (h : FollowsCheckbox demo) :
    FollowsCheckbox (handle demo e) := by
  obtain ⟨hctx, han, hinf⟩ := h
  cases hw : demo.waveform with
  | none => rw [hw] at hinf; cases hinf
  | some uniforms =>
    rw [hw] at hinf
    simp only [Option.map_some', Option.some.injEq] at hinf
    cases e with
    | frame elapsedTime spectrum =>
      simp only [handle, animate, hw]
      rw [updateAudio_no_analyser]
      · exact ⟨hctx, han, by simp [hinf]⟩
      · exact han
    | mouseMove mouse hit =>
      simp only [handle, onMouseMove]
      split
      · exact ⟨hctx, han, by simp [hw, hinf]⟩
      · cases hit with
        | none => exact ⟨hctx, han, by simp [hw, hinf]⟩
        | some point => simp only [hw]; exact ⟨hctx, han, by simp [hinf]⟩
    | enableAudioChange checked =>
      simp only [handle, enableAudioHandler, hw]
      exact ⟨hctx, han, by simp⟩
    | enableMouseReactivityChange checked =>
      simp only [handle, enableMouseReactivityHandler]
      exact ⟨hctx, han, by simp [hw, hinf]⟩
    | waveIntensityInput value =>
      simp only [handle, waveIntensityHandler, hw]
      exact ⟨hctx, han, by simp [hinf]⟩
    | waveSpeedInput value =>
      simp only [handle, waveSpeedHandler]
      exact ⟨hctx, han, by simp [hw, hinf]⟩
    | audioFileChosen decoded =>
      have hsame : setupAudioFile decoded demo = demo := by
        simp [setupAudioFile, hctx]
      simp only [handle, hsame]
      exact ⟨hctx, han, by simp [hw, hinf]⟩

theorem run_followsCheckbox (events : List WaveEvent) (demo : WaveDemo)
    (h : FollowsCheckbox demo) : FollowsCheckbox (run demo events) := by
  induction events generalizing demo with
  | nil => exact h
  | cons e events ih =>
    rw [run_cons]
    exact ih _ (handle_followsCheckbox demo e h)

/-! ## Claims on the module state of the wave demo -/

/-- C16: the pointer gate is not kept.  After `init` the uniform `mouseInfluence` is
0.0 although `params.enableMouseReactivity` is true; a pointer hit sets it to 1.0; and
unchecking the mouse-reactivity checkbox after that leaves it at 1.0 while
`params.enableMouseReactivity` is false. -/
theorem mouseInfluence_not_gated (available : Bool) (mouse point : JSNum × JSNum) :
    ((init available).params.enableMouseReactivity = true ∧
      (init available).waveform.map (fun uniforms => uniforms.mouseInfluence) = some (fin 0)) ∧
    ((run (init available)
        [.mouseMove mouse (some point), .enableMouseReactivityChange false]).params.enableMouseReactivity
        = false ∧
      (run (init available)
        [.mouseMove mouse (some point), .enableMouseReactivityChange false]).waveform.map
          (fun uniforms => uniforms.mouseInfluence) = some (fin 1)) := by
  cases available <;> exact ⟨⟨rfl, rfl⟩, rfl, rfl⟩

/-- C17: the texture does not get the spectrum.  With the audio interface there, after
`init`, the enable-audio checkbox checked and a frame in which the analyser reports
`spectrum`, the array named by `audioData` holds the 128 magnitudes just written, but
the texture bound to the uniform `audioData` is still over the array of
`createWaveform`, which holds 128 zero bytes: `setupAudio` replaces the texture only
when the widths differ, and both are 128. -/
theorem audioData_texture_not_filled (elapsedTime : JSNum) (spectrum : Nat → Nat) :
    audioDataBytes (run (init true) [.enableAudioChange true, .frame elapsedTime spectrum])
        = some ((List.range 128).map spectrum) ∧
      textureBytes (run (init true) [.enableAudioChange true, .frame elapsedTime spectrum])
        = some (List.replicate 128 0) ∧
      (run (init true) [.enableAudioChange true, .frame elapsedTime spectrum]).waveform.map
          (fun uniforms => uniforms.audioData.data) = some 0 ∧
      (run (init true) [.enableAudioChange true, .frame elapsedTime spectrum]).audioData
        = some 1 := by
  rw [init_available]
  refine ⟨?_, ?_, ?_, ?_⟩ <;>
    simp [run, handle, enableAudioHandler, animate, updateAudio, audioDataBytes, textureBytes,
      loadedWaveDemo, initialWaveParams]

/-- C18 fails as stated: without audio interface, checking the enable-audio checkbox
sets the uniform `audioInfluence` to 1.0. -/
theorem audioInfluence_set_without_audio :
    (run (init false) [.enableAudioChange true]).waveform.map
        (fun uniforms => uniforms.audioInfluence) = some (fin 1) ∧
      (run (init false) [.enableAudioChange true]).analyser = false := by
  exact ⟨rfl, rfl⟩

/-- C18, as the code has it: without audio interface (`setupAudio` failed, so there is
no analyser and no file can be decoded), after every sequence of events the uniform
`audioInfluence` follows the enable-audio checkbox: it is 1.0 when
`params.enableAudio` is true and 0.0 when it is false, and there is still no
analyser. -/
theorem audioInfluence_follows_checkbox (events : List WaveEvent) :
    (run (init false) events).waveform.map (fun uniforms => uniforms.audioInfluence)
        = some (if (run (init false) events).params.enableAudio then fin 1 else fin 0) ∧
      (run (init false) events).analyser = false := by
  have h := run_followsCheckbox events (init false) ⟨rfl, rfl, rfl⟩
  exact ⟨h.2.2, h.2.1⟩

end WaveVisualizer

namespace NeonBlob

open LiquidMetal LiquidMetal.JSNum

/-! ## Lemmas on the particle loop -/

theorem forEachParticle_getElem? (M : JSMath) (time : JSNum) (n i j : Nat)
    (particles : List Particle) :
    (forEachParticle M time n i particles)[j]?
      = if i ≤ j ∧ j < i + n then (particles[j]?).map (updateParticle M time)
        else particles[j]? := by
  induction n generalizing i particles with
  | zero =>
    simp only [forEachParticle]
    rw [if_neg (by omega)]
  | succ n ih =>
    simp only [forEachParticle]
    cases hp : particles[i]? with
    | none =>
      simp only []
      rw [ih]
      by_cases hij : i = j
      · subst hij
        rw [if_neg (by omega), if_pos (by omega), hp]
        rfl
      · by_cases hc : i + 1 ≤ j ∧ j < i + 1 + n
        · rw [if_pos hc, if_pos (by omega)]
        · rw [if_neg hc, if_neg (by omega)]
    | some particle =>
      simp only []
      rw [ih, List.getElem?_set]
      have hlt : i < particles.length := by
        by_contra hge
        rw [List.getElem?_eq_none (by omega)] at hp
        cases hp
      by_cases hij : i = j
      · subst hij
        rw [if_neg (by omega), if_pos rfl, if_pos hlt, if_pos (by omega), hp]
        rfl
      · rw [if_neg hij]
        by_cases hc : i + 1 ≤ j ∧ j < i + 1 + n
        · rw [if_pos hc, if_pos (by omega)]
        · rw [if_neg hc, if_neg (by omega)]

/-- The particle loop over all particles updates each particle from itself. -/
theorem animate_particles (M : JSMath) (time : JSNum) (demo : BlobDemo) :
    (animate M time demo).particles = demo.particles.map (updateParticle M time) := by
  apply List.ext_getElem?
  intro j
  simp only [animate]
  rw [forEachParticle_getElem?, List.getElem?_map]
  by_cases hj : j < demo.particles.length
  · rw [if_pos (by omega)]
  · rw [if_neg (by omega), List.getElem?_eq_none (by omega)]
    rfl

theorem updateParticle_position (M : JSMath) (time : JSNum) (particle : Particle) :
    (updateParticle M time particle).position = orbitFormula M time particle.userData := by
  simp only [updateParticle, orbitFormula, addScaledVector]
  rw [jsnum_mul_comm time particle.userData.speed, jsnum_mul_comm time (fin 5),
    jsnum_mul_comm (M.sinN _) (fin (5 / 100))]

/-! ## Claims on the particle orbits -/

/-- C20: particle orbit closed form.  For every particle and every time `t`, the
position that the `animate` step sets is the rotation about `orbitAxis` by
`speed * t + offset` applied to `(radius, 0, 0)`, plus
`orbitAxis * 0.05 * sin(5t + offset)`, and the step leaves `userData` unchanged; so the
position depends only on `t` and the particle's own `userData`: a particle with the
same `userData` in any other state, at any index, among any other particles and with
any previous position, is put at the same position. -/
theorem animate_orbit (M : JSMath) (t : JSNum) (demo : BlobDemo) (i : Nat) (p : Particle)
    (hp : demo.particles[i]? = some p) :
    (∃ q, (animate M t demo).particles[i]? = some q ∧
        q.position = orbitFormula M t p.userData ∧ q.userData = p.userData) ∧
      (∀ (other : BlobDemo) (j : Nat) (p' : Particle),
        other.particles[j]? = some p' → p'.userData = p.userData →
          ((animate M t other).particles[j]?).map (fun q => q.position)
            = ((animate M t demo).particles[i]?).map (fun q => q.position)) := by
  have hi : (animate M t demo).particles[i]? = some (updateParticle M t p) := by
    rw [animate_particles, List.getElem?_map, hp]
    rfl
  refine ⟨⟨_, hi, updateParticle_position M t p, rfl⟩, ?_⟩
  intro other j p' hp' hu
  rw [hi, animate_particles, List.getElem?_map, hp']
  simp only [Option.map_some', updateParticle_position, hu]

theorem animate_orbit_witness :
    (∃ q, (animate standInMath (fin 3) ⟨none, sampleParticles⟩).particles[0]? = some q ∧
        q.position = orbitFormula standInMath (fin 3) ⟨fin 2, fin (1 / 2), fin 0, ⟨fin 0, fin 1, fin 0⟩⟩ ∧
        q.userData = ⟨fin 2, fin (1 / 2), fin 0, ⟨fin 0, fin 1, fin 0⟩⟩) ∧
      ((animate standInMath (fin 3) ⟨none, movedParticles⟩).particles[0]?).map (fun q => q.position)
        = ((animate standInMath (fin 3) ⟨none, sampleParticles⟩).particles[0]?).map
            (fun q => q.position) :=
  ⟨(animate_orbit standInMath (fin 3) ⟨none, sampleParticles⟩ 0 _ rfl).1,
    (animate_orbit standInMath (fin 3) ⟨none, sampleParticles⟩ 0 _ rfl).2
      ⟨none, movedParticles⟩ 0 _ rfl rfl⟩

end NeonBlob

namespace LiquidMetal

open JSNum

/-! ## Claims on the idle state -/

/-- C22 fails as stated: with auto-morph off and the turbulence of the module, the
call with frame delta 0 returns and writes `(1, 0, 0)` for vertex 0, and the call with
frame delta 2.5 returns and writes another position for it (evaluated with the stand-in
`Math`). -/
theorem idle_positions_differ :
    (updateLiquidMetal standInMath agitatedDemo (fin 0) []).map
        (fun r => (r.1, r.2.1.liquidMetal.map (fun g => g.position[0]?)))
      = some (.returned, some (some ⟨fin 1, fin 0, fin 0⟩)) ∧
    (updateLiquidMetal standInMath agitatedDemo (fin (5 / 2)) []).map
        (fun r => (r.1, r.2.1.liquidMetal.map (fun g => g.position[0]?)))
      = some (.returned, some (some ⟨fin (2437129379 / 2193190625), fin 0, fin 0⟩)) := by
  have hw := fun t => updateLiquidMetal_write standInMath agitatedDemo sampleMesh t [] []
    agitatedDemo.params
    ⟨[⟨fin 1, fin 0, fin 0⟩, ⟨fin 0, fin 1, fin 0⟩]⟩
    ⟨[⟨fin 1, fin 0, fin 0⟩, ⟨fin 0, fin 0, fin 1⟩]⟩ rfl
    (advanceMorphClock_idle _ _ t [] rfl) rfl rfl
  have hcount : sampleMesh.count = 2 := rfl
  constructor
  · rw [hw]
    simp only [Option.map_some', hcount, List.range_succ_eq_map, List.range_zero, List.map_cons,
      List.getElem?_cons_zero]
    simp [morphVertex, lerp, Geometry.getX, Geometry.getY, Geometry.getZ, agitatedDemo,
      initialParams, JSMath.sinN, JSMath.cosN, JSMath.sqrtN, standInMath]
    norm_num
  · rw [hw]
    simp only [Option.map_some', hcount, List.range_succ_eq_map, List.range_zero, List.map_cons,
      List.getElem?_cons_zero]
    simp [morphVertex, lerp, Geometry.getX, Geometry.getY, Geometry.getZ, agitatedDemo,
      initialParams, JSMath.sinN, JSMath.cosN, JSMath.sqrtN, standInMath]
    norm_num

/-- C22, as the code has it: with `params.autoMorph` false and no other event in
between, every call of `updateLiquidMetal` ends and leaves the parameters
(`currentMorphTime`, `currentMorphTarget`, `nextMorphTarget` among them) unchanged, and
the state after any sequence of calls is the state that the last call alone leaves: the
written vertex positions depend on the frame delta of that call and on nothing that the
earlier calls did.  The call returns, except that it throws when a target id reads a
value inherited from `Object.prototype`; then it writes nothing and leaves the whole
state as it was. -/
theorem idle_frames (M : JSMath) (demo : Demo) (draws : List Draw) (deltas : List JSNum)
    (delta : JSNum) (hidle : demo.params.autoMorph = false) :
    run M demo draws ((deltas ++ [delta]).map Event.frame)
        = (updateLiquidMetal M demo delta draws).map Prod.snd ∧
      ∃ c demo', updateLiquidMetal M demo delta draws = some (c, demo', draws) ∧
        demo'.params = demo.params ∧
        (c = .threw →
          demo' = demo ∧
            (demo.morphTargets.read demo.params.currentMorphTarget = .inherited ∨
              demo.morphTargets.read demo.params.nextMorphTarget = .inherited)) := by
  constructor
  · induction deltas generalizing demo with
    | nil =>
      obtain ⟨c, demo', h, _, _, _⟩ := updateLiquidMetal_idle_step M demo delta draws hidle
      simp only [List.nil_append, List.map_cons, List.map_nil, run, handle, h, Option.map_some']
    | cons d ds ih =>
      obtain ⟨c1, demo1, h1, hp1, hagain, _⟩ :=
        updateLiquidMetal_idle_step M demo d draws hidle
      simp only [List.cons_append, List.map_cons, run, handle, h1, Option.map_some']
      exact (ih demo1 (by rw [hp1]; exact hidle)).trans (by rw [hagain delta])
  · obtain ⟨c, demo', h, hp, _, hthrew⟩ := updateLiquidMetal_idle_step M demo delta draws hidle
    exact ⟨c, demo', h, hp, hthrew⟩

theorem idle_frames_witness :
    run standInMath agitatedDemo [] ([fin 0, fin 1, fin (5 / 2)].map Event.frame)
        = (updateLiquidMetal standInMath agitatedDemo (fin (5 / 2)) []).map Prod.snd ∧
      ∃ c demo', updateLiquidMetal standInMath agitatedDemo (fin (5 / 2)) []
          = some (c, demo', []) ∧
        demo'.params = agitatedDemo.params :=
  let ⟨h1, c, demo', h2, h3, _⟩ :=
    idle_frames standInMath agitatedDemo [] [fin 0, fin 1] (fin (5 / 2)) rfl
  ⟨h1, c, demo', h2, h3⟩

/-! ## Claims on the reads of the blend -/

/-- C23: after `createMorphTargets` and `createLiquidMetal` at the resolution of the
module (64), over a library with the vertex counts of the rendering library, the live
mesh has 4225 vertices and the torus target 2145: index 2145 is below the vertex count
of the mesh and past the end of the torus buffer, so the read of the blend there is out
of range and yields no number. -/
theorem blend_read_out_of_range (M : JSMath) (S : SurfaceSampler) (drawn : Nat) :
    (createMorphTargets M standInLibrary S initialDemo drawn [drawHalf]).map
        (fun r =>
          ((createLiquidMetal r.1).liquidMetal.map Geometry.count,
            ((createLiquidMetal r.1).morphTargets.get (some "torus")).map
              (fun g => (g.count, g.position[2145]?, g.getX 2145))))
      = some (some 4225, some (2145, none, nan)) := by
  have h64 : segments (fin 64) = 64 := segments_fin_natCast 64
  have h32 : segments (fin 64 / fin 2) = 32 := segments_div 64 2 (by decide) (by decide)
  have hsphere : standInLibrary.SphereGeometry (fin 1) (fin 64) (fin 64)
      = ⟨List.replicate 4225 ⟨1, 0, 0⟩⟩ := by
    simp only [standInLibrary, h64]
    rfl
  have htorus : standInLibrary.TorusGeometry (fin (7 / 10)) (fin (3 / 10)) (fin 64 / fin 2)
      (fin 64) = ⟨List.replicate 2145 ⟨1, 0, 0⟩⟩ := by
    simp only [standInLibrary, h64, h32]
  rw [createMorphTargets_eq]
  simp only [initialDemo]
  rw [getNextShape_literal_half M standInLibrary initialParams rfl]
  simp only [Option.map_some', createLiquidMetal, morphTargetLiteral, MorphTargets.get]
  have hres : initialParams.resolution = fin 64 := rfl
  rw [hres, hsphere, htorus]
  have hlookSphere : ∀ gs gt gc gn ga : Geometry,
      List.lookup "sphere" [("sphere", gs), ("torus", gt), ("cube", gc), ("cone", gn),
        ("abstract", ga)] = some gs := fun _ _ _ _ _ => rfl
  have hlookTorus : ∀ gs gt gc gn ga : Geometry,
      List.lookup "torus" [("sphere", gs), ("torus", gt), ("cube", gc), ("cone", gn),
        ("abstract", ga)] = some gt := fun _ _ _ _ _ => rfl
  have hget : (List.replicate 2145 (⟨1, 0, 0⟩ : Vec3))[2145]? = none := by
    rw [List.getElem?_eq_none]
    rw [List.length_replicate]
  simp only [hlookSphere, hlookTorus, Option.map_some', Geometry.count, Geometry.getX,
    List.length_replicate, hget]

/-! ## Claims on the shape selector -/

/-- C26: shape-select handler.  Selecting a shape `s` other than `'random'` sets
`params.currentShape = s`, `currentMorphTime = 0`, `currentMorphTarget` to the previous
`nextMorphTarget` and `nextMorphTarget = s`; selecting `'random'` changes only
`params.currentShape`.  The event changes nothing else of the module state and uses no
random draw. -/
theorem shapeSelect_spec (M : JSMath) (demo : Demo) (draws : List Draw) (s : String) :
    handle M demo draws (.shapeSelectChange s)
        = some ({ demo with params := shapeSelectHandler demo.params s }, draws) ∧
      (s ≠ "random" →
        shapeSelectHandler demo.params s
          = { demo.params with currentShape := s,
                               currentMorphTime := fin 0,
                               currentMorphTarget := demo.params.nextMorphTarget,
                               nextMorphTarget := some s }) ∧
      (s = "random" →
        shapeSelectHandler demo.params s = { demo.params with currentShape := "random" }) := by
  refine ⟨rfl, ?_, ?_⟩
  · intro hs
    simp [shapeSelectHandler, hs]
  · intro hs
    simp [shapeSelectHandler, hs]

theorem shapeSelect_spec_witness :
    shapeSelectHandler rolloverDemo.params "cone"
        = { rolloverDemo.params with currentShape := "cone",
                                     currentMorphTime := fin 0,
                                     currentMorphTarget := some "torus",
                                     nextMorphTarget := some "cone" } ∧
      shapeSelectHandler rolloverDemo.params "random"
        = { rolloverDemo.params with currentShape := "random" } :=
  ⟨(shapeSelect_spec standInMath rolloverDemo [] "cone").2.1 (by decide),
    (shapeSelect_spec standInMath rolloverDemo [] "random").2.2 rfl⟩

/-! ## Claims on the missing-target guard -/

/-- C27 fails as stated: after the shape selector has supplied the id `constructor`,
`params.nextMorphTarget` does not name a geometry in `morphTargets` (it is none of its
keys), yet the read `morphTargets['constructor']` gives the value inherited from
`Object.prototype`, the guard is passed and `updateLiquidMetal` throws instead of
returning. -/
theorem guard_passed_by_inherited_name :
    handle standInMath stillDemo [] (.shapeSelectChange "constructor")
        = some (constructorDemo, []) ∧
      constructorDemo.params.nextMorphTarget = some "constructor" ∧
      "constructor" ∉ constructorDemo.morphTargets.map Prod.fst ∧
      constructorDemo.morphTargets.get (some "constructor") = none ∧
      constructorDemo.morphTargets.read (some "constructor") = .inherited ∧
      updateLiquidMetal standInMath constructorDemo (fin 1) []
        = some (.threw, constructorDemo, []) := by
  refine ⟨rfl, rfl, by decide, rfl, rfl, ?_⟩
  exact updateLiquidMetal_throws standInMath constructorDemo sampleMesh (fin 1) [] []
    constructorDemo.params rfl (advanceMorphClock_idle _ _ (fin 1) [] rfl) (by decide)
    (by decide) (Or.inr rfl)

/-- C27, as the code has it: missing-target guard.  Whenever the clock update of the
call returns (it is the only part that draws random numbers) and the read
`morphTargets[params.currentMorphTarget]` or `morphTargets[params.nextMorphTarget]`,
as the guard reads them after that update, is `undefined`, `updateLiquidMetal` returns
without writing any vertex position: the mesh's position buffer and the morph targets
are the ones before the call, and with auto-morph off the call returns the state
unchanged.  A read is `undefined` exactly when the id is none of the keys of
`morphTargets` and none of the names inherited from `Object.prototype`.  When both
reads pass the guard and one of them is such an inherited value, the call throws; it
has written no vertex position then either. -/
theorem updateLiquidMetal_guard (M : JSMath) (demo : Demo) (time : JSNum)
    (draws rest : List Draw) (params : Params)
    (hclock : advanceMorphClock demo.morphTargets demo.params time draws = some (params, rest)) :
    (demo.morphTargets.read params.currentMorphTarget = .undefined ∨
        demo.morphTargets.read params.nextMorphTarget = .undefined →
      (∃ demo' rest', updateLiquidMetal M demo time draws = some (.returned, demo', rest') ∧
          demo'.liquidMetal = demo.liquidMetal ∧ demo'.morphTargets = demo.morphTargets) ∧
        (demo.params.autoMorph = false →
          updateLiquidMetal M demo time draws = some (.returned, demo, draws))) ∧
      (∀ key, demo.morphTargets.read key = .undefined ↔
        demo.morphTargets.get key = none ∧
          ∀ name, key = some name → name ∉ objectPrototypeNames) ∧
      (∀ geometry, demo.liquidMetal = some geometry →
        demo.morphTargets.read params.currentMorphTarget ≠ .undefined →
        demo.morphTargets.read params.nextMorphTarget ≠ .undefined →
        demo.morphTargets.read params.currentMorphTarget = .inherited ∨
          demo.morphTargets.read params.nextMorphTarget = .inherited →
        updateLiquidMetal M demo time draws
          = some (.threw, { demo with params := params }, rest)) := by
  refine ⟨fun hmiss => ⟨?_, ?_⟩, fun key => read_undefined_iff _ key, ?_⟩
  · cases hmesh : demo.liquidMetal with
    | none =>
      exact ⟨demo, draws, by simp only [updateLiquidMetal, hmesh], hmesh, rfl⟩
    | some geometry =>
      exact ⟨_, rest,
        updateLiquidMetal_missing M demo geometry time draws rest params hmesh hclock hmiss,
        hmesh, rfl⟩
  · intro hidle
    have hc := advanceMorphClock_idle demo.morphTargets demo.params time draws hidle
    rw [hc] at hclock
    simp only [Option.some.injEq, Prod.mk.injEq] at hclock
    obtain ⟨hp, _⟩ := hclock
    subst hp
    cases hmesh : demo.liquidMetal with
    | none => simp only [updateLiquidMetal, hmesh]
    | some geometry =>
      exact updateLiquidMetal_missing M demo geometry time draws draws demo.params hmesh hc hmiss
  · intro geometry hmesh hcur hnext hinh
    exact updateLiquidMetal_throws M demo geometry time draws rest params hmesh hclock hcur
      hnext hinh

theorem updateLiquidMetal_guard_witness :
    updateLiquidMetal standInMath pyramidDemo (fin 1) [] = some (.returned, pyramidDemo, []) :=
  ((updateLiquidMetal_guard standInMath pyramidDemo (fin 1) [] [] pyramidDemo.params
    (advanceMorphClock_idle _ _ (fin 1) [] rfl)).1 (Or.inr rfl)).2 rfl

/-! ## Claims on the turbulence -/

theorem abs_mul3_le_one (u v w : ℚ) (hu : |u| ≤ 1) (hv : |v| ≤ 1) (hw : |w| ≤ 1) :
    |u * v * w| ≤ 1 := by
  rw [abs_mul, abs_mul]
  have h1 : |u| * |v| ≤ 1 := by
    calc |u| * |v| ≤ 1 * 1 := mul_le_mul hu hv (abs_nonneg v) (by norm_num)
      _ = 1 := by norm_num
  calc |u| * |v| * |w| ≤ 1 * 1 := mul_le_mul h1 hw (abs_nonneg w) (by norm_num)
    _ = 1 := by norm_num

/-- C30: turbulence displacement bound.  For every vertex whose interpolated position
`p` is not the origin and every turbulence amplitude `a >= 0`, `updateLiquidMetal` writes
`p * (1 + d / |p|)`, where `|p|` is the length that the loop computes and `|d| <= 1.5 * a`
(first octave at most `a`, second at most `0.5 * a`); when that length squares to
`p · p`, the written point is at distance at most `1.5 * a` from `p` (stated on the
squares). -/
theorem morphVertex_turbulence_bound (M : JSMath) (params : Params)
    (τ ns nv a px py pz : ℚ) (morphFactor : JSNum) (currentShape nextShape : Geometry)
    (i : Nat) (hturb : params.surfaceTurbulence = fin a) (ha : 0 ≤ a)
    (hscale : params.noiseScale = fin ns) (hspeed : params.noiseSpeed = fin nv)
    (hx : lerp (currentShape.getX i) (nextShape.getX i) morphFactor = fin px)
    (hy : lerp (currentShape.getY i) (nextShape.getY i) morphFactor = fin py)
    (hz : lerp (currentShape.getZ i) (nextShape.getZ i) morphFactor = fin pz)
    (hne : ¬ (px = 0 ∧ py = 0 ∧ pz = 0)) :
    ∃ d : ℚ, |d| ≤ 3 / 2 * a ∧
      morphVertex M params (fin τ) morphFactor currentShape nextShape i
        = ⟨fin (px * (1 + d / M.sqrt (px * px + py * py + pz * pz))),
            fin (py * (1 + d / M.sqrt (px * px + py * py + pz * pz))),
            fin (pz * (1 + d / M.sqrt (px * px + py * py + pz * pz)))⟩ ∧
      (M.sqrt (px * px + py * py + pz * pz) * M.sqrt (px * px + py * py + pz * pz)
          = px * px + py * py + pz * pz →
        (px * (1 + d / M.sqrt (px * px + py * py + pz * pz)) - px) ^ 2
          + (py * (1 + d / M.sqrt (px * px + py * py + pz * pz)) - py) ^ 2
          + (pz * (1 + d / M.sqrt (px * px + py * py + pz * pz)) - pz) ^ 2
          ≤ (3 / 2 * a) ^ 2) := by
  have hpos : 0 < px * px + py * py + pz * pz := by
    rcases not_and_or.mp hne with h | h
    · have := mul_self_pos.mpr h
      nlinarith [mul_self_nonneg py, mul_self_nonneg pz]
    · rcases not_and_or.mp h with h | h
      · have := mul_self_pos.mpr h
        nlinarith [mul_self_nonneg px, mul_self_nonneg pz]
      · have := mul_self_pos.mpr h
        nlinarith [mul_self_nonneg px, mul_self_nonneg py]
  have hl := M.sqrt_pos _ hpos
  set l := M.sqrt (px * px + py * py + pz * pz) with hldef
  have h1 : |M.sin (px * ns + τ * nv) * M.cos (py * ns + τ * nv) * M.sin (pz * ns + τ * nv)| ≤ 1 :=
    abs_mul3_le_one _ _ _ (M.sin_abs_le _) (M.cos_abs_le _) (M.sin_abs_le _)
  have h2 : |M.cos (px * ns * 2 + τ * nv * (3 / 2)) * M.sin (py * ns * 2 + τ * nv * (3 / 2))
      * M.cos (pz * ns * 2 + τ * nv * (3 / 2))| ≤ 1 :=
    abs_mul3_le_one _ _ _ (M.cos_abs_le _) (M.sin_abs_le _) (M.cos_abs_le _)
  refine ⟨M.sin (px * ns + τ * nv) * M.cos (py * ns + τ * nv) * M.sin (pz * ns + τ * nv) * a
      + M.cos (px * ns * 2 + τ * nv * (3 / 2)) * M.sin (py * ns * 2 + τ * nv * (3 / 2))
        * M.cos (pz * ns * 2 + τ * nv * (3 / 2)) * a * (1 / 2), ?_, ?_, ?_⟩
  · have e1 := abs_mul (M.sin (px * ns + τ * nv) * M.cos (py * ns + τ * nv)
      * M.sin (pz * ns + τ * nv)) a
    have e2 := abs_mul (M.cos (px * ns * 2 + τ * nv * (3 / 2))
      * M.sin (py * ns * 2 + τ * nv * (3 / 2)) * M.cos (pz * ns * 2 + τ * nv * (3 / 2))) a
    rw [abs_of_nonneg ha] at e1 e2
    have b1 := mul_le_mul_of_nonneg_right h1 ha
    have b2 := mul_le_mul_of_nonneg_right h2 ha
    have e3 : |M.cos (px * ns * 2 + τ * nv * (3 / 2)) * M.sin (py * ns * 2 + τ * nv * (3 / 2))
        * M.cos (pz * ns * 2 + τ * nv * (3 / 2)) * a * (1 / 2)|
        = |M.cos (px * ns * 2 + τ * nv * (3 / 2)) * M.sin (py * ns * 2 + τ * nv * (3 / 2))
          * M.cos (pz * ns * 2 + τ * nv * (3 / 2)) * a| * (1 / 2) := by
      rw [abs_mul, abs_of_nonneg (by norm_num : (0 : ℚ) ≤ 1 / 2)]
    calc _ ≤ _ := abs_add _ _
      _ ≤ 3 / 2 * a := by rw [e3, e1, e2]; linarith
  · simp only [morphVertex, hx, hy, hz, hturb, hscale, hspeed, JSMath.sqrtN, JSMath.sinN,
      JSMath.cosN, fin_mul_fin, fin_add_fin, fin_div_fin, not_lt.mpr hpos.le, if_false,
      ← hldef, hl.ne']
    simp only [Vec3.mk.injEq, JSNum.fin.injEq]
    refine ⟨?_, ?_, ?_⟩ <;> (field_simp; ring)
  · intro hexact
    have hd : ∀ d : ℚ, |d| ≤ 3 / 2 * a →
        (px * (1 + d / l) - px) ^ 2 + (py * (1 + d / l) - py) ^ 2 + (pz * (1 + d / l) - pz) ^ 2
          ≤ (3 / 2 * a) ^ 2 := by
      intro d hdle
      have hsum : (px * (1 + d / l) - px) ^ 2 + (py * (1 + d / l) - py) ^ 2
          + (pz * (1 + d / l) - pz) ^ 2 = d ^ 2 := by
        have e : (px * (1 + d / l) - px) ^ 2 + (py * (1 + d / l) - py) ^ 2
            + (pz * (1 + d / l) - pz) ^ 2 = (d / l) ^ 2 * (px * px + py * py + pz * pz) := by
          ring
        rw [e, ← hexact]
        have hlne : l * l ≠ 0 := mul_ne_zero hl.ne' hl.ne'
        calc (d / l) ^ 2 * (l * l) = d ^ 2 * (l * l / (l * l)) := by ring
          _ = d ^ 2 := by rw [div_self hlne, mul_one]
      rw [hsum]
      have := abs_le.mp hdle
      nlinarith [abs_nonneg d]
    apply hd
    have e1 := abs_mul (M.sin (px * ns + τ * nv) * M.cos (py * ns + τ * nv)
      * M.sin (pz * ns + τ * nv)) a
    have e2 := abs_mul (M.cos (px * ns * 2 + τ * nv * (3 / 2))
      * M.sin (py * ns * 2 + τ * nv * (3 / 2)) * M.cos (pz * ns * 2 + τ * nv * (3 / 2))) a
    rw [abs_of_nonneg ha] at e1 e2
    have b1 := mul_le_mul_of_nonneg_right h1 ha
    have b2 := mul_le_mul_of_nonneg_right h2 ha
    have e3 : |M.cos (px * ns * 2 + τ * nv * (3 / 2)) * M.sin (py * ns * 2 + τ * nv * (3 / 2))
        * M.cos (pz * ns * 2 + τ * nv * (3 / 2)) * a * (1 / 2)|
        = |M.cos (px * ns * 2 + τ * nv * (3 / 2)) * M.sin (py * ns * 2 + τ * nv * (3 / 2))
          * M.cos (pz * ns * 2 + τ * nv * (3 / 2)) * a| * (1 / 2) := by
      rw [abs_mul, abs_of_nonneg (by norm_num : (0 : ℚ) ≤ 1 / 2)]
    calc _ ≤ _ := abs_add _ _
      _ ≤ 3 / 2 * a := by rw [e3, e1, e2]; linarith

theorem morphVertex_turbulence_bound_witness :
    ∃ d : ℚ, |d| ≤ 3 / 2 * (3 / 10) ∧
      morphVertex standInMath agitatedDemo.params (fin (1 / 60)) (fin (1 / 3))
          ⟨[⟨fin 0, fin 1, fin 0⟩]⟩ ⟨[⟨fin 0, fin 1, fin 0⟩]⟩ 0
        = ⟨fin (0 * (1 + d / standInMath.sqrt (0 * 0 + 1 * 1 + 0 * 0))),
            fin (1 * (1 + d / standInMath.sqrt (0 * 0 + 1 * 1 + 0 * 0))),
            fin (0 * (1 + d / standInMath.sqrt (0 * 0 + 1 * 1 + 0 * 0)))⟩ :=
  let ⟨d, h1, h2, _⟩ :=
    morphVertex_turbulence_bound standInMath agitatedDemo.params (1 / 60) (8 / 10) (2 / 10)
      (3 / 10) 0 1 0 (fin (1 / 3)) ⟨[⟨fin 0, fin 1, fin 0⟩]⟩ ⟨[⟨fin 0, fin 1, fin 0⟩]⟩ 0
      rfl (by norm_num) rfl rfl
      (by simp [lerp, Geometry.getX]) (by simp [lerp, Geometry.getY])
      (by simp [lerp, Geometry.getZ]) (by norm_num)
  ⟨d, h1, h2⟩

end LiquidMetal

namespace Crystal

open LiquidMetal LiquidMetal.JSNum

/-! ## Claims on the height factor -/

theorem distortedVertex_heightFactor (M : JSMath) (params : CrystalParams) (height : JSNum)
    (v : Vec3) :
    distortedVertex M params height v
      = ⟨v.x + M.sinN (v.z * fin 2 + v.x) * params.distortion * heightFactor v.y height, v.y,
          v.z + M.cosN (v.x * fin 3 + v.y) * params.distortion * heightFactor v.y height⟩ := rfl

/-- C24: height factor of the crystal distortion.  For a height `H > 0`,
`h(y) = y / H + 0.5` is 0 at the base `y = -H / 2`, 1 at the top `y = H / 2` and strictly
increasing in `y`; for a distortion `s >= 0` and a vertex not below the base, the
offsets `dx` and `dz` that the loop adds are bounded in absolute value by `s * h(y)`, and
a vertex at the base is left where it is. -/
theorem heightFactor_bounds (M : JSMath) (params : CrystalParams) (H s : ℚ) (hH : 0 < H)
    (hs : 0 ≤ s) (hdist : params.distortion = fin s) :
    heightFactor (fin (-H / 2)) (fin H) = fin 0 ∧
      heightFactor (fin (H / 2)) (fin H) = fin 1 ∧
      (∀ y : ℚ, heightFactor (fin y) (fin H) = fin (y / H + 1 / 2)) ∧
      (∀ y₁ y₂ : ℚ, y₁ < y₂ →
        (heightFactor (fin y₁) (fin H)).lt (heightFactor (fin y₂) (fin H)) = true) ∧
      (∀ x y z : ℚ, -H / 2 ≤ y →
        ∃ dx dz : ℚ,
          distortedVertex M params (fin H) ⟨fin x, fin y, fin z⟩
            = ⟨fin (x + dx), fin y, fin (z + dz)⟩ ∧
          |dx| ≤ s * (y / H + 1 / 2) ∧ |dz| ≤ s * (y / H + 1 / 2)) ∧
      (∀ x z : ℚ,
        distortedVertex M params (fin H) ⟨fin x, fin (-H / 2), fin z⟩
          = ⟨fin x, fin (-H / 2), fin z⟩) := by
  have hne : H ≠ 0 := hH.ne'
  have hform : ∀ y : ℚ, heightFactor (fin y) (fin H) = fin (y / H + 1 / 2) := by
    intro y
    simp [heightFactor, hne]
  have hbase : -H / 2 / H + 1 / 2 = (0 : ℚ) := by field_simp; ring
  have htop : H / 2 / H + 1 / 2 = (1 : ℚ) := by field_simp; ring
  refine ⟨by rw [hform, hbase], by rw [hform, htop], hform, ?_, ?_, ?_⟩
  · intro y₁ y₂ hlt
    have := div_lt_div_of_pos_right hlt hH
    rw [hform, hform, lt_fin_fin, decide_eq_true_eq]
    linarith
  · intro x y z hy
    have hh : 0 ≤ y / H + 1 / 2 := by
      have h1 : -H / 2 / H ≤ y / H := div_le_div_of_nonneg_right hy hH.le
      linarith
    refine ⟨M.sin (z * 2 + x) * s * (y / H + 1 / 2), M.cos (x * 3 + y) * s * (y / H + 1 / 2),
      ?_, ?_, ?_⟩
    · simp [distortedVertex, hdist, JSMath.sinN, JSMath.cosN, hne]
    · rw [abs_mul, abs_mul, abs_of_nonneg hs, abs_of_nonneg hh]
      have := mul_le_mul_of_nonneg_right (M.sin_abs_le (z * 2 + x)) hs
      have := mul_le_mul_of_nonneg_right this hh
      linarith
    · rw [abs_mul, abs_mul, abs_of_nonneg hs, abs_of_nonneg hh]
      have := mul_le_mul_of_nonneg_right (M.cos_abs_le (x * 3 + y)) hs
      have := mul_le_mul_of_nonneg_right this hh
      linarith
  · intro x z
    have hbase' : -H / 2 / H + 2⁻¹ = (0 : ℚ) := by rw [← hbase]; norm_num
    simp [distortedVertex, hdist, JSMath.sinN, JSMath.cosN, hne, hbase']

theorem heightFactor_bounds_witness :
    heightFactor (fin (-4 / 2)) (fin 4) = fin 0 ∧ heightFactor (fin (4 / 2)) (fin 4) = fin 1 :=
  ⟨(heightFactor_bounds standInMath crystalParams 4 (15 / 100) (by norm_num) (by norm_num)
      rfl).1,
    (heightFactor_bounds standInMath crystalParams 4 (15 / 100) (by norm_num) (by norm_num)
      rfl).2.1⟩

/-! ## Claims on the animated lights -/

/-- Every frame moves a crystal light from where the frame before left it: the new
position is the current position plus the offset of the frame. -/
theorem animateLight_accumulates (M : JSMath) (pi time : JSNum) (i : Nat) (position : Vec3) :
    animateLight M pi time i position
      = ⟨position.x + M.sinN (time * (fin (1 / 2) + fin i * fin (2 / 10)) + fin i * pi / fin 2)
            * fin (1 / 2),
          position.y + M.cosN (time * (fin (1 / 2) + fin i * fin (2 / 10)) + fin i * pi / fin 2)
            * fin (1 / 2),
          position.z⟩ :=
  rfl

/-- C21: the light positions depend on the earlier frames.  In the crystal demo, one
frame at time 0 puts the first light at `(5, 3.5, 2)` and a second frame at the same
time puts it at `(5, 4, 2)`: each frame adds its offset to the position that the frame
before left.  In the liquid-metal demo, one frame at time 0 puts the blue point light
at `(-3, 2, -4)` and a second frame at the same time puts it elsewhere: the new x is
computed from the current z.  (Evaluated with the stand-in `Math`, for which
`sin 0 = 0` and `cos 0 = 1` as for `Math`.) -/
theorem lights_depend_on_history (pi : ℚ) :
    (animateLights standInMath (fin pi) (fin 0) 0 lightSources)[0]?
        = some ⟨fin 5, fin (7 / 2), fin 2⟩ ∧
      (animateLights standInMath (fin pi) (fin 0) 0
          (animateLights standInMath (fin pi) (fin 0) 0 lightSources))[0]?
        = some ⟨fin 5, fin 4, fin 2⟩ ∧
      (updateLights standInMath (fin 0) sceneLights)[2]?
        = some ⟨true, ⟨fin (-3), fin 2, fin (-4)⟩⟩ ∧
      (updateLights standInMath (fin 0) (updateLights standInMath (fin 0) sceneLights))[2]?
        = some ⟨true, ⟨fin (-40 / 17), fin 2, fin (-6555 / 1889)⟩⟩ := by
  refine ⟨?_, ?_, ?_, ?_⟩
  · simp [animateLights, animateLight, lightSources, JSMath.sinN, JSMath.cosN, standInMath]
    norm_num
  · simp [animateLights, animateLight, lightSources, JSMath.sinN, JSMath.cosN, standInMath]
    norm_num
  · simp [updateLights, updateChild, sceneLights, JSMath.sinN, JSMath.cosN, standInMath]
    norm_num
  · simp [updateLights, updateChild, sceneLights, JSMath.sinN, JSMath.cosN, standInMath]
    norm_num

end Crystal

namespace WaveVisualizer

open LiquidMetal LiquidMetal.JSNum

/-! ## Claims on the colour conversion -/

theorem glslMod_two_range (a : ℚ) : 0 ≤ glslMod a 2 ∧ glslMod a 2 < 2 := by
  have h1 : (Int.floor (a / 2) : ℚ) ≤ a / 2 := Int.floor_le _
  have h2 : a / 2 < Int.floor (a / 2) + 1 := Int.lt_floor_add_one _
  unfold glslMod
  constructor <;> linarith

/-- C25: range of `hslToRgb`.  For every hue `h` (so for every hue in `[0, 1]`) and
every saturation `s` and lightness `l` in `[0, 1]`, each of the three channels that
`hslToRgb` returns lies in `[0, 1]`, and for `s = 0` the result is the grey
`(l, l, l)`. -/
theorem hslToRgb_range (h s l : ℚ) (hs0 : 0 ≤ s) (hs1 : s ≤ 1) (hl0 : 0 ≤ l) (hl1 : l ≤ 1) :
    (0 ≤ (hslToRgb (h, s, l)).1 ∧ (hslToRgb (h, s, l)).1 ≤ 1) ∧
      (0 ≤ (hslToRgb (h, s, l)).2.1 ∧ (hslToRgb (h, s, l)).2.1 ≤ 1) ∧
      (0 ≤ (hslToRgb (h, s, l)).2.2 ∧ (hslToRgb (h, s, l)).2.2 ≤ 1) ∧
      (s = 0 → hslToRgb (h, s, l) = (l, l, l)) := by
  have habs : |2 * l - 1| ≤ 1 := abs_le.mpr ⟨by linarith, by linarith⟩
  have hl2 : 1 - |2 * l - 1| ≤ 2 * l := by
    have := neg_abs_le (2 * l - 1)
    linarith
  have hl3 : 1 - |2 * l - 1| ≤ 2 - 2 * l := by
    have := le_abs_self (2 * l - 1)
    linarith
  have hc0 : 0 ≤ (1 - |2 * l - 1|) * s := mul_nonneg (by linarith) hs0
  have hc1 : (1 - |2 * l - 1|) * s ≤ 1 - |2 * l - 1| := by
    have := mul_le_mul_of_nonneg_left hs1 (by linarith : (0 : ℚ) ≤ 1 - |2 * l - 1|)
    linarith
  obtain ⟨hm0, hm2⟩ := glslMod_two_range (h * 6)
  have hf0 : 0 ≤ 1 - |glslMod (h * 6) 2 - 1| := by
    have : |glslMod (h * 6) 2 - 1| ≤ 1 := abs_le.mpr ⟨by linarith, by linarith⟩
    linarith
  have hf1 : 1 - |glslMod (h * 6) 2 - 1| ≤ 1 := by
    have := abs_nonneg (glslMod (h * 6) 2 - 1)
    linarith
  have hx0 : 0 ≤ (1 - |2 * l - 1|) * s * (1 - |glslMod (h * 6) 2 - 1|) := mul_nonneg hc0 hf0
  have hx1 : (1 - |2 * l - 1|) * s * (1 - |glslMod (h * 6) 2 - 1|) ≤ (1 - |2 * l - 1|) * s := by
    have := mul_le_mul_of_nonneg_left hf1 hc0
    linarith
  refine ⟨?_, ?_, ?_, ?_⟩
  · simp only [hslToRgb]
    split_ifs <;> constructor <;> simp only [] <;> linarith
  · simp only [hslToRgb]
    split_ifs <;> constructor <;> simp only [] <;> linarith
  · simp only [hslToRgb]
    split_ifs <;> constructor <;> simp only [] <;> linarith
  · intro hs
    subst hs
    simp only [hslToRgb, mul_zero, zero_mul, zero_div, sub_zero, zero_add]
    split_ifs <;> simp

theorem hslToRgb_range_witness :
    (0 ≤ (hslToRgb (7 / 10, 8 / 10, 1 / 2)).1 ∧ (hslToRgb (7 / 10, 8 / 10, 1 / 2)).1 ≤ 1) ∧
      hslToRgb (7 / 10, 0, 1 / 2) = (1 / 2, 1 / 2, 1 / 2) :=
  ⟨(hslToRgb_range (7 / 10) (8 / 10) (1 / 2) (by norm_num) (by norm_num) (by norm_num)
      (by norm_num)).1,
    (hslToRgb_range (7 / 10) 0 (1 / 2) (by norm_num) (by norm_num) (by norm_num)
      (by norm_num)).2.2.2 rfl⟩

/-! ## Claims on the pointer term -/

theorem smoothstep_le_one (d : ℚ) : smoothstep 0 1 d ≤ 1 := by
  rw [smoothstep_unit]
  have h0 : 0 ≤ min (max d 0) 1 := le_min (le_max_right _ _) (by norm_num)
  have h1 : min (max d 0) 1 ≤ 1 := min_le_right _ _
  nlinarith [mul_nonneg h0 h0, mul_nonneg (mul_nonneg h0 h0) (sub_nonneg.mpr h1),
    mul_nonneg (sub_nonneg.mpr h1) (sub_nonneg.mpr h1)]

theorem smoothstep_mono (d₁ d₂ : ℚ) (h : d₁ ≤ d₂) : smoothstep 0 1 d₁ ≤ smoothstep 0 1 d₂ := by
  rw [smoothstep_unit, smoothstep_unit]
  have ha0 : 0 ≤ min (max d₁ 0) 1 := le_min (le_max_right _ _) (by norm_num)
  have hb1 : min (max d₂ 0) 1 ≤ 1 := min_le_right _ _
  have hab : min (max d₁ 0) 1 ≤ min (max d₂ 0) 1 :=
    min_le_min (max_le_max h (le_refl 0)) (le_refl 1)
  generalize min (max d₁ 0) 1 = a at *
  generalize min (max d₂ 0) 1 = b at *
  have hb0 : 0 ≤ b := le_trans ha0 hab
  have ha1 : a ≤ 1 := le_trans hab hb1
  have key : 0 ≤ (b - a) * (3 * (a + b) - 2 * (a * a + a * b + b * b)) := by
    apply mul_nonneg (sub_nonneg.mpr hab)
    nlinarith [mul_nonneg ha0 (sub_nonneg.mpr ha1), mul_nonneg hb0 (sub_nonneg.mpr hb1),
      mul_nonneg ha0 (sub_nonneg.mpr hb1), mul_nonneg hb0 (sub_nonneg.mpr ha1)]
  nlinarith [key]

/-- C29: the pointer term is bounded and monotone.  For every `mouseInfluence`
`m > 0.01` and every distance `d` (so for every `d >= 0`), `mouseEffect` lies in
`[0, 2m]` and is non-increasing in `d`; for `m <= 0.01` it is 0. -/
theorem mouseEffect_bounded_monotone (m : ℚ) :
    (1 / 100 < m →
      (∀ d : ℚ, 0 ≤ mouseEffect m d ∧ mouseEffect m d ≤ 2 * m) ∧
      (∀ d₁ d₂ : ℚ, d₁ ≤ d₂ → mouseEffect m d₂ ≤ mouseEffect m d₁)) ∧
    (m ≤ 1 / 100 → ∀ d : ℚ, mouseEffect m d = 0) := by
  constructor
  · intro hm
    have hgate : m > 1 / 100 := hm
    have hm0 : 0 ≤ m := by linarith
    constructor
    · intro d
      simp only [mouseEffect, if_pos hgate]
      have h0 := smoothstep_nonneg d
      have h1 := smoothstep_le_one d
      constructor
      · have : 0 ≤ (1 - smoothstep 0 1 d) * m := mul_nonneg (by linarith) hm0
        linarith
      · have : (1 - smoothstep 0 1 d) * m ≤ 1 * m :=
          mul_le_mul_of_nonneg_right (by linarith) hm0
        linarith
    · intro d₁ d₂ hd
      simp only [mouseEffect, if_pos hgate]
      have := smoothstep_mono d₁ d₂ hd
      have : (1 - smoothstep 0 1 d₂) * m ≤ (1 - smoothstep 0 1 d₁) * m :=
        mul_le_mul_of_nonneg_right (by linarith) hm0
      linarith
  · intro hm d
    simp only [mouseEffect]
    rw [if_neg (by linarith)]

theorem mouseEffect_bounded_monotone_witness :
    (0 ≤ mouseEffect 1 (1 / 2) ∧ mouseEffect 1 (1 / 2) ≤ 2 * 1) ∧
      mouseEffect 1 (3 / 4) ≤ mouseEffect 1 (1 / 2) ∧ mouseEffect (1 / 100) 0 = 0 :=
  ⟨((mouseEffect_bounded_monotone 1).1 (by norm_num)).1 (1 / 2),
    ((mouseEffect_bounded_monotone 1).1 (by norm_num)).2 (1 / 2) (3 / 4) (by norm_num),
    (mouseEffect_bounded_monotone (1 / 100)).2 (le_refl _) 0⟩

end WaveVisualizer

namespace NeonBlob

open LiquidMetal LiquidMetal.JSNum

/-! ## Claims on the orbit shell -/

theorem pushParticles_mem (M : JSMath) (pi : JSNum) (random : Nat → Draw) (n i : Nat)
    (particles : List Particle) (q : Particle)
    (h : q ∈ pushParticles M pi random n i particles) :
    q ∈ particles ∨ ∃ k, q = createParticle M pi random k := by
  induction n generalizing i particles with
  | zero => exact Or.inl h
  | succ n ih =>
    simp only [pushParticles] at h
    rcases ih _ _ h with h1 | h1
    · rcases List.mem_append.mp h1 with h2 | h2
      · exact Or.inl h2
      · exact Or.inr ⟨i, by simpa using h2⟩
    · exact Or.inr h1

/-- The radius that `createParticles` chooses lies in `[2, 4)`. -/
theorem createParticles_radius (M : JSMath) (pi : JSNum) (random : Nat → Draw) (q : Particle)
    (h : q ∈ createParticles M pi random) :
    ∃ r : ℚ, q.userData.radius = fin r ∧ 2 ≤ r ∧ r < 4 := by
  rcases pushParticles_mem M pi random 200 0 [] q h with h1 | ⟨k, hk⟩
  · simp at h1
  · refine ⟨2 + (random (6 * k)).val * 2, ?_, ?_, ?_⟩
    · rw [hk]
      simp [createParticle]
    · have := (random (6 * k)).property.1
      linarith
    · have := (random (6 * k)).property.2
      linarith

/-- The squared distance from the origin of the point that the particle update
computes, for a unit axis and a sine and cosine on the unit circle: `r² + 2 w r aₓ + w²`,
where `w` is the wobble. -/
theorem orbit_norm_sq (r ax ay az c s w : ℚ) (hunit : ax * ax + ay * ay + az * az = 1)
    (htrig : s ^ 2 + c ^ 2 = 1) :
    (((1 - c) * ax * ax + c) * r + ax * w) ^ 2
        + (((1 - c) * ax * ay + s * az) * r + ay * w) ^ 2
        + (((1 - c) * ax * az - s * ay) * r + az * w) ^ 2
      = r ^ 2 + 2 * w * r * ax + w ^ 2 := by
  linear_combination
    (r ^ 2 * ((1 - c) ^ 2 * ax ^ 2 + s ^ 2) + 2 * w * r * ax * (1 - c) + w ^ 2) * hunit
      + r ^ 2 * (1 - ax ^ 2) * htrig

/-- The bounds on `r² + 2 w r aₓ + w²` for a wobble of at most 0.05 and a component of
the axis of at most 1. -/
theorem shell_bounds (r w ax : ℚ) (hw : |w| ≤ 5 / 100) (hax : |ax| ≤ 1) (hr : 5 / 100 ≤ r) :
    (r - 5 / 100) ^ 2 ≤ r ^ 2 + 2 * w * r * ax + w ^ 2 ∧
      r ^ 2 + 2 * w * r * ax + w ^ 2 ≤ (r + 5 / 100) ^ 2 := by
  have ha0 : 0 ≤ |w| := abs_nonneg w
  have hwax : |w * ax| ≤ |w| := by
    rw [abs_mul]
    calc |w| * |ax| ≤ |w| * 1 := mul_le_mul_of_nonneg_left hax ha0
      _ = |w| := mul_one _
  obtain ⟨hlow, hhigh⟩ := abs_le.mp hwax
  have hr0 : 0 ≤ r := by linarith
  have hww : w ^ 2 = |w| ^ 2 := (sq_abs w).symm
  have e1 : 0 ≤ r * (w * ax + |w|) := mul_nonneg hr0 (by linarith)
  have e2 : 0 ≤ r * (|w| - w * ax) := mul_nonneg hr0 (by linarith)
  have e3 : 0 ≤ (5 / 100 - |w|) * (2 * r - |w| - 5 / 100) :=
    mul_nonneg (by linarith) (by linarith)
  have e4 : 0 ≤ (5 / 100 - |w|) * (2 * r + |w| + 5 / 100) :=
    mul_nonneg (by linarith) (by linarith)
  constructor
  · have h1 : (r - |w|) ^ 2 ≤ r ^ 2 + 2 * w * r * ax + w ^ 2 := by
      rw [hww]; linarith
    have h2 : (r - 5 / 100) ^ 2 ≤ (r - |w|) ^ 2 := by linarith
    linarith
  · have h1 : r ^ 2 + 2 * w * r * ax + w ^ 2 ≤ (r + |w|) ^ 2 := by
      rw [hww]; linarith
    have h2 : (r + |w|) ^ 2 ≤ (r + 5 / 100) ^ 2 := by linarith
    linarith

/-- C28: the particle stays on its orbit shell.  For every particle with a unit
`orbitAxis` and every time `t`, with the sine and cosine of the orbit angle on the unit
circle, the distance from the origin of the position that `animate` sets lies between
`radius - 0.05` and `radius + 0.05` (stated on the squares, for a radius of at least
0.05); hence it is at least 1.95 for a radius of at least 2, and every radius that
`createParticles` chooses lies in `[2, 4)`. -/
theorem particle_on_shell (M : JSMath) (t r sp off ax ay az : ℚ) (p : Particle)
    (hu : p.userData = ⟨fin r, fin sp, fin off, ⟨fin ax, fin ay, fin az⟩⟩)
    (hunit : ax * ax + ay * ay + az * az = 1)
    (htrig : M.sin (t * sp + off) ^ 2 + M.cos (t * sp + off) ^ 2 = 1) :
    (∃ x y z : ℚ, (updateParticle M (fin t) p).position = ⟨fin x, fin y, fin z⟩ ∧
        (5 / 100 ≤ r →
          (r - 5 / 100) ^ 2 ≤ x ^ 2 + y ^ 2 + z ^ 2 ∧
            x ^ 2 + y ^ 2 + z ^ 2 ≤ (r + 5 / 100) ^ 2) ∧
        (2 ≤ r → (195 / 100) ^ 2 ≤ x ^ 2 + y ^ 2 + z ^ 2)) ∧
      (∀ (pi : JSNum) (random : Nat → Draw) (q : Particle),
        q ∈ createParticles M pi random →
          ∃ r' : ℚ, q.userData.radius = fin r' ∧ 2 ≤ r' ∧ r' < 4) := by
  refine ⟨?_, fun pi random q h => createParticles_radius M pi random q h⟩
  have hwabs : |M.sin (t * 5 + off) * (5 / 100)| ≤ 5 / 100 := by
    rw [abs_mul, abs_of_nonneg (by norm_num : (0 : ℚ) ≤ 5 / 100)]
    have h1 := M.sin_abs_le (t * 5 + off)
    have h2 := mul_le_mul_of_nonneg_right h1 (by norm_num : (0 : ℚ) ≤ 5 / 100)
    linarith
  have hax : |ax| ≤ 1 := by
    have h1 : ax * ax ≤ 1 := by
      have := mul_self_nonneg ay
      have := mul_self_nonneg az
      linarith
    exact abs_le.mpr ⟨by nlinarith [mul_self_nonneg (ax + 1)], by nlinarith [mul_self_nonneg (ax - 1)]⟩
  have hnorm := orbit_norm_sq r ax ay az (M.cos (t * sp + off)) (M.sin (t * sp + off))
    (M.sin (t * 5 + off) * (5 / 100)) hunit htrig
  refine ⟨((1 - M.cos (t * sp + off)) * ax * ax + M.cos (t * sp + off)) * r
      + ax * (M.sin (t * 5 + off) * (5 / 100)),
    ((1 - M.cos (t * sp + off)) * ax * ay + M.sin (t * sp + off) * az) * r
      + ay * (M.sin (t * 5 + off) * (5 / 100)),
    ((1 - M.cos (t * sp + off)) * ax * az - M.sin (t * sp + off) * ay) * r
      + az * (M.sin (t * 5 + off) * (5 / 100)), ?_, ?_, ?_⟩
  · simp only [updateParticle, makeRotationAxis, applyMatrix4, addScaledVector, hu,
      JSMath.sinN, JSMath.cosN, fin_mul_fin, fin_add_fin, fin_sub_fin, fin_div_fin]
    norm_num
  · intro hr
    rw [hnorm]
    exact shell_bounds r _ ax hwabs hax hr
  · intro hr
    rw [hnorm]
    have h := (shell_bounds r _ ax hwabs hax (by linarith)).1
    have h2 : (195 / 100 : ℚ) ^ 2 ≤ (r - 5 / 100) ^ 2 := by nlinarith
    linarith

theorem particle_on_shell_witness :
    ∃ x y z : ℚ, (updateParticle standInMath (fin 3) shellParticle).position
        = ⟨fin x, fin y, fin z⟩ ∧ (195 / 100) ^ 2 ≤ x ^ 2 + y ^ 2 + z ^ 2 :=
  let ⟨x, y, z, h1, _, h3⟩ :=
    (particle_on_shell standInMath 3 2 (1 / 2) 0 0 1 0 shellParticle rfl (by norm_num)
      (by norm_num [standInMath])).1
  ⟨x, y, z, h1, h3 (le_refl 2)⟩

end NeonBlob
